import Mathlib

/-!
Shallow embedding of `src/mongo-shard/setup_table_shard.js`, a MongoDB
sharding-setup script.  The script's interaction with the cluster is modelled
as a state monad over a cluster-state record plus traces of the issued
administrative calls, the performed reads, and the emitted log lines; the
external system (MongoDB) is modelled by an environment that decides the
outcome of every administrative call and read.  Timestamps, the `sleep`
busy-waits and JS floating-point formatting inside a few log strings are
abstracted (they carry no control flow); everything else follows the source
line by line.
-/

namespace SetupTableShard

/-- Value of one field of a Mongo key pattern: `1`, `-1`, or `"hashed"`
(the three forms appearing in the script's configuration). -/
inductive KeyVal where
  | asc
  | desc
  | hashed
deriving DecidableEq, Repr

/-- A key pattern, i.e. a JS object such as `{appID: 1, deviceID: 1}`,
kept as an ordered field list (JS objects preserve insertion order,
which is what `JSON.stringify` serialises). -/
abbrev Key := List (String × KeyVal)

/-- Serialisation of a single key value as `JSON.stringify` renders it. -/
def keyValJson : KeyVal → String
  | .asc => "1"
  | .desc => "-1"
  | .hashed => "\"hashed\""

/-- Comma-separated field list of `JSON.stringify` on a key pattern. -/
def jsonStringifyFields : Key → String
  | [] => ""
  | [(f, v)] => "\"" ++ f ++ "\":" ++ keyValJson v
  | (f, v) :: p :: rest =>
      "\"" ++ f ++ "\":" ++ keyValJson v ++ "," ++ jsonStringifyFields (p :: rest)

/-- Rendering of `JSON.stringify` on a key pattern object, used by the script
both in log lines and to compare index key patterns (lines 592-594, 633-635,
783-785 of the source). -/
def jsonStringifyKey (k : Key) : String :=
  "\x7b" ++ jsonStringifyFields k ++ "\x7d"

/-- Options of a configured index (the `options` object of each entry of
`collections[_].indexes`): `unique` (absent means false) and `name`. -/
structure IndexOptions where
  unique : Bool := false
  name : Option String := none
deriving DecidableEq, Repr

/-- One configured index: `{key: ..., options: ...}`. -/
structure IndexConfig where
  key : Key
  options : IndexOptions
deriving DecidableEq, Repr

/-- One entry of `CONFIG.collections`. -/
structure CollConfig where
  name : String
  description : String
  shardKey : Key
  indexes : List IndexConfig
deriving DecidableEq, Repr

/-- The `CONFIG.sharding` block. -/
structure ShardingConfig where
  initialChunks : Nat
  chunkSizeMB : Nat
  enableBalancer : Bool
deriving DecidableEq, Repr

/-- The `CONFIG.options` block. -/
structure OptionsConfig where
  skipExistingSharded : Bool
  backgroundIndex : Bool
  validateResults : Bool
  dryRun : Bool
deriving DecidableEq, Repr

/-- The whole `CONFIG` object. -/
structure Config where
  connectionString : String
  database : String
  collections : List CollConfig
  sharding : ShardingConfig
  options : OptionsConfig
deriving DecidableEq, Repr

/-- Configuration of the `ug_user` collection (source lines 30-93). -/
def ugUser : CollConfig :=
  { name := "ug_user"
    description := "用户表"
    shardKey := [("name", .hashed)]
    indexes :=
      [ ⟨[("name", .hashed)], ⟨true, some "idx_name"⟩⟩
      , ⟨[("id", .asc)], ⟨false, some "idx_id"⟩⟩
      , ⟨[("appID", .asc)], ⟨false, some "idx_appID"⟩⟩
      , ⟨[("phoneNum", .asc)], ⟨false, some "idx_phoneNum"⟩⟩
      , ⟨[("lastLoginTime", .asc)], ⟨false, some "idx_lastLoginTime"⟩⟩
      , ⟨[("createTime", .asc)], ⟨false, some "idx_createTime"⟩⟩
      , ⟨[("accountType", .asc)], ⟨false, some "idx_accountType"⟩⟩
      , ⟨[("idCard", .asc)], ⟨false, some "idx_idCard"⟩⟩ ] }

/-- Configuration of the `ug_id_card` collection (source lines 94-108). -/
def ugIdCard : CollConfig :=
  { name := "ug_id_card"
    description := "身份证表"
    shardKey := [("idCard", .asc)]
    indexes := [ ⟨[("idCard", .asc)], ⟨true, some "idx_idCard"⟩⟩ ] }

/-- Configuration of the `ug_device` collection (source lines 109-151). -/
def ugDevice : CollConfig :=
  { name := "ug_device"
    description := "设备表"
    shardKey := [("appID", .asc), ("deviceID", .asc)]
    indexes :=
      [ ⟨[("appID", .asc), ("deviceID", .asc)], ⟨true, some "idx_deviceID"⟩⟩
      , ⟨[("oaid", .asc)], ⟨false, some "idx_oaid"⟩⟩
      , ⟨[("imei", .asc)], ⟨false, some "idx_imei"⟩⟩
      , ⟨[("idfa", .asc)], ⟨false, some "idx_idfa"⟩⟩
      , ⟨[("createTime", .asc)], ⟨false, some "idx_createTime"⟩⟩ ] }

/-- Configuration of the `ug_order_notify_log` collection (source lines 152-164). -/
def ugOrderNotifyLog : CollConfig :=
  { name := "ug_order_notify_log"
    description := "订单通知日志表"
    shardKey := [("orderID", .asc)]
    indexes := [ ⟨[("orderID", .asc)], ⟨false, some "idx_orderID"⟩⟩ ] }

/-- Configuration of the `ug_order_platform_log` collection (source lines 165-177). -/
def ugOrderPlatformLog : CollConfig :=
  { name := "ug_order_platform_log"
    description := "订单平台日志表"
    shardKey := [("orderID", .asc)]
    indexes := [ ⟨[("orderID", .asc)], ⟨false, some "idx_orderID"⟩⟩ ] }

/-- Configuration of the `ug_game_user` collection (source lines 178-219). -/
def ugGameUser : CollConfig :=
  { name := "ug_game_user"
    description := "游戏用户表"
    shardKey := [("uid", .asc)]
    indexes :=
      [ ⟨[("uid", .asc)], ⟨false, some "idx_uid"⟩⟩
      , ⟨[("appID", .asc)], ⟨false, some "idx_appID"⟩⟩
      , ⟨[("name", .asc)], ⟨false, some "idx_name"⟩⟩
      , ⟨[("lastLoginTime", .asc)], ⟨false, some "idx_lastLoginTime"⟩⟩
      , ⟨[("accountType", .asc)], ⟨false, some "idx_accountType"⟩⟩ ] }

/-- Configuration of the `ug_order` collection (source lines 220-296). -/
def ugOrder : CollConfig :=
  { name := "ug_order"
    description := "订单表"
    shardKey := [("uid", .asc)]
    indexes :=
      [ ⟨[("uid", .asc)], ⟨false, some "idx_uid"⟩⟩
      , ⟨[("id", .asc)], ⟨false, some "idx_id"⟩⟩
      , ⟨[("platformOrderID", .asc)], ⟨false, some "idx_platformOrderID"⟩⟩
      , ⟨[("appID", .asc)], ⟨false, some "idx_appID"⟩⟩
      , ⟨[("payType", .asc)], ⟨false, some "idx_payType"⟩⟩
      , ⟨[("roleID", .asc)], ⟨false, some "idx_roleID"⟩⟩
      , ⟨[("serverID", .asc)], ⟨false, some "idx_serverID"⟩⟩
      , ⟨[("createTime", .asc)], ⟨false, some "idx_createTime"⟩⟩
      , ⟨[("uid", .asc), ("createTime", .desc)], ⟨false, some "idx_uid_createTime"⟩⟩
      , ⟨[("appID", .asc), ("createTime", .desc)], ⟨false, some "idx_appID_createTime"⟩⟩ ] }

/-- Configuration of the `ug_login_log` collection (source lines 297-325). -/
def ugLoginLog : CollConfig :=
  { name := "ug_login_log"
    description := "登录日志表"
    shardKey := [("userID", .asc)]
    indexes :=
      [ ⟨[("userID", .asc)], ⟨false, some "idx_userID"⟩⟩
      , ⟨[("appID", .asc)], ⟨false, some "idx_appID"⟩⟩
      , ⟨[("loginTime", .asc)], ⟨false, some "idx_loginTime"⟩⟩ ] }

/-- The built-in `CONFIG` object (source lines 21-343). -/
def CONFIG : Config :=
  { connectionString := ""
    database := "xsdk_v2_test"
    collections :=
      [ ugUser, ugIdCard, ugDevice, ugOrderNotifyLog, ugOrderPlatformLog
      , ugGameUser, ugOrder, ugLoginLog ]
    sharding := { initialChunks := 8, chunkSizeMB := 64, enableBalancer := true }
    options :=
      { skipExistingSharded := true, backgroundIndex := true
        validateResults := true, dryRun := false } }

/-- An index as reported by `coll.getIndexes()`: a name, a key pattern and
(the only option the configuration ever sets) a uniqueness flag. -/
structure ExistingIndex where
  name : String
  key : Key
  unique : Bool
deriving DecidableEq, Repr

/-- Observable state of the cluster, restricted to what the script reads or
writes: which databases have sharding enabled, which collections exist in the
target database, their indexes, which namespaces are sharded (the
`config.collections` documents that carry a `key`), and the chunk count per
namespace (`config.chunks`). -/
structure ClusterState where
  shardedDatabases : List String
  collections : List String
  indexes : List (String × List ExistingIndex)
  shardedNs : List (String × Key)
  chunks : List (String × Nat)
deriving DecidableEq, Repr

/-- Cluster with no collection, no index, nothing sharded and no chunk. -/
def emptyCluster : ClusterState := ⟨[], [], [], [], []⟩

/-- Insert-or-replace in an association list. -/
def setAssoc {β : Type} (k : String) (v : β) : List (String × β) → List (String × β)
  | [] => [(k, v)]
  | (k', v') :: rest => if k' == k then (k, v) :: rest else (k', v') :: setAssoc k v rest

/-- Indexes of a collection as `getIndexes()` would list them (a collection
absent from the association list has none). -/
def indexList (c : ClusterState) (n : String) : List ExistingIndex :=
  (c.indexes.lookup n).getD []

/-- Chunk count of a namespace as `config.chunks.countDocuments({ns})` returns it. -/
def chunkCount (c : ClusterState) (ns : String) : Nat :=
  (c.chunks.lookup ns).getD 0

/-- Field value inside a split-point document: the script uses a number for
`appID` and a string for `deviceID`. -/
inductive SplitVal where
  | num (n : Nat)
  | str (s : String)
deriving DecidableEq, Repr

/-- A split-point document handed to `sh.splitFind`, as an ordered field list. -/
abbrev SplitDoc := List (String × SplitVal)

/-- The split point the script builds on line 724:
`{appID: i, deviceID: "split_point_" + i}`. -/
def splitPointDoc (i : Nat) : SplitDoc :=
  [("appID", .num i), ("deviceID", .str ("split_point_" ++ toString i))]

/-- Mutating administrative calls the script can issue. -/
inductive Call where
  | enableSharding (dbName : String)
  | createCollection (collName : String)
  | createIndex (collName : String) (key : Key) (unique : Bool)
      (idxName : Option String) (background : Bool)
  | shardCollection (ns : String) (key : Key)
  | splitFind (ns : String) (doc : SplitDoc)
deriving DecidableEq, Repr

/-- Outcome of a mutating administrative call, decided by the environment:
it succeeds, it returns a result whose `ok` field is not `1` (the script
only inspects that field for `sh.enableSharding` and `sh.shardCollection`;
`repr` stands for `JSON.stringify(result)`), or it throws an error whose
`message` is `msg`. -/
inductive CallOutcome where
  | ok
  | notOk (repr : String)
  | throws (msg : String)
deriving DecidableEq, Repr

/-- Read-only accesses the script performs. -/
inductive ReadCall where
  | hello
  | connectionStatus
  | usersInfo (user : String) (db : String)
  | getCollectionNames
  | findShardedConfig (ns : String)
  | getIndexes (collName : String)
  | countChunks (ns : String)
  | findChunksByShard (ns : String)
  | collStats (collName : String)
deriving DecidableEq, Repr

/-- Result of `coll.stats()` as far as the script looks at it. -/
structure CollStats where
  sharded : Bool
  count : Nat
  size : Nat
  shards : List (String × Nat)
deriving DecidableEq, Repr

/-- Environment modelling the external system: the outcome of every mutating
call, whether each read throws, and the data of the reads that are not part
of the tracked cluster state (connection introspection, per-shard statistics,
the wall clock). -/
structure Env where
  callOutcome : Call → CallOutcome
  readError : ReadCall → Option String
  helloMsg : String
  authUser : Option (String × String)
  userRoles : List String
  statsFor : String → CollStats
  chunksByShard : String → List (String × Nat)
  elapsedTime : String
  startTime : String

/-- Default Mongo name of an index derived from its key pattern
(for a `createIndex` whose options carry no `name`). -/
def defaultIndexName : Key → String
  | [] => ""
  | [(f, v)] => f ++ "_" ++ keyValJson v
  | (f, v) :: p :: rest => f ++ "_" ++ keyValJson v ++ "_" ++ defaultIndexName (p :: rest)

/-- The implicit `_id` index every newly created collection gets. -/
def idIndex : ExistingIndex := ⟨"_id_", [("_id", .asc)], false⟩

/-- Effect of a successful administrative call on the cluster state:
enabling database sharding records the database; creating a collection
records it (with its automatic `_id` index); creating an index appends it
unless an index with the same serialised key pattern is already there;
sharding a collection records its shard key and leaves it with at least one
chunk; a successful split turns one chunk into two. -/
def applyCall : Call → ClusterState → ClusterState
  | .enableSharding dbName, c =>
      if c.shardedDatabases.contains dbName then c
      else { c with shardedDatabases := c.shardedDatabases ++ [dbName] }
  | .createCollection n, c =>
      if c.collections.contains n then c
      else { c with collections := c.collections ++ [n]
                    indexes := setAssoc n [idIndex] c.indexes }
  | .createIndex n k u nm _, c =>
      let cur := (c.indexes.lookup n).getD []
      if cur.any (fun x => jsonStringifyKey x.key == jsonStringifyKey k) then c
      else { c with indexes := setAssoc n (cur ++ [⟨nm.getD (defaultIndexName k), k, u⟩]) c.indexes }
  | .shardCollection ns k, c =>
      { c with shardedNs := setAssoc ns k c.shardedNs
               chunks := setAssoc ns (max ((c.chunks.lookup ns).getD 0) 1) c.chunks }
  | .splitFind ns _, c =>
      { c with chunks := setAssoc ns ((c.chunks.lookup ns).getD 0 + 1) c.chunks }

/-- Severity of a log line (the `Logger` methods of lines 346-386; `heading`
stands for `section`, `divider` for the dashed separator). -/
inductive LogLevel where
  | info
  | success
  | warning
  | error
  | heading
  | divider
deriving DecidableEq, Repr

/-- One emitted log line (timestamps are presentation only and are dropped). -/
structure LogEvent where
  level : LogLevel
  msg : String
deriving DecidableEq, Repr

/-- The results accumulator of `ShardingManager` (lines 409-414). -/
structure Results where
  success : List String
  skipped : List String
  failed : List (String × String)
deriving DecidableEq, Repr

/-- Full execution state: the cluster plus the traces of reads, issued calls
and log lines, and the results tally. -/
structure St where
  cluster : ClusterState
  reads : List ReadCall
  calls : List Call
  logs : List LogEvent
  results : Results
deriving DecidableEq, Repr

/-- Initial execution state over a given cluster. -/
def mkSt (c : ClusterState) : St :=
  { cluster := c, reads := [], calls := [], logs := [], results := ⟨[], [], []⟩ }

/-- Execution monad: given the environment and the current state, a
computation either returns a value or propagates a JS exception (kept as its
`message` string); in both cases the state records everything done so far. -/
def M (α : Type) : Type := Env → St → Except String α × St

instance : Monad M where
  pure a := fun _ s => (Except.ok a, s)
  bind x f := fun env s =>
    match x env s with
    | (Except.ok a, s1) => f a env s1
    | (Except.error e, s1) => (Except.error e, s1)

/-- Throw a JS exception carrying message `msg`. -/
def throwM {α : Type} (msg : String) : M α := fun _ s => (Except.error msg, s)

/-- JS `try { body } catch (error) { handler(error.message) }`. -/
def tryCatchM {α : Type} (body : M α) (handler : String → M α) : M α := fun env s =>
  match body env s with
  | (Except.ok a, s1) => (Except.ok a, s1)
  | (Except.error e, s1) => handler e env s1

/-- Emit a log line. -/
def logE (lv : LogLevel) (msg : String) : M Unit :=
  fun _ s => (Except.ok (), { s with logs := s.logs ++ [⟨lv, msg⟩] })

/-- The `logger.info` method. -/
def logInfo (msg : String) : M Unit := logE .info msg

/-- The `logger.success` method. -/
def logSuccess (msg : String) : M Unit := logE .success msg

/-- The `logger.warning` method. -/
def logWarning (msg : String) : M Unit := logE .warning msg

/-- The `logger.error` method. -/
def logError (msg : String) : M Unit := logE .error msg

/-- The `logger.section` banner. -/
def logSection (title : String) : M Unit := logE .heading title

/-- The `logger.divider` separator line. -/
def logDivider : M Unit := logE .divider ""

/-- Perform a read-only access: it is recorded in the read trace; the
environment may make it throw, otherwise it returns the value `v` computes
from the environment and the cluster state. -/
def readM {α : Type} (r : ReadCall) (v : Env → ClusterState → α) : M α := fun env s =>
  let s1 := { s with reads := s.reads ++ [r] }
  match env.readError r with
  | some m => (Except.error m, s1)
  | none => (Except.ok (v env s.cluster), s1)

/-- Read a component of the execution state itself (the results tally). -/
def getsM {α : Type} (g : St → α) : M α := fun _ s => (Except.ok (g s), s)

/-- Read a component of the environment (the wall clock). -/
def envM {α : Type} (g : Env → α) : M α := fun env s => (Except.ok (g env), s)

/-- Issue a mutating administrative call: the attempt is recorded in the call
trace, and on a successful outcome the cluster state changes accordingly. -/
def issueCall (c : Call) : M CallOutcome := fun env s =>
  let out := env.callOutcome c
  let cluster1 := match out with
    | .ok => applyCall c s.cluster
    | _ => s.cluster
  (Except.ok out, { s with calls := s.calls ++ [c], cluster := cluster1 })

/-- Issue a call whose return value the script ignores (so a `notOk` result
goes unnoticed), but whose exception propagates. -/
def issueVoid (c : Call) : M Unit :=
  issueCall c >>= fun out =>
    match out with
    | .throws m => throwM m
    | _ => pure ()

/-- The busy-wait `sleep(ms)` of lines 389-394: no observable effect in the
model. -/
def sleepM (_ : Nat) : M Unit := pure ()

/-- Append a collection to `results.success`. -/
def pushSuccess (n : String) : M Unit :=
  fun _ s => (Except.ok (), { s with results := { s.results with success := s.results.success ++ [n] } })

/-- Append a collection to `results.skipped`. -/
def pushSkipped (n : String) : M Unit :=
  fun _ s => (Except.ok (), { s with results := { s.results with skipped := s.results.skipped ++ [n] } })

/-- Append a collection with its error to `results.failed`. -/
def pushFailed (n : String) (e : String) : M Unit :=
  fun _ s => (Except.ok (), { s with results := { s.results with failed := s.results.failed ++ [(n, e)] } })

/-- Does the second character list occur as a prefix of the first list's
argument order, i.e. does `hay` start with `needle`? -/
def charsStartWith : List Char → List Char → Bool
  | _, [] => true
  | [], _ :: _ => false
  | b :: bs, a :: as => a == b && charsStartWith bs as

/-- Does `needle` occur as a contiguous run inside `hay`? -/
def charsContain : List Char → List Char → Bool
  | [], needle => needle.isEmpty
  | hd :: rest, needle => charsStartWith (hd :: rest) needle || charsContain rest needle

/-- JS `hay.includes(needle)`: substring containment. -/
def includesSub (hay needle : String) : Bool :=
  charsContain hay.data needle.data

/-- The `formatBytes` helper of lines 396-402; the JS floating-point
rendering (`toFixed(2)` then `parseFloat`) is abstracted to the integer
part, the unit computation is the same. -/
def formatBytes (bytes : Nat) : String :=
  if bytes = 0 then "0 Bytes"
  else
    let i := Nat.log 1024 bytes
    toString (bytes / 1024 ^ i) ++ " " ++ (["Bytes", "KB", "MB", "GB", "TB"].getD i "")

/-- Step 1, `validateConnection` (lines 448-485): read-only introspection;
any exception is rewrapped as `连接验证失败: ...` and aborts the run. -/
def validateConnection : M Unit :=
  logInfo "验证 MongoDB 连接和权限..." >>= fun _ =>
  tryCatchM
    (readM .hello (fun env _ => env.helloMsg) >>= fun helloMsg =>
     (if helloMsg != "isdbgrid" then
        logWarning ("可能未连接到 mongos，当前连接类型: " ++ helloMsg)
      else pure ()) >>= fun _ =>
     readM .connectionStatus (fun env _ => env.authUser) >>= fun user =>
     (match user with
      | some (u, udb) =>
          logSuccess ("已连接用户: " ++ u ++ "@" ++ udb) >>= fun _ =>
          readM (.usersInfo u udb) (fun env _ => env.userRoles) >>= fun roles =>
          let hasShardPerm := roles.any (fun role => role == "clusterAdmin" || role == "clusterManager")
          if !hasShardPerm then logWarning "用户可能缺少分片管理权限" else pure ()
      | none => pure ()) >>= fun _ =>
     logSuccess "连接验证通过")
    (fun m => throwM ("连接验证失败: " ++ m))

/-- Step 2, `enableDatabaseSharding` (lines 488-511): skipped under dry-run;
a thrown `already enabled` is swallowed, any other failure propagates. -/
def enableDatabaseSharding (cfg : Config) : M Unit :=
  logInfo ("启用数据库分片: " ++ cfg.database) >>= fun _ =>
  if cfg.options.dryRun then
    logInfo "[试运行] 跳过实际执行"
  else
    tryCatchM
      (issueCall (.enableSharding cfg.database) >>= fun result =>
       match result with
       | .ok => logSuccess "数据库分片启用成功"
       | .notOk r => throwM ("启用失败: " ++ r)
       | .throws m => throwM m)
      (fun m =>
        if includesSub m "already enabled" then logInfo "数据库分片已启用"
        else throwM m)

/-- The `checkCollectionExists` helper (lines 567-570). -/
def checkCollectionExists (collectionName : String) : M Bool :=
  readM .getCollectionNames (fun _ c => c.collections) >>= fun names =>
  pure (names.contains collectionName)

/-- The `checkIfSharded` helper (lines 573-577): a namespace counts as
sharded when its `config.collections` document exists and carries a key. -/
def checkIfSharded (fullCollectionName : String) : M Bool :=
  readM (.findShardedConfig fullCollectionName)
    (fun _ c => (c.shardedNs.lookup fullCollectionName).isSome)

/-- Loop body of `createIndexes` (lines 590-622), iterating with the entry
index `i` over the configured indexes against the one-time snapshot
`existing` of the collection's indexes. -/
def createIndexesLoop (cfg : Config) (cc : CollConfig) (existing : List ExistingIndex) :
    Nat → List IndexConfig → M Unit
  | _, [] => pure ()
  | i, idx :: rest =>
    (if existing.any (fun e => jsonStringifyKey e.key == jsonStringifyKey idx.key) then
       logInfo ("  索引 " ++ toString (i + 1) ++ ". " ++ jsonStringifyKey idx.key ++ " (已存在)")
     else if cfg.options.dryRun then
       logInfo ("  [试运行] 创建索引: " ++ jsonStringifyKey idx.key)
     else
       tryCatchM
         (issueVoid (.createIndex cc.name idx.key idx.options.unique idx.options.name
            cfg.options.backgroundIndex) >>= fun _ =>
          logSuccess ("  索引 " ++ toString (i + 1) ++ ". " ++ jsonStringifyKey idx.key ++ " 创建成功") >>= fun _ =>
          if cfg.options.backgroundIndex then sleepM 100 else pure ())
         (fun m =>
           logWarning ("  索引 " ++ toString (i + 1) ++ ". " ++ jsonStringifyKey idx.key ++ " 创建失败: " ++ m)))
    >>= fun _ => createIndexesLoop cfg cc existing (i + 1) rest

/-- The `createIndexes` step (lines 580-623). -/
def createIndexes (cfg : Config) (cc : CollConfig) : M Unit :=
  if cc.indexes.isEmpty then pure ()
  else
    logInfo ("创建业务索引 (" ++ toString cc.indexes.length ++ " 个)") >>= fun _ =>
    readM (.getIndexes cc.name) (fun _ c => indexList c cc.name) >>= fun existing =>
    createIndexesLoop cfg cc existing 0 cc.indexes

/-- The `createShardKeyIndex` step (lines 626-663): create the shard-key
index unless an index with the same serialised key pattern exists; a
creation failure is rewrapped and propagates. -/
def createShardKeyIndex (cfg : Config) (cc : CollConfig) : M Unit :=
  logInfo ("创建分片键索引（_id 哈希）: " ++ jsonStringifyKey cc.shardKey) >>= fun _ =>
  readM (.getIndexes cc.name) (fun _ c => indexList c cc.name) >>= fun existing =>
  if existing.any (fun idx => jsonStringifyKey idx.key == jsonStringifyKey cc.shardKey) then
    logInfo "  分片键索引已存在"
  else if cfg.options.dryRun then
    logInfo "  [试运行] 创建 _id 哈希索引"
  else
    tryCatchM
      (issueVoid (.createIndex cc.name cc.shardKey false none cfg.options.backgroundIndex) >>= fun _ =>
       logSuccess "  _id 哈希索引创建成功" >>= fun _ =>
       if cfg.options.backgroundIndex then
         logInfo "  等待 _id 哈希索引创建完成..." >>= fun _ => sleepM 3000
       else pure ())
      (fun m => throwM ("创建 _id 哈希索引失败: " ++ m))

/-- The `enableCollectionSharding` step (lines 666-695): a thrown
`already sharded` is swallowed, `create an index` is logged and rethrown,
anything else rethrown. -/
def enableCollectionSharding (cfg : Config) (cc : CollConfig) : M Unit :=
  let fullName := cfg.database ++ "." ++ cc.name
  logInfo "启用表分片" >>= fun _ =>
  logInfo ("  分片键: " ++ jsonStringifyKey cc.shardKey) >>= fun _ =>
  if cfg.options.dryRun then
    logInfo ("  [试运行] 启用分片: " ++ fullName)
  else
    tryCatchM
      (issueCall (.shardCollection fullName cc.shardKey) >>= fun result =>
       match result with
       | .ok => logSuccess "  分片启用成功"
       | .notOk r => throwM ("分片失败: " ++ r)
       | .throws m => throwM m)
      (fun m =>
        if includesSub m "already sharded" then logInfo "  表已分片"
        else if includesSub m "create an index" then
          logWarning "  分片失败: 需要先创建索引" >>= fun _ => throwM m
        else throwM m)

/-- The split loop of `preSplitChunks` (lines 719-735), over the remaining
attempt indices with the running `created` counter: a success logs progress,
a `chunk is too small` error logs and breaks, any other error logs a warning
and continues. -/
def splitLoop (fullName : String) (chunksNeeded : Nat) : List Nat → Nat → M Nat
  | [], created => pure created
  | i :: rest, created =>
    tryCatchM
      (issueVoid (.splitFind fullName (splitPointDoc i)) >>= fun _ =>
       logInfo ("    分割 " ++ toString (created + 1) ++ "/" ++ toString chunksNeeded ++ " 完成") >>= fun _ =>
       sleepM 50 >>= fun _ =>
       pure (some (created + 1)))
      (fun m =>
        if includesSub m "chunk is too small" then
          logInfo "    分块太小，停止分割" >>= fun _ => pure none
        else
          logWarning ("    分割 " ++ toString (i + 1) ++ " 失败: " ++ m) >>= fun _ =>
          pure (some created))
    >>= fun r =>
      match r with
      | none => pure created
      | some c => splitLoop fullName chunksNeeded rest c

/-- The part of `preSplitChunks` after the dry-run gate and the chunk-count
read (lines 711-739), given the observed `currentChunks`. -/
def preSplitRemaining (cfg : Config) (cc : CollConfig) (currentChunks : Nat) : M Unit :=
  let fullName := cfg.database ++ "." ++ cc.name
  if currentChunks ≥ cfg.sharding.initialChunks then
    logInfo ("  当前已有 " ++ toString currentChunks ++ " 个分块，满足要求")
  else
    let chunksNeeded := cfg.sharding.initialChunks - currentChunks
    logInfo ("  需要创建 " ++ toString chunksNeeded ++ " 个新分块") >>= fun _ =>
    splitLoop fullName chunksNeeded (List.range chunksNeeded) 0 >>= fun created =>
    if created > 0 then logSuccess ("  成功分割 " ++ toString created ++ " 个分块")
    else pure ()

/-- The `preSplitChunks` step (lines 698-740): returns at once under
dry-run, otherwise splits until the chunk count target is reached. -/
def preSplitChunks (cfg : Config) (cc : CollConfig) : M Unit :=
  let fullName := cfg.database ++ "." ++ cc.name
  logInfo ("预先分割分块 (目标: " ++ toString cfg.sharding.initialChunks ++ " 个)") >>= fun _ =>
  if cfg.options.dryRun then
    logInfo "  [试运行] 分割分块"
  else
    readM (.countChunks fullName) (fun _ c => chunkCount c fullName) >>= fun currentChunks =>
    preSplitRemaining cfg cc currentChunks

/-- The part of the `try` body of `processCollection` after the existence
check and optional creation (lines 534-556): the sharded-state check and,
unless skipped, the index/sharding/pre-split pipeline. -/
def processCollectionTail (cfg : Config) (cc : CollConfig) : M Unit :=
  let fullName := cfg.database ++ "." ++ cc.name
  checkIfSharded fullName >>= fun isAlreadySharded =>
  if isAlreadySharded && cfg.options.skipExistingSharded then
    logInfo "表已分片，跳过" >>= fun _ =>
    pushSkipped cc.name
  else
    createIndexes cfg cc >>= fun _ =>
    createShardKeyIndex cfg cc >>= fun _ =>
    enableCollectionSharding cfg cc >>= fun _ =>
    preSplitChunks cfg cc >>= fun _ =>
    pushSuccess cc.name >>= fun _ =>
    logSuccess ("表 " ++ cc.name ++ " 处理完成")

/-- The body of the `try` block of `processCollection` (lines 520-556); the
`use(database)` switch has no observable effect in the model. -/
def processCollectionBody (cfg : Config) (cc : CollConfig) : M Unit :=
  checkCollectionExists cc.name >>= fun collectionExists =>
  (if !collectionExists then
     logWarning ("表 " ++ cc.name ++ " 不存在，将创建") >>= fun _ =>
     (if !cfg.options.dryRun then
        issueVoid (.createCollection cc.name) >>= fun _ =>
        logSuccess "表创建成功"
      else pure ())
   else pure ()) >>= fun _ =>
  processCollectionTail cfg cc

/-- Step 3, `processCollection` (lines 514-564): any exception from the body
is caught, logged and recorded in the failed list. -/
def processCollection (cfg : Config) (cc : CollConfig) : M Unit :=
  logDivider >>= fun _ =>
  logInfo ("处理表: " ++ cc.name ++ " (" ++ cc.description ++ ")") >>= fun _ =>
  tryCatchM (processCollectionBody cfg cc)
    (fun m =>
      logError ("处理表 " ++ cc.name ++ " 失败: " ++ m) >>= fun _ =>
      pushFailed cc.name m)

/-- The verbose index listing of `validateIndexes` (lines 793-797). -/
def logIndexList : Nat → List ExistingIndex → M Unit
  | _, [] => pure ()
  | i, idx :: rest =>
    logInfo ("  " ++ toString (i + 1) ++ ". " ++ idx.name ++ ": " ++ jsonStringifyKey idx.key) >>= fun _ =>
    logIndexList (i + 1) rest

/-- The `validateIndexes` check (lines 775-798). -/
def validateIndexes (cc : CollConfig) : M Unit :=
  readM (.getIndexes cc.name) (fun _ c => indexList c cc.name) >>= fun indexes =>
  logInfo ("索引总数: " ++ toString indexes.length) >>= fun _ =>
  (if indexes.any (fun idx => jsonStringifyKey idx.key == jsonStringifyKey cc.shardKey) then
     logSuccess "  分片键索引: 存在 ✅"
   else
     logError "  分片键索引: 缺失 ❌") >>= fun _ =>
  logIndexList 0 indexes

/-- Comma-separated field list of the chunks-per-shard tally. -/
def shardCountsFields : List (String × Nat) → String
  | [] => ""
  | [(n, c)] => "\"" ++ n ++ "\":" ++ toString c
  | (n, c) :: p :: rest => "\"" ++ n ++ "\":" ++ toString c ++ "," ++ shardCountsFields (p :: rest)

/-- Serialisation of the chunks-per-shard tally as `JSON.stringify` would
print the JS object built on lines 816-819. -/
def jsonStringifyShardCounts (l : List (String × Nat)) : String :=
  "\x7b" ++ shardCountsFields l ++ "\x7d"

/-- The `validateSharding` check (lines 801-822). -/
def validateSharding (fullName : String) : M Unit :=
  readM (.findShardedConfig fullName) (fun _ c => c.shardedNs.lookup fullName) >>= fun shardedKey =>
  (match shardedKey with
   | some k =>
       logSuccess "  分片配置: 已启用 ✅" >>= fun _ =>
       logInfo ("  分片键: " ++ jsonStringifyKey k)
   | none => logError "  分片配置: 未启用 ❌") >>= fun _ =>
  readM (.countChunks fullName) (fun _ c => chunkCount c fullName) >>= fun cnt =>
  logInfo ("  分块数量: " ++ toString cnt) >>= fun _ =>
  readM (.findChunksByShard fullName) (fun env _ => env.chunksByShard fullName) >>= fun dist =>
  logInfo ("  分块分布: " ++ jsonStringifyShardCounts dist)

/-- Per-shard size lines of `validateDataDistribution` (lines 837-843); the
JS percentage formatting (`toFixed(1)`) is abstracted to integer percent. -/
def logShardStats (total : Nat) : List (String × Nat) → M Unit
  | [] => pure ()
  | (shardName, sz) :: rest =>
    logInfo ("    " ++ shardName ++ ": " ++ formatBytes sz ++ " (" ++ toString (sz * 100 / total) ++ "%)") >>= fun _ =>
    logShardStats total rest

/-- The `validateDataDistribution` check (lines 825-850); `toLocaleString`
on the document count is abstracted to plain rendering. -/
def validateDataDistribution (cc : CollConfig) : M Unit :=
  tryCatchM
    (readM (.collStats cc.name) (fun env _ => env.statsFor cc.name) >>= fun stats =>
     if stats.sharded then
       logSuccess "  数据状态: 已分片 ✅" >>= fun _ =>
       logInfo ("  文档数: " ++ toString stats.count) >>= fun _ =>
       logInfo ("  数据大小: " ++ formatBytes stats.size) >>= fun _ =>
       logShardStats stats.size stats.shards
     else
       logInfo "  数据状态: 未分片")
    (fun m => logWarning ("  无法获取数据统计: " ++ m))

/-- Loop of `validateResults` over the configured collections (lines 752-771):
each collection's checks run inside their own `try`, whose failure is only a
warning. -/
def validateResultsLoop (cfg : Config) : List CollConfig → M Unit
  | [] => pure ()
  | cc :: rest =>
    let fullName := cfg.database ++ "." ++ cc.name
    logDivider >>= fun _ =>
    logInfo ("验证表: " ++ cc.name) >>= fun _ =>
    tryCatchM
      (validateIndexes cc >>= fun _ =>
       validateSharding fullName >>= fun _ =>
       validateDataDistribution cc)
      (fun m => logWarning ("验证失败: " ++ m)) >>= fun _ =>
    validateResultsLoop cfg rest

/-- Step 4, `validateResults` (lines 743-772). -/
def validateResults (cfg : Config) : M Unit :=
  if !cfg.options.validateResults then pure ()
  else
    logSection "验证分片设置结果" >>= fun _ =>
    validateResultsLoop cfg cfg.collections

/-- Failure detail lines of `showSummary` (lines 869-871). -/
def logFailedList : List (String × String) → M Unit
  | [] => pure ()
  | (n, e) :: rest =>
    logError ("  " ++ n ++ ": " ++ e) >>= fun _ =>
    logFailedList rest

/-- The shard-distribution lines of `showRecommendations` (lines 906-909). -/
def logDistCmds : List CollConfig → M Unit
  | [] => pure ()
  | cc :: rest =>
    logInfo ("   命令: db." ++ cc.name ++ ".getShardDistribution()") >>= fun _ =>
    logDistCmds rest

/-- The query-performance lines of `showRecommendations` (lines 911-914). -/
def logExplainCmds : List CollConfig → M Unit
  | [] => pure ()
  | cc :: rest =>
    logInfo ("   命令: db." ++ cc.name ++ ".find(\x7bid: \"test_id\"\x7d).explain(\x27executionStats\x27)") >>= fun _ =>
    logExplainCmds rest

/-- The `showRecommendations` step (lines 888-915): nothing under dry-run,
otherwise a fixed block of suggested follow-up commands. -/
def showRecommendations (cfg : Config) : M Unit :=
  if cfg.options.dryRun then pure ()
  else
    logSection "后续建议" >>= fun _ =>
    logInfo "1. 监控分片状态:" >>= fun _ =>
    logInfo "   命令: sh.status()" >>= fun _ =>
    logInfo "\n2. 检查平衡器状态:" >>= fun _ =>
    logInfo "   命令: db.adminCommand(\x7bbalancerStatus: 1\x7d)" >>= fun _ =>
    (if cfg.sharding.enableBalancer then
       logInfo "\n3. 启动平衡器（如果未运行）:" >>= fun _ =>
       logInfo "   命令: db.adminCommand(\x7bbalancerStart: 1\x7d)"
     else pure ()) >>= fun _ =>
    logInfo "\n4. 查看表的分片分布:" >>= fun _ =>
    logDistCmds cfg.collections >>= fun _ =>
    logInfo "\n5. 测试查询性能:" >>= fun _ =>
    logExplainCmds cfg.collections

/-- Step 5, `showSummary` (lines 853-885). -/
def showSummary (cfg : Config) : M Unit :=
  logSection "执行摘要" >>= fun _ =>
  getsM (fun s => s.results) >>= fun results =>
  let total := cfg.collections.length
  let failed := results.failed.length
  logInfo ("总表数: " ++ toString total) >>= fun _ =>
  logSuccess ("成功: " ++ toString results.success.length) >>= fun _ =>
  logInfo ("跳过: " ++ toString results.skipped.length) >>= fun _ =>
  (if failed > 0 then
     logError ("失败: " ++ toString failed) >>= fun _ =>
     logDivider >>= fun _ =>
     logInfo "失败详情:" >>= fun _ =>
     logFailedList results.failed
   else pure ()) >>= fun _ =>
  logDivider >>= fun _ =>
  envM (fun e => e.elapsedTime) >>= fun elapsed =>
  logInfo ("总耗时: " ++ elapsed) >>= fun _ =>
  (if failed = 0 then logSuccess "🎉 所有任务执行完成！"
   else logWarning "⚠️  部分任务执行失败，请检查错误信息") >>= fun _ =>
  showRecommendations cfg

/-- Sequential iteration of an action over a list, as the
`for (const collConfig of ...)` loops of the source. -/
def forEachM {α : Type} (f : α → M Unit) : List α → M Unit
  | [] => pure ()
  | a :: rest => f a >>= fun _ => forEachM f rest

/-- The `execute` orchestration (lines 417-445). -/
def execute (cfg : Config) : M Unit :=
  logSection "开始 MongoDB 分片设置" >>= fun _ =>
  logInfo ("数据库: " ++ cfg.database) >>= fun _ =>
  logInfo ("目标表: " ++ String.intercalate ", " (cfg.collections.map (fun c => c.name))) >>= fun _ =>
  logInfo ("模式: " ++ (if cfg.options.dryRun then "试运行" else "实际执行")) >>= fun _ =>
  tryCatchM
    (validateConnection >>= fun _ =>
     enableDatabaseSharding cfg >>= fun _ =>
     forEachM (processCollection cfg) cfg.collections >>= fun _ =>
     validateResults cfg >>= fun _ =>
     showSummary cfg)
    (fun m => logError ("执行失败: " ++ m) >>= fun _ => throwM m)

/-- The `main` entry point (lines 919-938), returning the process exit code:
`1` when `execute` threw (`process.exit(1)`), `0` on normal completion. -/
def main (cfg : Config) : M Nat :=
  logSection "MongoDB 分片设置脚本" >>= fun _ =>
  logInfo "版本: 1.0.0" >>= fun _ =>
  logInfo "作者: MongoDB 管理工具" >>= fun _ =>
  envM (fun e => e.startTime) >>= fun t =>
  logInfo ("开始时间: " ++ t) >>= fun _ =>
  tryCatchM (execute cfg >>= fun _ => pure 0)
    (fun m => logError ("脚本执行失败: " ++ m) >>= fun _ => pure 1)

deriving instance DecidableEq for Except

/-- The `CONFIG` object with dry-run switched on (`--dry-run true`). -/
def dryConfig : Config :=
  { CONFIG with options := { CONFIG.options with dryRun := true } }

/-- A benign environment: every administrative call succeeds, no read
throws, the shell is connected to a `mongos` with no authenticated user. -/
def okEnv : Env :=
  { callOutcome := fun _ => .ok
    readError := fun _ => none
    helloMsg := "isdbgrid"
    authUser := none
    userRoles := []
    statsFor := fun _ => ⟨false, 0, 0, []⟩
    chunksByShard := fun _ => []
    elapsedTime := "0.00秒"
    startTime := "2024-01-01T00:00:00.000Z" }

/-- Cluster state left by a first full run of the script over an empty
cluster under the benign environment. -/
def firstRunCluster : ClusterState :=
  (main CONFIG okEnv (mkSt emptyCluster)).2.cluster

/-! Predicates used by the verification: relational frames over runs,
no-failure predicates, and the result-tally bookkeeping. -/

/-- `Rel R m` says every run of `m` relates its start state to its end
state by `R` (whether the run returns or throws). -/
def Rel (R : St → St → Prop) {α : Type} (m : M α) : Prop :=
  ∀ env s, R s ((m env s).2)

/-- Closure of a relation under the read-only primitives. -/
structure StepRO (R : St → St → Prop) : Prop where
  hrefl : ∀ s, R s s
  htrans : ∀ a b c, R a b → R b c → R a c
  hlog : ∀ s e, R s { s with logs := s.logs ++ [e] }
  hread : ∀ s r, R s { s with reads := s.reads ++ [r] }

/-- Closure of a relation under issuing an administrative call (which
appends to the call trace and may change the cluster arbitrarily). -/
def IssOK (R : St → St → Prop) : Prop :=
  ∀ s c cl, R s { s with calls := s.calls ++ [c], cluster := cl }

/-- Closure of a relation under the three results-pushing primitives. -/
structure PushOK (R : St → St → Prop) : Prop where
  hsucc : ∀ s n, R s { s with results := { s.results with success := s.results.success ++ [n] } }
  hskip : ∀ s n, R s { s with results := { s.results with skipped := s.results.skipped ++ [n] } }
  hfail : ∀ s n e, R s { s with results := { s.results with failed := s.results.failed ++ [(n, e)] } }

/-- Frame relation for dry-run claims: the call trace and the cluster are
untouched. -/
def CallsClusterEq : St → St → Prop := fun s s' => s'.calls = s.calls ∧ s'.cluster = s.cluster

/-- Frame relation: the results tally is untouched. -/
def ResultsEq : St → St → Prop := fun s s' => s'.results = s.results

/-- Frame relation: the call trace only grows (by the listed suffix). -/
def CallsGrow : St → St → Prop := fun s s' => ∃ t, s'.calls = s.calls ++ t

/-- Frame relation: the log only grows. -/
def LogsGrow : St → St → Prop := fun s s' => ∃ t, s'.logs = s.logs ++ t

/-- Frame relation: the read trace only grows. -/
def ReadsGrow : St → St → Prop := fun s s' => ∃ t, s'.reads = s.reads ++ t

/-- A computation that never throws. -/
def NFa {α : Type} (m : M α) : Prop := ∀ env s, ∃ a, (m env s).1 = Except.ok a

/-- Outcome shape of `processCollectionBody`: it either returns with the
collection appended to the skipped or the success list, or throws with the
results tally untouched. -/
def RShape (name : String) (m : M Unit) : Prop := ∀ env s,
  ((m env s).1 = Except.ok () ∧
    ((m env s).2.results = { s.results with skipped := s.results.skipped ++ [name] } ∨
     (m env s).2.results = { s.results with success := s.results.success ++ [name] })) ∨
  (∃ e, (m env s).1 = Except.error e ∧ (m env s).2.results = s.results)

/-- Outcome shape of `processCollection`: it always returns, having appended
the collection to exactly one of the three result lists. -/
def PCShape (name : String) (m : M Unit) : Prop := ∀ env s,
  (m env s).1 = Except.ok () ∧
  ((m env s).2.results = { s.results with skipped := s.results.skipped ++ [name] } ∨
   (m env s).2.results = { s.results with success := s.results.success ++ [name] } ∨
   ∃ mm, (m env s).2.results = { s.results with failed := s.results.failed ++ [(name, mm)] })

/-- The collection names recorded in a results tally, as a multiset. -/
def namesOfResults (r : Results) : Multiset String :=
  (r.success : Multiset String) + (r.skipped : Multiset String) +
    ((r.failed.map Prod.fst : List String) : Multiset String)

/-- The state in which `processCollectionBody` runs inside
`processCollection` when the latter starts from `s` (after the divider and
the `处理表` log lines). -/
def pcEntryState (cc : CollConfig) (s : St) : St :=
  { s with logs := (s.logs ++ [⟨.divider, ""⟩]) ++
      [⟨.info, "处理表: " ++ cc.name ++ " (" ++ cc.description ++ ")"⟩] }

/-- The state in which the `try` body of `execute` runs when `execute`
starts from `s` (after the banner and the three mode log lines). -/
def executeEntryState (cfg : Config) (s : St) : St :=
  { s with logs :=
      (((s.logs ++ [⟨.heading, "开始 MongoDB 分片设置"⟩]) ++
        [⟨.info, "数据库: " ++ cfg.database⟩]) ++
        [⟨.info, "目标表: " ++ String.intercalate ", " (cfg.collections.map (fun c => c.name))⟩]) ++
        [⟨.info, "模式: " ++ (if cfg.options.dryRun then "试运行" else "实际执行")⟩] }

/-- The state in which the `try` body of `main` runs when `main` starts
from `s` (after the version banner). -/
def mainEntryState (env : Env) (s : St) : St :=
  { s with logs :=
      (((s.logs ++ [⟨.heading, "MongoDB 分片设置脚本"⟩]) ++
        [⟨.info, "版本: 1.0.0"⟩]) ++
        [⟨.info, "作者: MongoDB 管理工具"⟩]) ++
        [⟨.info, "开始时间: " ++ env.startTime⟩] }

/-- Does a call create an index on collection `n` whose serialised key
pattern equals that of `k`? -/
def isCreateIndexKey (n : String) (k : Key) : Call → Bool
  | .createIndex n2 k2 _ _ _ => n2 == n && (jsonStringifyKey k2 == jsonStringifyKey k)
  | _ => false

/-- Does a call create an index on collection `n` (any key)? -/
def isCreateIndexFor (n : String) : Call → Bool
  | .createIndex n2 _ _ _ _ => n2 == n
  | _ => false

/-- The `分块太小，停止分割` log line emitted when a split stops early. -/
def chunkTooSmallLog : LogEvent := ⟨.info, "    分块太小，停止分割"⟩

/-- Environment for the C3 counterexample: creating any unique index throws
a `disk full` error (matching the configured unique business index of
`ug_id_card`), everything else behaves benignly. -/
def c3Env : Env :=
  { okEnv with callOutcome := fun c =>
      match c with
      | .createIndex _ _ true _ _ => .throws "disk full"
      | _ => .ok }

/-- Environment for the C6 counterexample: every split attempt throws an
error that is not `chunk is too small`, everything else behaves benignly. -/
def c6Env : Env :=
  { okEnv with callOutcome := fun c =>
      match c with
      | .splitFind _ _ => .throws "network timeout"
      | _ => .ok }

/-- Environment where enabling database sharding throws an
`already enabled` error. -/
def alreadyEnabledEnv : Env :=
  { okEnv with callOutcome := fun c =>
      match c with
      | .enableSharding _ => .throws "sharding already enabled for database xsdk_v2_test"
      | _ => .ok }

/-- Environment where sharding a collection throws an `already sharded`
error. -/
def alreadyShardedEnv : Env :=
  { okEnv with callOutcome := fun c =>
      match c with
      | .shardCollection _ _ => .throws "collection xsdk_v2_test.ug_id_card already sharded"
      | _ => .ok }

/-- Environment where every index creation throws, so the shard-key index
step fails and the collection is recorded as failed. -/
def failShardIdxEnv : Env :=
  { okEnv with callOutcome := fun c =>
      match c with
      | .createIndex _ _ _ _ _ => .throws "quota exceeded"
      | _ => .ok }

/-- Environment whose connection check fails: the very first read throws. -/
def badConnEnv : Env :=
  { okEnv with readError := fun r =>
      match r with
      | .hello => some "connection refused"
      | _ => none }

/-- Environment whose database-level sharding step fails. -/
def badEnableEnv : Env :=
  { okEnv with callOutcome := fun c =>
      match c with
      | .enableSharding _ => .throws "not authorized"
      | _ => .ok }

/-- Cluster used by the C10 witness: the `ug_id_card` collection exists and
already carries an index with the key pattern of the configured unique
`idx_idCard` index, but under another name and without the uniqueness
option. -/
def c10Cluster : ClusterState :=
  { emptyCluster with
      collections := ["ug_id_card"]
      indexes := [("ug_id_card", [⟨"someOtherName", [("idCard", .asc)], false⟩])] }

/-- Environment used by the C7 witness run, benign except for an arbitrary
call-outcome oracle (which a dry run never consults). -/
def dryProbeEnv (co : Call → CallOutcome) : Env :=
  { okEnv with callOutcome := co }

end SetupTableShard

namespace SetupTableShard

/-! Evaluation lemmas: how each primitive computation runs on a concrete
environment and state. -/

theorem bind_apply {α β : Type} (x : M α) (g : α → M β) (env : Env) (s : St) :
    (x >>= g) env s =
      match x env s with
      | (Except.ok a, s1) => g a env s1
      | (Except.error e, s1) => (Except.error e, s1) := rfl

theorem tryCatch_apply {α : Type} (b : M α) (h : String → M α) (env : Env) (s : St) :
    tryCatchM b h env s =
      match b env s with
      | (Except.ok a, s1) => (Except.ok a, s1)
      | (Except.error e, s1) => h e env s1 := rfl

theorem pure_run {α : Type} (a : α) (env : Env) (s : St) :
    (pure a : M α) env s = (Except.ok a, s) := rfl

theorem bind_run {α β : Type} {x : M α} {env : Env} {s s1 : St} {a : α}
    (h : x env s = (Except.ok a, s1)) (g : α → M β) :
    (x >>= g) env s = g a env s1 := by
  rw [bind_apply, h]

theorem bind_run_err {α β : Type} {x : M α} {env : Env} {s s1 : St} {m : String}
    (h : x env s = (Except.error m, s1)) (g : α → M β) :
    (x >>= g) env s = (Except.error m, s1) := by
  rw [bind_apply, h]

theorem tryCatch_run_ok {α : Type} {b : M α} {env : Env} {s s1 : St} {a : α}
    (hb : b env s = (Except.ok a, s1)) (h : String → M α) :
    tryCatchM b h env s = (Except.ok a, s1) := by
  rw [tryCatch_apply, hb]

theorem tryCatch_run_err {α : Type} {b : M α} {env : Env} {s s1 : St} {m : String}
    (hb : b env s = (Except.error m, s1)) (h : String → M α) :
    tryCatchM b h env s = h m env s1 := by
  rw [tryCatch_apply, hb]

theorem logE_run (lv : LogLevel) (m : String) (env : Env) (s : St) :
    logE lv m env s = (Except.ok (), { s with logs := s.logs ++ [⟨lv, m⟩] }) := rfl

theorem throwM_run {α : Type} (m : String) (env : Env) (s : St) :
    (throwM m : M α) env s = (Except.error m, s) := rfl

theorem getsM_run {α : Type} (g : St → α) (env : Env) (s : St) :
    getsM g env s = (Except.ok (g s), s) := rfl

theorem envM_run {α : Type} (g : Env → α) (env : Env) (s : St) :
    envM g env s = (Except.ok (g env), s) := rfl

theorem pushSuccess_run (n : String) (env : Env) (s : St) :
    pushSuccess n env s =
      (Except.ok (), { s with results := { s.results with success := s.results.success ++ [n] } }) := rfl

theorem pushSkipped_run (n : String) (env : Env) (s : St) :
    pushSkipped n env s =
      (Except.ok (), { s with results := { s.results with skipped := s.results.skipped ++ [n] } }) := rfl

theorem pushFailed_run (n e : String) (env : Env) (s : St) :
    pushFailed n e env s =
      (Except.ok (), { s with results := { s.results with failed := s.results.failed ++ [(n, e)] } }) := rfl

theorem readM_run {α : Type} (r : ReadCall) (v : Env → ClusterState → α) (env : Env) (s : St) :
    readM r v env s =
      match env.readError r with
      | some m => (Except.error m, { s with reads := s.reads ++ [r] })
      | none => (Except.ok (v env s.cluster), { s with reads := s.reads ++ [r] }) := by
  unfold readM
  cases env.readError r <;> rfl

theorem issueCall_run (c : Call) (env : Env) (s : St) :
    issueCall c env s =
      (Except.ok (env.callOutcome c),
       { s with calls := s.calls ++ [c],
                cluster :=
                  match env.callOutcome c with
                  | .ok => applyCall c s.cluster
                  | _ => s.cluster }) := rfl

theorem readM_run_none {α : Type} {env : Env} {r : ReadCall} (v : Env → ClusterState → α)
    (s : St) (h : env.readError r = none) :
    readM r v env s = (Except.ok (v env s.cluster), { s with reads := s.reads ++ [r] }) := by
  simp [readM, h]

theorem readM_run_some {α : Type} {env : Env} {r : ReadCall} {m : String}
    (v : Env → ClusterState → α) (s : St) (h : env.readError r = some m) :
    readM r v env s = (Except.error m, { s with reads := s.reads ++ [r] }) := by
  simp [readM, h]

theorem issueCall_run_ok {env : Env} {c : Call} (s : St) (h : env.callOutcome c = .ok) :
    issueCall c env s =
      (Except.ok CallOutcome.ok,
       { s with calls := s.calls ++ [c], cluster := applyCall c s.cluster }) := by
  simp [issueCall, h]

theorem issueCall_run_notOk {env : Env} {c : Call} {r : String} (s : St)
    (h : env.callOutcome c = .notOk r) :
    issueCall c env s = (Except.ok (CallOutcome.notOk r), { s with calls := s.calls ++ [c] }) := by
  simp [issueCall, h]

theorem issueCall_run_throws {env : Env} {c : Call} {m : String} (s : St)
    (h : env.callOutcome c = .throws m) :
    issueCall c env s = (Except.ok (CallOutcome.throws m), { s with calls := s.calls ++ [c] }) := by
  simp [issueCall, h]

theorem issueVoid_run_ok {env : Env} {c : Call} (s : St) (h : env.callOutcome c = .ok) :
    issueVoid c env s =
      (Except.ok (), { s with calls := s.calls ++ [c], cluster := applyCall c s.cluster }) := by
  rw [issueVoid, bind_apply, issueCall_run_ok s h]
  rfl

theorem issueVoid_run_notOk {env : Env} {c : Call} {r : String} (s : St)
    (h : env.callOutcome c = .notOk r) :
    issueVoid c env s = (Except.ok (), { s with calls := s.calls ++ [c] }) := by
  rw [issueVoid, bind_apply, issueCall_run_notOk s h]
  rfl

theorem issueVoid_run_throws {env : Env} {c : Call} {m : String} (s : St)
    (h : env.callOutcome c = .throws m) :
    issueVoid c env s = (Except.error m, { s with calls := s.calls ++ [c] }) := by
  rw [issueVoid, bind_apply, issueCall_run_throws s h]
  rfl

/-! The relational framework's combinators: `StepRO` covers the read-only
primitives; issuing calls and pushing results are separate obligations so
that frame properties can exclude them. -/

section RelCombinators

variable {R : St → St → Prop} {α β : Type}

theorem rel_pure (hR : StepRO R) (a : α) : Rel R (pure a : M α) :=
  fun _ s => hR.hrefl s

theorem rel_throw (hR : StepRO R) (m : String) : Rel R (throwM m : M α) :=
  fun _ s => hR.hrefl s

theorem rel_bind (hR : StepRO R) {x : M α} {g : α → M β}
    (hx : Rel R x) (hg : ∀ a, Rel R (g a)) : Rel R (x >>= g) := by
  intro env s
  rw [bind_apply]
  rcases hxe : x env s with ⟨e, s1⟩
  have h1 : R s s1 := by
    have := hx env s
    rw [hxe] at this
    exact this
  cases e with
  | ok a => exact hR.htrans _ _ _ h1 (hg a env s1)
  | error e => exact h1

theorem rel_tryCatch (hR : StepRO R) {b : M α} {h : String → M α}
    (hb : Rel R b) (hh : ∀ e, Rel R (h e)) : Rel R (tryCatchM b h) := by
  intro env s
  rw [tryCatch_apply]
  rcases hbe : b env s with ⟨e, s1⟩
  have h1 : R s s1 := by
    have := hb env s
    rw [hbe] at this
    exact this
  cases e with
  | ok a => exact h1
  | error e => exact hR.htrans _ _ _ h1 (hh e env s1)

theorem rel_ite (c : Prop) [Decidable c] {t e : M α}
    (ht : Rel R t) (he : Rel R e) : Rel R (if c then t else e) := by
  by_cases h : c
  · rwa [if_pos h]
  · rwa [if_neg h]

theorem rel_ite_left {c : Prop} [Decidable c] {t e : M α}
    (h : c) (ht : Rel R t) : Rel R (if c then t else e) := by
  rwa [if_pos h]

theorem rel_ite_right {c : Prop} [Decidable c] {t e : M α}
    (h : ¬ c) (he : Rel R e) : Rel R (if c then t else e) := by
  rwa [if_neg h]

theorem rel_ite_cond {c : Prop} [Decidable c] {t e : M α}
    (ht : c → Rel R t) (he : ¬ c → Rel R e) : Rel R (if c then t else e) := by
  by_cases h : c
  · rw [if_pos h]
    exact ht h
  · rw [if_neg h]
    exact he h

theorem rel_logE (hR : StepRO R) (lv : LogLevel) (m : String) : Rel R (logE lv m) :=
  fun _ s => hR.hlog s ⟨lv, m⟩

theorem rel_readM (hR : StepRO R) (r : ReadCall) (v : Env → ClusterState → α) :
    Rel R (readM r v) := by
  intro env s
  rcases h : env.readError r with _ | m <;> simp only [readM, h] <;> exact hR.hread s r

theorem rel_getsM (hR : StepRO R) (g : St → α) : Rel R (getsM g) :=
  fun _ s => hR.hrefl s

theorem rel_envM (hR : StepRO R) (g : Env → α) : Rel R (envM g) :=
  fun _ s => hR.hrefl s

theorem rel_sleep (hR : StepRO R) (n : Nat) : Rel R (sleepM n) :=
  fun _ s => hR.hrefl s

theorem rel_issueCall (hI : IssOK R) (c : Call) : Rel R (issueCall c) :=
  fun _ s => hI s c _

theorem rel_issueVoid (hR : StepRO R) (hI : IssOK R) (c : Call) : Rel R (issueVoid c) := by
  unfold issueVoid
  refine rel_bind hR (rel_issueCall hI c) (fun out => ?_)
  cases out with
  | ok => exact rel_pure hR _
  | notOk r => exact rel_pure hR _
  | throws m => exact rel_throw hR _

theorem rel_pushSuccess (hP : PushOK R) (n : String) : Rel R (pushSuccess n) :=
  fun _ s => hP.hsucc s n

theorem rel_pushSkipped (hP : PushOK R) (n : String) : Rel R (pushSkipped n) :=
  fun _ s => hP.hskip s n

theorem rel_pushFailed (hP : PushOK R) (n e : String) : Rel R (pushFailed n e) :=
  fun _ s => hP.hfail s n e

theorem rel_forEachM (hR : StepRO R) (f : α → M Unit) (hf : ∀ a, Rel R (f a)) :
    ∀ l : List α, Rel R (forEachM f l)
  | [] => rel_pure hR ()
  | a :: rest => by
      simp only [forEachM]
      exact rel_bind hR (hf a) (fun _ => rel_forEachM hR f hf rest)

end RelCombinators

section RelSteps

variable {R : St → St → Prop}

theorem rel_validateConnection (hR : StepRO R) : Rel R validateConnection := by
  unfold validateConnection
  refine rel_bind hR (rel_logE hR _ _) (fun _ => ?_)
  refine rel_tryCatch hR ?_ (fun m => rel_throw hR _)
  refine rel_bind hR (rel_readM hR _ _) (fun helloMsg => ?_)
  refine rel_bind hR (rel_ite _ (rel_logE hR _ _) (rel_pure hR _)) (fun _ => ?_)
  refine rel_bind hR (rel_readM hR _ _) (fun user => ?_)
  refine rel_bind hR ?_ (fun _ => rel_logE hR _ _)
  rcases user with _ | ⟨u, udb⟩
  · exact rel_pure hR _
  · refine rel_bind hR (rel_logE hR _ _) (fun _ => ?_)
    refine rel_bind hR (rel_readM hR _ _) (fun roles => ?_)
    exact rel_ite _ (rel_logE hR _ _) (rel_pure hR _)

theorem rel_enableDatabaseSharding (hR : StepRO R) (hI : IssOK R) (cfg : Config) :
    Rel R (enableDatabaseSharding cfg) := by
  unfold enableDatabaseSharding
  refine rel_bind hR (rel_logE hR _ _) (fun _ => ?_)
  refine rel_ite _ (rel_logE hR _ _) ?_
  refine rel_tryCatch hR ?_ (fun m => rel_ite _ (rel_logE hR _ _) (rel_throw hR _))
  refine rel_bind hR (rel_issueCall hI _) (fun result => ?_)
  cases result with
  | ok => exact rel_logE hR _ _
  | notOk r => exact rel_throw hR _
  | throws m => exact rel_throw hR _

theorem rel_enableDatabaseSharding_dry (hR : StepRO R) {cfg : Config}
    (hdry : cfg.options.dryRun = true) : Rel R (enableDatabaseSharding cfg) := by
  unfold enableDatabaseSharding
  refine rel_bind hR (rel_logE hR _ _) (fun _ => ?_)
  exact rel_ite_left hdry (rel_logE hR _ _)

theorem rel_checkCollectionExists (hR : StepRO R) (n : String) :
    Rel R (checkCollectionExists n) := by
  unfold checkCollectionExists
  exact rel_bind hR (rel_readM hR _ _) (fun _ => rel_pure hR _)

theorem rel_checkIfSharded (hR : StepRO R) (ns : String) : Rel R (checkIfSharded ns) :=
  rel_readM hR _ _

theorem rel_createIndexesLoop (hR : StepRO R) (hI : IssOK R) (cfg : Config) (cc : CollConfig)
    (existing : List ExistingIndex) : ∀ (i : Nat) (l : List IndexConfig),
    Rel R (createIndexesLoop cfg cc existing i l)
  | _, [] => rel_pure hR ()
  | i, idx :: rest => by
      simp only [createIndexesLoop]
      refine rel_bind hR ?_ (fun _ => rel_createIndexesLoop hR hI cfg cc existing (i + 1) rest)
      refine rel_ite _ (rel_logE hR _ _) ?_
      refine rel_ite _ (rel_logE hR _ _) ?_
      refine rel_tryCatch hR ?_ (fun m => rel_logE hR _ _)
      refine rel_bind hR (rel_issueVoid hR hI _) (fun _ => ?_)
      refine rel_bind hR (rel_logE hR _ _) (fun _ => ?_)
      exact rel_ite _ (rel_sleep hR _) (rel_pure hR _)

theorem rel_createIndexesLoop_dry (hR : StepRO R) {cfg : Config} (cc : CollConfig)
    (existing : List ExistingIndex) (hdry : cfg.options.dryRun = true) :
    ∀ (i : Nat) (l : List IndexConfig), Rel R (createIndexesLoop cfg cc existing i l)
  | _, [] => rel_pure hR ()
  | i, idx :: rest => by
      simp only [createIndexesLoop]
      refine rel_bind hR ?_ (fun _ => rel_createIndexesLoop_dry hR cc existing hdry (i + 1) rest)
      refine rel_ite _ (rel_logE hR _ _) ?_
      exact rel_ite_left hdry (rel_logE hR _ _)

theorem rel_createIndexes (hR : StepRO R) (hI : IssOK R) (cfg : Config) (cc : CollConfig) :
    Rel R (createIndexes cfg cc) := by
  unfold createIndexes
  refine rel_ite _ (rel_pure hR _) ?_
  refine rel_bind hR (rel_logE hR _ _) (fun _ => ?_)
  refine rel_bind hR (rel_readM hR _ _) (fun existing => ?_)
  exact rel_createIndexesLoop hR hI cfg cc existing 0 cc.indexes

theorem rel_createIndexes_dry (hR : StepRO R) {cfg : Config} (cc : CollConfig)
    (hdry : cfg.options.dryRun = true) : Rel R (createIndexes cfg cc) := by
  unfold createIndexes
  refine rel_ite _ (rel_pure hR _) ?_
  refine rel_bind hR (rel_logE hR _ _) (fun _ => ?_)
  refine rel_bind hR (rel_readM hR _ _) (fun existing => ?_)
  exact rel_createIndexesLoop_dry hR cc existing hdry 0 cc.indexes

theorem rel_createShardKeyIndex (hR : StepRO R) (hI : IssOK R) (cfg : Config) (cc : CollConfig) :
    Rel R (createShardKeyIndex cfg cc) := by
  unfold createShardKeyIndex
  refine rel_bind hR (rel_logE hR _ _) (fun _ => ?_)
  refine rel_bind hR (rel_readM hR _ _) (fun existing => ?_)
  refine rel_ite _ (rel_logE hR _ _) ?_
  refine rel_ite _ (rel_logE hR _ _) ?_
  refine rel_tryCatch hR ?_ (fun m => rel_throw hR _)
  refine rel_bind hR (rel_issueVoid hR hI _) (fun _ => ?_)
  refine rel_bind hR (rel_logE hR _ _) (fun _ => ?_)
  refine rel_ite _ ?_ (rel_pure hR _)
  exact rel_bind hR (rel_logE hR _ _) (fun _ => rel_sleep hR _)

theorem rel_createShardKeyIndex_dry (hR : StepRO R) {cfg : Config} (cc : CollConfig)
    (hdry : cfg.options.dryRun = true) : Rel R (createShardKeyIndex cfg cc) := by
  unfold createShardKeyIndex
  refine rel_bind hR (rel_logE hR _ _) (fun _ => ?_)
  refine rel_bind hR (rel_readM hR _ _) (fun existing => ?_)
  refine rel_ite _ (rel_logE hR _ _) ?_
  exact rel_ite_left hdry (rel_logE hR _ _)

theorem rel_enableCollectionSharding (hR : StepRO R) (hI : IssOK R) (cfg : Config)
    (cc : CollConfig) : Rel R (enableCollectionSharding cfg cc) := by
  unfold enableCollectionSharding
  refine rel_bind hR (rel_logE hR _ _) (fun _ => ?_)
  refine rel_bind hR (rel_logE hR _ _) (fun _ => ?_)
  refine rel_ite _ (rel_logE hR _ _) ?_
  refine rel_tryCatch hR ?_ (fun m => ?_)
  · refine rel_bind hR (rel_issueCall hI _) (fun result => ?_)
    cases result with
    | ok => exact rel_logE hR _ _
    | notOk r => exact rel_throw hR _
    | throws m => exact rel_throw hR _
  · refine rel_ite _ (rel_logE hR _ _) ?_
    refine rel_ite _ ?_ (rel_throw hR _)
    exact rel_bind hR (rel_logE hR _ _) (fun _ => rel_throw hR _)

theorem rel_enableCollectionSharding_dry (hR : StepRO R) {cfg : Config} (cc : CollConfig)
    (hdry : cfg.options.dryRun = true) : Rel R (enableCollectionSharding cfg cc) := by
  unfold enableCollectionSharding
  refine rel_bind hR (rel_logE hR _ _) (fun _ => ?_)
  refine rel_bind hR (rel_logE hR _ _) (fun _ => ?_)
  exact rel_ite_left hdry (rel_logE hR _ _)

theorem rel_splitLoop (hR : StepRO R) (hI : IssOK R) (fn : String) (needed : Nat) :
    ∀ (l : List Nat) (created : Nat), Rel R (splitLoop fn needed l created)
  | [], _ => rel_pure hR _
  | i :: rest, created => by
      simp only [splitLoop]
      refine rel_bind hR ?_ (fun r => ?_)
      · refine rel_tryCatch hR ?_ (fun m => ?_)
        · refine rel_bind hR (rel_issueVoid hR hI _) (fun _ => ?_)
          refine rel_bind hR (rel_logE hR _ _) (fun _ => ?_)
          exact rel_bind hR (rel_sleep hR _) (fun _ => rel_pure hR _)
        · refine rel_ite _ ?_ ?_
          · exact rel_bind hR (rel_logE hR _ _) (fun _ => rel_pure hR _)
          · exact rel_bind hR (rel_logE hR _ _) (fun _ => rel_pure hR _)
      · rcases r with _ | c2
        · exact rel_pure hR _
        · exact rel_splitLoop hR hI fn needed rest c2

theorem rel_preSplitRemaining (hR : StepRO R) (hI : IssOK R) (cfg : Config) (cc : CollConfig)
    (currentChunks : Nat) : Rel R (preSplitRemaining cfg cc currentChunks) := by
  unfold preSplitRemaining
  refine rel_ite _ (rel_logE hR _ _) ?_
  refine rel_bind hR (rel_logE hR _ _) (fun _ => ?_)
  refine rel_bind hR (rel_splitLoop hR hI _ _ _ _) (fun created => ?_)
  exact rel_ite _ (rel_logE hR _ _) (rel_pure hR _)

theorem rel_preSplitChunks (hR : StepRO R) (hI : IssOK R) (cfg : Config) (cc : CollConfig) :
    Rel R (preSplitChunks cfg cc) := by
  unfold preSplitChunks
  refine rel_bind hR (rel_logE hR _ _) (fun _ => ?_)
  refine rel_ite _ (rel_logE hR _ _) ?_
  refine rel_bind hR (rel_readM hR _ _) (fun currentChunks => ?_)
  exact rel_preSplitRemaining hR hI cfg cc currentChunks

theorem rel_preSplitChunks_dry (hR : StepRO R) {cfg : Config} (cc : CollConfig)
    (hdry : cfg.options.dryRun = true) : Rel R (preSplitChunks cfg cc) := by
  unfold preSplitChunks
  refine rel_bind hR (rel_logE hR _ _) (fun _ => ?_)
  exact rel_ite_left hdry (rel_logE hR _ _)

theorem rel_processCollectionTail (hR : StepRO R) (hI : IssOK R) (hP : PushOK R)
    (cfg : Config) (cc : CollConfig) : Rel R (processCollectionTail cfg cc) := by
  unfold processCollectionTail
  refine rel_bind hR (rel_checkIfSharded hR _) (fun isAlreadySharded => ?_)
  refine rel_ite _ ?_ ?_
  · exact rel_bind hR (rel_logE hR _ _) (fun _ => rel_pushSkipped hP _)
  · refine rel_bind hR (rel_createIndexes hR hI cfg cc) (fun _ => ?_)
    refine rel_bind hR (rel_createShardKeyIndex hR hI cfg cc) (fun _ => ?_)
    refine rel_bind hR (rel_enableCollectionSharding hR hI cfg cc) (fun _ => ?_)
    refine rel_bind hR (rel_preSplitChunks hR hI cfg cc) (fun _ => ?_)
    exact rel_bind hR (rel_pushSuccess hP _) (fun _ => rel_logE hR _ _)

theorem rel_processCollectionTail_dry (hR : StepRO R) (hP : PushOK R) {cfg : Config}
    (cc : CollConfig) (hdry : cfg.options.dryRun = true) :
    Rel R (processCollectionTail cfg cc) := by
  unfold processCollectionTail
  refine rel_bind hR (rel_checkIfSharded hR _) (fun isAlreadySharded => ?_)
  refine rel_ite _ ?_ ?_
  · exact rel_bind hR (rel_logE hR _ _) (fun _ => rel_pushSkipped hP _)
  · refine rel_bind hR (rel_createIndexes_dry hR cc hdry) (fun _ => ?_)
    refine rel_bind hR (rel_createShardKeyIndex_dry hR cc hdry) (fun _ => ?_)
    refine rel_bind hR (rel_enableCollectionSharding_dry hR cc hdry) (fun _ => ?_)
    refine rel_bind hR (rel_preSplitChunks_dry hR cc hdry) (fun _ => ?_)
    exact rel_bind hR (rel_pushSuccess hP _) (fun _ => rel_logE hR _ _)

theorem rel_processCollectionBody (hR : StepRO R) (hI : IssOK R) (hP : PushOK R)
    (cfg : Config) (cc : CollConfig) : Rel R (processCollectionBody cfg cc) := by
  unfold processCollectionBody
  refine rel_bind hR (rel_checkCollectionExists hR _) (fun collectionExists => ?_)
  refine rel_bind hR ?_ (fun _ => rel_processCollectionTail hR hI hP cfg cc)
  refine rel_ite _ ?_ (rel_pure hR _)
  refine rel_bind hR (rel_logE hR _ _) (fun _ => ?_)
  refine rel_ite _ ?_ (rel_pure hR _)
  exact rel_bind hR (rel_issueVoid hR hI _) (fun _ => rel_logE hR _ _)

theorem rel_processCollectionBody_dry (hR : StepRO R) (hP : PushOK R) {cfg : Config}
    (cc : CollConfig) (hdry : cfg.options.dryRun = true) :
    Rel R (processCollectionBody cfg cc) := by
  unfold processCollectionBody
  refine rel_bind hR (rel_checkCollectionExists hR _) (fun collectionExists => ?_)
  refine rel_bind hR ?_ (fun _ => rel_processCollectionTail_dry hR hP cc hdry)
  refine rel_ite _ ?_ (rel_pure hR _)
  refine rel_bind hR (rel_logE hR _ _) (fun _ => ?_)
  refine rel_ite_right ?_ (rel_pure hR _)
  rw [hdry]
  simp

theorem rel_processCollection (hR : StepRO R) (hI : IssOK R) (hP : PushOK R)
    (cfg : Config) (cc : CollConfig) : Rel R (processCollection cfg cc) := by
  unfold processCollection
  refine rel_bind hR (rel_logE hR _ _) (fun _ => ?_)
  refine rel_bind hR (rel_logE hR _ _) (fun _ => ?_)
  refine rel_tryCatch hR (rel_processCollectionBody hR hI hP cfg cc) (fun m => ?_)
  exact rel_bind hR (rel_logE hR _ _) (fun _ => rel_pushFailed hP _ _)

theorem rel_processCollection_dry (hR : StepRO R) (hP : PushOK R) {cfg : Config}
    (cc : CollConfig) (hdry : cfg.options.dryRun = true) : Rel R (processCollection cfg cc) := by
  unfold processCollection
  refine rel_bind hR (rel_logE hR _ _) (fun _ => ?_)
  refine rel_bind hR (rel_logE hR _ _) (fun _ => ?_)
  refine rel_tryCatch hR (rel_processCollectionBody_dry hR hP cc hdry) (fun m => ?_)
  exact rel_bind hR (rel_logE hR _ _) (fun _ => rel_pushFailed hP _ _)

theorem rel_logIndexList (hR : StepRO R) : ∀ (i : Nat) (l : List ExistingIndex),
    Rel R (logIndexList i l)
  | _, [] => rel_pure hR ()
  | i, idx :: rest => by
      simp only [logIndexList]
      exact rel_bind hR (rel_logE hR _ _) (fun _ => rel_logIndexList hR (i + 1) rest)

theorem rel_validateIndexes (hR : StepRO R) (cc : CollConfig) : Rel R (validateIndexes cc) := by
  unfold validateIndexes
  refine rel_bind hR (rel_readM hR _ _) (fun indexes => ?_)
  refine rel_bind hR (rel_logE hR _ _) (fun _ => ?_)
  refine rel_bind hR (rel_ite _ (rel_logE hR _ _) (rel_logE hR _ _)) (fun _ => ?_)
  exact rel_logIndexList hR 0 indexes

theorem rel_validateSharding (hR : StepRO R) (fullName : String) :
    Rel R (validateSharding fullName) := by
  unfold validateSharding
  refine rel_bind hR (rel_readM hR _ _) (fun shardedKey => ?_)
  refine rel_bind hR ?_ (fun _ => ?_)
  · rcases shardedKey with _ | k
    · exact rel_logE hR _ _
    · exact rel_bind hR (rel_logE hR _ _) (fun _ => rel_logE hR _ _)
  · refine rel_bind hR (rel_readM hR _ _) (fun cnt => ?_)
    refine rel_bind hR (rel_logE hR _ _) (fun _ => ?_)
    refine rel_bind hR (rel_readM hR _ _) (fun dist => ?_)
    exact rel_logE hR _ _

theorem rel_logShardStats (hR : StepRO R) (total : Nat) :
    ∀ l : List (String × Nat), Rel R (logShardStats total l)
  | [] => rel_pure hR ()
  | (shardName, sz) :: rest => by
      simp only [logShardStats]
      exact rel_bind hR (rel_logE hR _ _) (fun _ => rel_logShardStats hR total rest)

theorem rel_validateDataDistribution (hR : StepRO R) (cc : CollConfig) :
    Rel R (validateDataDistribution cc) := by
  unfold validateDataDistribution
  refine rel_tryCatch hR ?_ (fun m => rel_logE hR _ _)
  refine rel_bind hR (rel_readM hR _ _) (fun stats => ?_)
  refine rel_ite _ ?_ (rel_logE hR _ _)
  refine rel_bind hR (rel_logE hR _ _) (fun _ => ?_)
  refine rel_bind hR (rel_logE hR _ _) (fun _ => ?_)
  refine rel_bind hR (rel_logE hR _ _) (fun _ => ?_)
  exact rel_logShardStats hR _ _

theorem rel_validateResultsLoop (hR : StepRO R) (cfg : Config) :
    ∀ l : List CollConfig, Rel R (validateResultsLoop cfg l)
  | [] => rel_pure hR ()
  | cc :: rest => by
      simp only [validateResultsLoop]
      refine rel_bind hR (rel_logE hR _ _) (fun _ => ?_)
      refine rel_bind hR (rel_logE hR _ _) (fun _ => ?_)
      refine rel_bind hR ?_ (fun _ => rel_validateResultsLoop hR cfg rest)
      refine rel_tryCatch hR ?_ (fun m => rel_logE hR _ _)
      refine rel_bind hR (rel_validateIndexes hR cc) (fun _ => ?_)
      exact rel_bind hR (rel_validateSharding hR _) (fun _ => rel_validateDataDistribution hR cc)

theorem rel_validateResults (hR : StepRO R) (cfg : Config) : Rel R (validateResults cfg) := by
  unfold validateResults
  refine rel_ite _ (rel_pure hR _) ?_
  exact rel_bind hR (rel_logE hR _ _) (fun _ => rel_validateResultsLoop hR cfg cfg.collections)

theorem rel_logFailedList (hR : StepRO R) : ∀ l : List (String × String),
    Rel R (logFailedList l)
  | [] => rel_pure hR ()
  | (n, e) :: rest => by
      simp only [logFailedList]
      exact rel_bind hR (rel_logE hR _ _) (fun _ => rel_logFailedList hR rest)

theorem rel_logDistCmds (hR : StepRO R) : ∀ l : List CollConfig, Rel R (logDistCmds l)
  | [] => rel_pure hR ()
  | cc :: rest => by
      simp only [logDistCmds]
      exact rel_bind hR (rel_logE hR _ _) (fun _ => rel_logDistCmds hR rest)

theorem rel_logExplainCmds (hR : StepRO R) : ∀ l : List CollConfig, Rel R (logExplainCmds l)
  | [] => rel_pure hR ()
  | cc :: rest => by
      simp only [logExplainCmds]
      exact rel_bind hR (rel_logE hR _ _) (fun _ => rel_logExplainCmds hR rest)

theorem rel_showRecommendations (hR : StepRO R) (cfg : Config) :
    Rel R (showRecommendations cfg) := by
  unfold showRecommendations
  refine rel_ite _ (rel_pure hR _) ?_
  refine rel_bind hR (rel_logE hR _ _) (fun _ => ?_)
  refine rel_bind hR (rel_logE hR _ _) (fun _ => ?_)
  refine rel_bind hR (rel_logE hR _ _) (fun _ => ?_)
  refine rel_bind hR (rel_logE hR _ _) (fun _ => ?_)
  refine rel_bind hR (rel_logE hR _ _) (fun _ => ?_)
  refine rel_bind hR ?_ (fun _ => ?_)
  · refine rel_ite _ ?_ (rel_pure hR _)
    exact rel_bind hR (rel_logE hR _ _) (fun _ => rel_logE hR _ _)
  · refine rel_bind hR (rel_logE hR _ _) (fun _ => ?_)
    refine rel_bind hR (rel_logDistCmds hR _) (fun _ => ?_)
    exact rel_bind hR (rel_logE hR _ _) (fun _ => rel_logExplainCmds hR _)

theorem rel_showSummary (hR : StepRO R) (cfg : Config) : Rel R (showSummary cfg) := by
  unfold showSummary
  refine rel_bind hR (rel_logE hR _ _) (fun _ => ?_)
  refine rel_bind hR (rel_getsM hR _) (fun results => ?_)
  refine rel_bind hR (rel_logE hR _ _) (fun _ => ?_)
  refine rel_bind hR (rel_logE hR _ _) (fun _ => ?_)
  refine rel_bind hR (rel_logE hR _ _) (fun _ => ?_)
  refine rel_bind hR ?_ (fun _ => ?_)
  · refine rel_ite _ ?_ (rel_pure hR _)
    refine rel_bind hR (rel_logE hR _ _) (fun _ => ?_)
    refine rel_bind hR (rel_logE hR _ _) (fun _ => ?_)
    exact rel_bind hR (rel_logE hR _ _) (fun _ => rel_logFailedList hR _)
  · refine rel_bind hR (rel_logE hR _ _) (fun _ => ?_)
    refine rel_bind hR (rel_envM hR _) (fun elapsed => ?_)
    refine rel_bind hR (rel_logE hR _ _) (fun _ => ?_)
    refine rel_bind hR (rel_ite _ (rel_logE hR _ _) (rel_logE hR _ _)) (fun _ => ?_)
    exact rel_showRecommendations hR cfg

theorem rel_execute (hR : StepRO R) (hI : IssOK R) (hP : PushOK R) (cfg : Config) :
    Rel R (execute cfg) := by
  unfold execute
  refine rel_bind hR (rel_logE hR _ _) (fun _ => ?_)
  refine rel_bind hR (rel_logE hR _ _) (fun _ => ?_)
  refine rel_bind hR (rel_logE hR _ _) (fun _ => ?_)
  refine rel_bind hR (rel_logE hR _ _) (fun _ => ?_)
  refine rel_tryCatch hR ?_ (fun m => rel_bind hR (rel_logE hR _ _) (fun _ => rel_throw hR _))
  refine rel_bind hR (rel_validateConnection hR) (fun _ => ?_)
  refine rel_bind hR (rel_enableDatabaseSharding hR hI cfg) (fun _ => ?_)
  refine rel_bind hR (rel_forEachM hR _ (fun cc => rel_processCollection hR hI hP cfg cc) _) (fun _ => ?_)
  exact rel_bind hR (rel_validateResults hR cfg) (fun _ => rel_showSummary hR cfg)

theorem rel_execute_dry (hR : StepRO R) (hP : PushOK R) {cfg : Config}
    (hdry : cfg.options.dryRun = true) : Rel R (execute cfg) := by
  unfold execute
  refine rel_bind hR (rel_logE hR _ _) (fun _ => ?_)
  refine rel_bind hR (rel_logE hR _ _) (fun _ => ?_)
  refine rel_bind hR (rel_logE hR _ _) (fun _ => ?_)
  refine rel_bind hR (rel_logE hR _ _) (fun _ => ?_)
  refine rel_tryCatch hR ?_ (fun m => rel_bind hR (rel_logE hR _ _) (fun _ => rel_throw hR _))
  refine rel_bind hR (rel_validateConnection hR) (fun _ => ?_)
  refine rel_bind hR (rel_enableDatabaseSharding_dry hR hdry) (fun _ => ?_)
  refine rel_bind hR (rel_forEachM hR _ (fun cc => rel_processCollection_dry hR hP cc hdry) _) (fun _ => ?_)
  exact rel_bind hR (rel_validateResults hR cfg) (fun _ => rel_showSummary hR cfg)

theorem rel_main (hR : StepRO R) (hI : IssOK R) (hP : PushOK R) (cfg : Config) :
    Rel R (main cfg) := by
  unfold main
  refine rel_bind hR (rel_logE hR _ _) (fun _ => ?_)
  refine rel_bind hR (rel_logE hR _ _) (fun _ => ?_)
  refine rel_bind hR (rel_logE hR _ _) (fun _ => ?_)
  refine rel_bind hR (rel_envM hR _) (fun t => ?_)
  refine rel_bind hR (rel_logE hR _ _) (fun _ => ?_)
  refine rel_tryCatch hR ?_ (fun m => rel_bind hR (rel_logE hR _ _) (fun _ => rel_pure hR _))
  exact rel_bind hR (rel_execute hR hI hP cfg) (fun _ => rel_pure hR _)

theorem rel_main_dry (hR : StepRO R) (hP : PushOK R) {cfg : Config}
    (hdry : cfg.options.dryRun = true) : Rel R (main cfg) := by
  unfold main
  refine rel_bind hR (rel_logE hR _ _) (fun _ => ?_)
  refine rel_bind hR (rel_logE hR _ _) (fun _ => ?_)
  refine rel_bind hR (rel_logE hR _ _) (fun _ => ?_)
  refine rel_bind hR (rel_envM hR _) (fun t => ?_)
  refine rel_bind hR (rel_logE hR _ _) (fun _ => ?_)
  refine rel_tryCatch hR ?_ (fun m => rel_bind hR (rel_logE hR _ _) (fun _ => rel_pure hR _))
  exact rel_bind hR (rel_execute_dry hR hP hdry) (fun _ => rel_pure hR _)

end RelSteps

/-! Instances of the frame relations. -/

theorem stepRO_callsCluster : StepRO CallsClusterEq :=
  ⟨fun _ => ⟨rfl, rfl⟩,
   fun _ _ _ h1 h2 => ⟨h2.1.trans h1.1, h2.2.trans h1.2⟩,
   fun _ _ => ⟨rfl, rfl⟩,
   fun _ _ => ⟨rfl, rfl⟩⟩

theorem pushOK_callsCluster : PushOK CallsClusterEq :=
  ⟨fun _ _ => ⟨rfl, rfl⟩, fun _ _ => ⟨rfl, rfl⟩, fun _ _ _ => ⟨rfl, rfl⟩⟩

theorem stepRO_results : StepRO ResultsEq :=
  ⟨fun _ => rfl, fun _ _ _ h1 h2 => h2.trans h1, fun _ _ => rfl, fun _ _ => rfl⟩

theorem issOK_results : IssOK ResultsEq := fun _ _ _ => rfl

theorem stepRO_callsGrow : StepRO CallsGrow :=
  ⟨fun s => ⟨[], by simp⟩,
   fun a b c h1 h2 => by
     rcases h1 with ⟨t1, ht1⟩
     rcases h2 with ⟨t2, ht2⟩
     exact ⟨t1 ++ t2, by rw [ht2, ht1, List.append_assoc]⟩,
   fun s e => ⟨[], by simp⟩,
   fun s r => ⟨[], by simp⟩⟩

theorem issOK_callsGrow : IssOK CallsGrow := fun _ c _ => ⟨[c], rfl⟩

theorem pushOK_callsGrow : PushOK CallsGrow :=
  ⟨fun s _ => ⟨[], by simp⟩, fun s _ => ⟨[], by simp⟩, fun s _ _ => ⟨[], by simp⟩⟩

theorem stepRO_logsGrow : StepRO LogsGrow :=
  ⟨fun s => ⟨[], by simp⟩,
   fun a b c h1 h2 => by
     rcases h1 with ⟨t1, ht1⟩
     rcases h2 with ⟨t2, ht2⟩
     exact ⟨t1 ++ t2, by rw [ht2, ht1, List.append_assoc]⟩,
   fun s e => ⟨[e], rfl⟩,
   fun s r => ⟨[], by simp⟩⟩

theorem issOK_logsGrow : IssOK LogsGrow := fun _ _ _ => ⟨[], by simp⟩

theorem pushOK_logsGrow : PushOK LogsGrow :=
  ⟨fun s _ => ⟨[], by simp⟩, fun s _ => ⟨[], by simp⟩, fun s _ _ => ⟨[], by simp⟩⟩

theorem stepRO_readsGrow : StepRO ReadsGrow :=
  ⟨fun s => ⟨[], by simp⟩,
   fun a b c h1 h2 => by
     rcases h1 with ⟨t1, ht1⟩
     rcases h2 with ⟨t2, ht2⟩
     exact ⟨t1 ++ t2, by rw [ht2, ht1, List.append_assoc]⟩,
   fun s e => ⟨[], by simp⟩,
   fun s r => ⟨[r], rfl⟩⟩

theorem issOK_readsGrow : IssOK ReadsGrow := fun _ _ _ => ⟨[], by simp⟩

theorem pushOK_readsGrow : PushOK ReadsGrow :=
  ⟨fun s _ => ⟨[], by simp⟩, fun s _ => ⟨[], by simp⟩, fun s _ _ => ⟨[], by simp⟩⟩

/-! No-failure combinators and lemmas. -/

section NFa

variable {α β : Type}

theorem nf_pure (a : α) : NFa (pure a : M α) := fun _ _ => ⟨a, rfl⟩

theorem nf_bind {x : M α} {g : α → M β} (hx : NFa x) (hg : ∀ a, NFa (g a)) :
    NFa (x >>= g) := by
  intro env s
  rw [bind_apply]
  rcases hxe : x env s with ⟨e, s1⟩
  rcases hx env s with ⟨a, ha⟩
  rw [hxe] at ha
  cases e with
  | ok b => exact hg b env s1
  | error e => exact absurd ha (by simp)

theorem nf_tryCatch {b : M α} {h : String → M α} (hh : ∀ e, NFa (h e)) :
    NFa (tryCatchM b h) := by
  intro env s
  rw [tryCatch_apply]
  rcases hbe : b env s with ⟨e, s1⟩
  cases e with
  | ok a => exact ⟨a, rfl⟩
  | error e => exact hh e env s1

theorem nf_ite (c : Prop) [Decidable c] {t e : M α} (ht : NFa t) (he : NFa e) :
    NFa (if c then t else e) := by
  by_cases h : c
  · rwa [if_pos h]
  · rwa [if_neg h]

theorem nf_logE (lv : LogLevel) (m : String) : NFa (logE lv m) := fun _ _ => ⟨(), rfl⟩

theorem nf_getsM (g : St → α) : NFa (getsM g) := fun _ s => ⟨g s, rfl⟩

theorem nf_envM (g : Env → α) : NFa (envM g) := fun env _ => ⟨g env, rfl⟩

theorem nf_sleep (n : Nat) : NFa (sleepM n) := fun _ _ => ⟨(), rfl⟩

theorem nf_pushSuccess (n : String) : NFa (pushSuccess n) := fun _ _ => ⟨(), rfl⟩

theorem nf_pushSkipped (n : String) : NFa (pushSkipped n) := fun _ _ => ⟨(), rfl⟩

theorem nf_pushFailed (n e : String) : NFa (pushFailed n e) := fun _ _ => ⟨(), rfl⟩

theorem nfu (m : M Unit) (h : NFa m) (env : Env) (s : St) : (m env s).1 = Except.ok () := by
  rcases h env s with ⟨a, ha⟩
  exact ha

theorem nf_createIndexesLoop (cfg : Config) (cc : CollConfig) (existing : List ExistingIndex) :
    ∀ (i : Nat) (l : List IndexConfig), NFa (createIndexesLoop cfg cc existing i l)
  | _, [] => nf_pure ()
  | i, idx :: rest => by
      simp only [createIndexesLoop]
      refine nf_bind ?_ (fun _ => nf_createIndexesLoop cfg cc existing (i + 1) rest)
      refine nf_ite _ (nf_logE _ _) ?_
      refine nf_ite _ (nf_logE _ _) ?_
      exact nf_tryCatch (fun m => nf_logE _ _)

theorem nf_splitLoop (fn : String) (needed : Nat) :
    ∀ (l : List Nat) (created : Nat), NFa (splitLoop fn needed l created)
  | [], _ => nf_pure _
  | i :: rest, created => by
      simp only [splitLoop]
      refine nf_bind ?_ (fun r => ?_)
      · refine nf_tryCatch (fun m => ?_)
        refine nf_ite _ ?_ ?_
        · exact nf_bind (nf_logE _ _) (fun _ => nf_pure _)
        · exact nf_bind (nf_logE _ _) (fun _ => nf_pure _)
      · rcases r with _ | c2
        · exact nf_pure _
        · exact nf_splitLoop fn needed rest c2

theorem nf_logIndexList : ∀ (i : Nat) (l : List ExistingIndex), NFa (logIndexList i l)
  | _, [] => nf_pure ()
  | i, idx :: rest => by
      simp only [logIndexList]
      exact nf_bind (nf_logE _ _) (fun _ => nf_logIndexList (i + 1) rest)

theorem nf_logShardStats (total : Nat) : ∀ l : List (String × Nat), NFa (logShardStats total l)
  | [] => nf_pure ()
  | (sh, sz) :: rest => by
      simp only [logShardStats]
      exact nf_bind (nf_logE _ _) (fun _ => nf_logShardStats total rest)

theorem nf_validateDataDistribution (cc : CollConfig) : NFa (validateDataDistribution cc) := by
  unfold validateDataDistribution
  exact nf_tryCatch (fun m => nf_logE _ _)

theorem nf_validateResultsLoop (cfg : Config) : ∀ l : List CollConfig,
    NFa (validateResultsLoop cfg l)
  | [] => nf_pure ()
  | cc :: rest => by
      simp only [validateResultsLoop]
      refine nf_bind (nf_logE _ _) (fun _ => ?_)
      refine nf_bind (nf_logE _ _) (fun _ => ?_)
      refine nf_bind ?_ (fun _ => nf_validateResultsLoop cfg rest)
      exact nf_tryCatch (fun m => nf_logE _ _)

theorem nf_validateResults (cfg : Config) : NFa (validateResults cfg) := by
  unfold validateResults
  refine nf_ite _ (nf_pure _) ?_
  exact nf_bind (nf_logE _ _) (fun _ => nf_validateResultsLoop cfg cfg.collections)

theorem nf_logFailedList : ∀ l : List (String × String), NFa (logFailedList l)
  | [] => nf_pure ()
  | (n, e) :: rest => by
      simp only [logFailedList]
      exact nf_bind (nf_logE _ _) (fun _ => nf_logFailedList rest)

theorem nf_logDistCmds : ∀ l : List CollConfig, NFa (logDistCmds l)
  | [] => nf_pure ()
  | cc :: rest => by
      simp only [logDistCmds]
      exact nf_bind (nf_logE _ _) (fun _ => nf_logDistCmds rest)

theorem nf_logExplainCmds : ∀ l : List CollConfig, NFa (logExplainCmds l)
  | [] => nf_pure ()
  | cc :: rest => by
      simp only [logExplainCmds]
      exact nf_bind (nf_logE _ _) (fun _ => nf_logExplainCmds rest)

theorem nf_showRecommendations (cfg : Config) : NFa (showRecommendations cfg) := by
  unfold showRecommendations
  refine nf_ite _ (nf_pure _) ?_
  refine nf_bind (nf_logE _ _) (fun _ => ?_)
  refine nf_bind (nf_logE _ _) (fun _ => ?_)
  refine nf_bind (nf_logE _ _) (fun _ => ?_)
  refine nf_bind (nf_logE _ _) (fun _ => ?_)
  refine nf_bind (nf_logE _ _) (fun _ => ?_)
  refine nf_bind ?_ (fun _ => ?_)
  · refine nf_ite _ ?_ (nf_pure _)
    exact nf_bind (nf_logE _ _) (fun _ => nf_logE _ _)
  · refine nf_bind (nf_logE _ _) (fun _ => ?_)
    refine nf_bind (nf_logDistCmds _) (fun _ => ?_)
    exact nf_bind (nf_logE _ _) (fun _ => nf_logExplainCmds _)

theorem nf_showSummary (cfg : Config) : NFa (showSummary cfg) := by
  unfold showSummary
  refine nf_bind (nf_logE _ _) (fun _ => ?_)
  refine nf_bind (nf_getsM _) (fun results => ?_)
  refine nf_bind (nf_logE _ _) (fun _ => ?_)
  refine nf_bind (nf_logE _ _) (fun _ => ?_)
  refine nf_bind (nf_logE _ _) (fun _ => ?_)
  refine nf_bind ?_ (fun _ => ?_)
  · refine nf_ite _ ?_ (nf_pure _)
    refine nf_bind (nf_logE _ _) (fun _ => ?_)
    refine nf_bind (nf_logE _ _) (fun _ => ?_)
    exact nf_bind (nf_logE _ _) (fun _ => nf_logFailedList _)
  · refine nf_bind (nf_logE _ _) (fun _ => ?_)
    refine nf_bind (nf_envM _) (fun elapsed => ?_)
    refine nf_bind (nf_logE _ _) (fun _ => ?_)
    refine nf_bind (nf_ite _ (nf_logE _ _) (nf_logE _ _)) (fun _ => ?_)
    exact nf_showRecommendations cfg

theorem nf_processCollection (cfg : Config) (cc : CollConfig) :
    NFa (processCollection cfg cc) := by
  unfold processCollection
  refine nf_bind (nf_logE _ _) (fun _ => ?_)
  refine nf_bind (nf_logE _ _) (fun _ => ?_)
  refine nf_tryCatch (fun m => ?_)
  exact nf_bind (nf_logE _ _) (fun _ => nf_pushFailed _ _)

end NFa

/-! Shape of the results tally across `processCollection`. -/

theorem rshape_bind {α : Type} {x : M α} {g : α → M Unit} {name : String}
    (hx : Rel ResultsEq x) (hg : ∀ a, RShape name (g a)) : RShape name (x >>= g) := by
  intro env s
  rw [bind_apply]
  rcases hxe : x env s with ⟨e, s1⟩
  have hres : s1.results = s.results := by
    have := hx env s
    rw [hxe] at this
    exact this
  cases e with
  | ok a =>
      rcases hg a env s1 with ⟨hok, hcase⟩ | ⟨e2, he2, hr2⟩
      · left
        refine ⟨hok, ?_⟩
        rw [hres] at hcase
        exact hcase
      · right
        exact ⟨e2, he2, by rw [hr2, hres]⟩
  | error e => exact Or.inr ⟨e, rfl, hres⟩

theorem rshape_ite (c : Prop) [Decidable c] {t e : M Unit} {name : String}
    (ht : RShape name t) (he : RShape name e) : RShape name (if c then t else e) := by
  by_cases h : c
  · rwa [if_pos h]
  · rwa [if_neg h]

theorem rshape_skipTail (name msg : String) :
    RShape name (logInfo msg >>= fun _ => pushSkipped name) :=
  fun _ _ => Or.inl ⟨rfl, Or.inl rfl⟩

theorem rshape_successTail (name msg : String) :
    RShape name (pushSuccess name >>= fun _ => logSuccess msg) :=
  fun _ _ => Or.inl ⟨rfl, Or.inr rfl⟩

theorem processCollectionTail_shape (cfg : Config) (cc : CollConfig) :
    RShape cc.name (processCollectionTail cfg cc) := by
  unfold processCollectionTail
  refine rshape_bind (rel_checkIfSharded stepRO_results _) (fun isAlreadySharded => ?_)
  refine rshape_ite _ (rshape_skipTail _ _) ?_
  refine rshape_bind (rel_createIndexes stepRO_results issOK_results cfg cc) (fun _ => ?_)
  refine rshape_bind (rel_createShardKeyIndex stepRO_results issOK_results cfg cc) (fun _ => ?_)
  refine rshape_bind (rel_enableCollectionSharding stepRO_results issOK_results cfg cc) (fun _ => ?_)
  refine rshape_bind (rel_preSplitChunks stepRO_results issOK_results cfg cc) (fun _ => ?_)
  exact rshape_successTail _ _

theorem processCollectionBody_shape (cfg : Config) (cc : CollConfig) :
    RShape cc.name (processCollectionBody cfg cc) := by
  unfold processCollectionBody
  refine rshape_bind (rel_checkCollectionExists stepRO_results _) (fun collectionExists => ?_)
  refine rshape_bind ?_ (fun _ => processCollectionTail_shape cfg cc)
  refine rel_ite _ ?_ (rel_pure stepRO_results _)
  refine rel_bind stepRO_results (rel_logE stepRO_results _ _) (fun _ => ?_)
  refine rel_ite _ ?_ (rel_pure stepRO_results _)
  exact rel_bind stepRO_results (rel_issueVoid stepRO_results issOK_results _)
    (fun _ => rel_logE stepRO_results _ _)

theorem processCollection_run (cfg : Config) (cc : CollConfig) (env : Env) (s : St) :
    processCollection cfg cc env s =
      tryCatchM (processCollectionBody cfg cc)
        (fun m => logError ("处理表 " ++ cc.name ++ " 失败: " ++ m) >>= fun _ =>
          pushFailed cc.name m)
        env (pcEntryState cc s) := rfl

theorem processCollection_shape (cfg : Config) (cc : CollConfig) :
    PCShape cc.name (processCollection cfg cc) := by
  intro env s
  rw [processCollection_run, tryCatch_apply]
  rcases hb : processCollectionBody cfg cc env (pcEntryState cc s) with ⟨e, s1⟩
  have hsh := processCollectionBody_shape cfg cc env (pcEntryState cc s)
  rw [hb] at hsh
  cases e with
  | ok a =>
      rcases hsh with ⟨hok, hcase⟩ | ⟨e2, he2, hr2⟩
      · refine ⟨rfl, ?_⟩
        rcases hcase with h | h
        · exact Or.inl h
        · exact Or.inr (Or.inl h)
      · exact absurd he2 (by simp)
  | error e =>
      rcases hsh with ⟨hok, _⟩ | ⟨e2, he2, hr2⟩
      · exact absurd hok (by simp)
      · refine ⟨rfl, Or.inr (Or.inr ⟨e, ?_⟩)⟩
        have hcomp : ((logError ("处理表 " ++ cc.name ++ " 失败: " ++ e) >>= fun _ =>
            pushFailed cc.name e) env s1).2.results =
            { s1.results with failed := s1.results.failed ++ [(cc.name, e)] } := rfl
        rw [hcomp, hr2]
        rfl

theorem processCollection_names (cfg : Config) (cc : CollConfig) (env : Env) (s : St) :
    (processCollection cfg cc env s).1 = Except.ok () ∧
    namesOfResults ((processCollection cfg cc env s).2.results) =
      namesOfResults s.results + {cc.name} := by
  obtain ⟨hok, hcase⟩ := processCollection_shape cfg cc env s
  refine ⟨hok, ?_⟩
  rcases hcase with h | h | ⟨mm, h⟩ <;>
    rw [h] <;>
    simp [namesOfResults, ← Multiset.coe_add] <;>
    abel

theorem forEach_processCollection_names (cfg : Config) :
    ∀ (ccs : List CollConfig) (env : Env) (s : St),
    (forEachM (processCollection cfg) ccs env s).1 = Except.ok () ∧
    namesOfResults ((forEachM (processCollection cfg) ccs env s).2.results) =
      namesOfResults s.results + ↑(ccs.map CollConfig.name)
  | [], env, s => by
      refine ⟨rfl, ?_⟩
      show namesOfResults s.results = namesOfResults s.results + ↑(List.map CollConfig.name [])
      simp
  | cc :: rest, env, s => by
      simp only [forEachM]
      rw [bind_apply]
      rcases hrun : processCollection cfg cc env s with ⟨e, s1⟩
      obtain ⟨hok, hnames⟩ := processCollection_names cfg cc env s
      rw [hrun] at hok hnames
      cases e with
      | error e2 => exact absurd hok (by simp)
      | ok a =>
          obtain ⟨hok2, hnames2⟩ := forEach_processCollection_names cfg rest env s1
          refine ⟨hok2, ?_⟩
          rw [hnames2, hnames]
          simp [← Multiset.coe_add]
          abel

/-! Outcome characterisation of the two fatal steps: their success or
failure depends only on the environment, not on the execution state. -/

theorem validateConnection_outcome (env : Env) (s s' : St) :
    (validateConnection env s).1 = (validateConnection env s').1 := by
  unfold validateConnection
  simp only [logInfo, logSuccess, logWarning]
  rcases h1 : env.readError ReadCall.hello with _ | m1
  · rcases h2 : env.readError ReadCall.connectionStatus with _ | m2
    · rcases h3 : env.authUser with _ | ⟨u, udb⟩
      · simp only [bind_apply, tryCatch_apply, logE_run, readM_run, h1, h2, h3]
        split_ifs <;> rfl
      · rcases h4 : env.readError (ReadCall.usersInfo u udb) with _ | m4
        · simp only [bind_apply, tryCatch_apply, logE_run, readM_run, h1, h2, h3, h4]
          split_ifs <;> rfl
        · simp only [bind_apply, tryCatch_apply, logE_run, readM_run, h1, h2, h3, h4]
          split_ifs <;> rfl
    · simp only [bind_apply, tryCatch_apply, logE_run, readM_run, h1, h2]
      split_ifs <;> rfl
  · simp only [bind_apply, tryCatch_apply, logE_run, readM_run, h1]
    rfl

theorem enableDatabaseSharding_outcome (cfg : Config) (env : Env) (s s' : St) :
    (enableDatabaseSharding cfg env s).1 = (enableDatabaseSharding cfg env s').1 := by
  unfold enableDatabaseSharding
  simp only [logInfo, logSuccess]
  by_cases hdry : (cfg.options.dryRun = true)
  · simp [bind_apply, logE_run, hdry]
  · rcases hco : env.callOutcome (Call.enableSharding cfg.database) with _ | r | m
    · simp [bind_apply, tryCatch_apply, logE_run, issueCall_run, hdry, hco]
    · by_cases hinc : includesSub ("启用失败: " ++ r) "already enabled" = true
      · simp [bind_apply, tryCatch_apply, logE_run, issueCall_run, throwM_run, hdry, hco, hinc]
      · simp [bind_apply, tryCatch_apply, logE_run, issueCall_run, throwM_run, hdry, hco, hinc]
    · by_cases hinc : includesSub m "already enabled" = true
      · simp [bind_apply, tryCatch_apply, logE_run, issueCall_run, throwM_run, hdry, hco, hinc]
      · simp [bind_apply, tryCatch_apply, logE_run, issueCall_run, throwM_run, hdry, hco, hinc]

/-! Running `execute` and `main`: entry-state decomposition and the
end-to-end outcome lemmas. -/

theorem execute_run (cfg : Config) (env : Env) (s : St) :
    execute cfg env s =
      tryCatchM
        (validateConnection >>= fun _ =>
         enableDatabaseSharding cfg >>= fun _ =>
         forEachM (processCollection cfg) cfg.collections >>= fun _ =>
         validateResults cfg >>= fun _ =>
         showSummary cfg)
        (fun m => logError ("执行失败: " ++ m) >>= fun _ => throwM m)
        env (executeEntryState cfg s) := rfl

theorem main_run (cfg : Config) (env : Env) (s : St) :
    main cfg env s =
      tryCatchM (execute cfg >>= fun _ => pure 0)
        (fun m => logError ("脚本执行失败: " ++ m) >>= fun _ => pure 1)
        env (mainEntryState env s) := rfl

theorem execute_ok (cfg : Config) (env : Env) (s : St)
    (hvc : (validateConnection env s).1 = Except.ok ())
    (heds : (enableDatabaseSharding cfg env s).1 = Except.ok ()) :
    (execute cfg env s).1 = Except.ok () ∧
    namesOfResults ((execute cfg env s).2.results) =
      namesOfResults s.results + ↑(cfg.collections.map CollConfig.name) := by
  rcases hv : validateConnection env (executeEntryState cfg s) with ⟨e1, s5⟩
  have he1 : e1 = Except.ok () := by
    have h := validateConnection_outcome env (executeEntryState cfg s) s
    rw [hvc, hv] at h
    exact h
  subst he1
  rcases hed : enableDatabaseSharding cfg env s5 with ⟨e2, s6⟩
  have he2 : e2 = Except.ok () := by
    have h := enableDatabaseSharding_outcome cfg env s5 s
    rw [heds, hed] at h
    exact h
  subst he2
  rcases hloop : forEachM (processCollection cfg) cfg.collections env s6 with ⟨e3, s7⟩
  obtain ⟨hok3, hnames3⟩ := forEach_processCollection_names cfg cfg.collections env s6
  rw [hloop] at hok3 hnames3
  cases e3 with
  | error e => exact absurd hok3 (by simp)
  | ok a =>
      rcases hvr : validateResults cfg env s7 with ⟨e4, s8⟩
      have he4 : e4 = Except.ok () := by
        have h := nfu _ (nf_validateResults cfg) env s7
        rw [hvr] at h
        exact h
      subst he4
      rcases hss : showSummary cfg env s8 with ⟨e5, s9⟩
      have he5 : e5 = Except.ok () := by
        have h := nfu _ (nf_showSummary cfg) env s8
        rw [hss] at h
        exact h
      subst he5
      have hrun : execute cfg env s = (Except.ok (), s9) := by
        rw [execute_run]
        refine tryCatch_run_ok ?_ _
        rw [bind_run hv, bind_run hed, bind_run hloop, bind_run hvr]
        exact hss
      rw [hrun]
      refine ⟨rfl, ?_⟩
      have h9 : s9.results = s8.results := by
        have h := rel_showSummary stepRO_results cfg env s8
        rw [hss] at h
        exact h
      have h8 : s8.results = s7.results := by
        have h := rel_validateResults stepRO_results cfg env s7
        rw [hvr] at h
        exact h
      have h6 : s6.results = s5.results := by
        have h := rel_enableDatabaseSharding stepRO_results issOK_results cfg env s5
        rw [hed] at h
        exact h
      have h5r : s5.results = (executeEntryState cfg s).results := by
        have h := rel_validateConnection stepRO_results env (executeEntryState cfg s)
        rw [hv] at h
        exact h
      show namesOfResults s9.results = _
      rw [h9, h8, hnames3, h6, h5r]
      rfl

theorem execute_err_vc (cfg : Config) (env : Env) (s : St) (m : String)
    (hvc : (validateConnection env s).1 = Except.error m) :
    (execute cfg env s).1 = Except.error m := by
  rcases hv : validateConnection env (executeEntryState cfg s) with ⟨e1, s5⟩
  have he1 : e1 = Except.error m := by
    have h := validateConnection_outcome env (executeEntryState cfg s) s
    rw [hvc, hv] at h
    exact h
  subst he1
  have hrun : execute cfg env s =
      (logError ("执行失败: " ++ m) >>= fun _ => throwM m) env s5 := by
    rw [execute_run]
    refine tryCatch_run_err ?_ _
    exact bind_run_err hv _
  rw [hrun]
  rfl

theorem execute_err_eds (cfg : Config) (env : Env) (s : St) (m : String)
    (hvc : (validateConnection env s).1 = Except.ok ())
    (heds : (enableDatabaseSharding cfg env s).1 = Except.error m) :
    (execute cfg env s).1 = Except.error m := by
  rcases hv : validateConnection env (executeEntryState cfg s) with ⟨e1, s5⟩
  have he1 : e1 = Except.ok () := by
    have h := validateConnection_outcome env (executeEntryState cfg s) s
    rw [hvc, hv] at h
    exact h
  subst he1
  rcases hed : enableDatabaseSharding cfg env s5 with ⟨e2, s6⟩
  have he2 : e2 = Except.error m := by
    have h := enableDatabaseSharding_outcome cfg env s5 s
    rw [heds, hed] at h
    exact h
  subst he2
  have hrun : execute cfg env s =
      (logError ("执行失败: " ++ m) >>= fun _ => throwM m) env s6 := by
    rw [execute_run]
    refine tryCatch_run_err ?_ _
    rw [bind_run hv]
    exact bind_run_err hed _
  rw [hrun]
  rfl

theorem main_ok (cfg : Config) (env : Env) (s : St)
    (hvc : (validateConnection env s).1 = Except.ok ())
    (heds : (enableDatabaseSharding cfg env s).1 = Except.ok ()) :
    (main cfg env s).1 = Except.ok 0 ∧
    namesOfResults ((main cfg env s).2.results) =
      namesOfResults s.results + ↑(cfg.collections.map CollConfig.name) := by
  have hvc2 : (validateConnection env (mainEntryState env s)).1 = Except.ok () := by
    rw [validateConnection_outcome env (mainEntryState env s) s]
    exact hvc
  have heds2 : (enableDatabaseSharding cfg env (mainEntryState env s)).1 = Except.ok () := by
    rw [enableDatabaseSharding_outcome cfg env (mainEntryState env s) s]
    exact heds
  obtain ⟨hok, hn⟩ := execute_ok cfg env (mainEntryState env s) hvc2 heds2
  rcases hex : execute cfg env (mainEntryState env s) with ⟨e, s1⟩
  rw [hex] at hok hn
  cases e with
  | error e2 => exact absurd hok (by simp)
  | ok a =>
      have hrun : main cfg env s = (Except.ok 0, s1) := by
        rw [main_run]
        refine tryCatch_run_ok ?_ _
        rw [bind_run hex]
        rfl
      rw [hrun]
      refine ⟨rfl, ?_⟩
      show namesOfResults s1.results = _
      rw [hn]
      rfl

theorem main_err (cfg : Config) (env : Env) (s : St) (m : String)
    (hex : (execute cfg env (mainEntryState env s)).1 = Except.error m) :
    (main cfg env s).1 = Except.ok 1 := by
  rcases hexr : execute cfg env (mainEntryState env s) with ⟨e, s1⟩
  rw [hexr] at hex
  cases e with
  | ok a => exact absurd hex (by simp)
  | error e2 =>
      have he : e2 = m := by
        simpa using hex
      subst he
      have hrun : main cfg env s =
          ((logError ("脚本执行失败: " ++ e2) >>= fun _ => pure 1)) env s1 := by
        rw [main_run]
        refine tryCatch_run_err ?_ _
        exact bind_run_err hexr _
      rw [hrun]
      rfl

/-- C1: when the dry-run option is active, a full execution of the script
issues no mutating administrative call whatsoever — no `enableSharding`, no
`createCollection`, no `createIndex`, no `shardCollection` and no
`splitFind` (the call trace stays empty) — and the cluster state, hence
indexes, sharding state and chunk counts, is unchanged; this holds for every
starting cluster state and every environment behaviour. -/
theorem claim_C1_dry_run_frame (cfg : Config) (env : Env) (c0 : ClusterState)
    (hdry : cfg.options.dryRun = true) :
    (main cfg env (mkSt c0)).2.calls = [] ∧ (main cfg env (mkSt c0)).2.cluster = c0 :=
  rel_main_dry stepRO_callsCluster pushOK_callsCluster hdry env (mkSt c0)

/-- Witness for C1 at the built-in configuration with dry-run switched on. -/
theorem claim_C1_dry_run_frame_witness :
    (main dryConfig okEnv (mkSt emptyCluster)).2.calls = [] ∧
    (main dryConfig okEnv (mkSt emptyCluster)).2.cluster = emptyCluster :=
  claim_C1_dry_run_frame dryConfig okEnv emptyCluster rfl

/-- C2: in every run in which the connection check and the database-level
sharding step do not throw, each configured collection ends up in exactly
one of the success, skipped and failed result lists — the multiset of
recorded names is exactly the multiset of configured collection names — so
at summary time success + skipped + failed equals the number of configured
collections. -/
theorem claim_C2_summary_partition (cfg : Config) (env : Env) (c0 : ClusterState)
    (hvc : (validateConnection env (mkSt c0)).1 = Except.ok ())
    (heds : (enableDatabaseSharding cfg env (mkSt c0)).1 = Except.ok ()) :
    namesOfResults ((execute cfg env (mkSt c0)).2.results) =
      ↑(cfg.collections.map CollConfig.name) ∧
    (execute cfg env (mkSt c0)).2.results.success.length +
      (execute cfg env (mkSt c0)).2.results.skipped.length +
      (execute cfg env (mkSt c0)).2.results.failed.length = cfg.collections.length := by
  obtain ⟨hok, hn⟩ := execute_ok cfg env (mkSt c0) hvc heds
  have h1 : namesOfResults ((execute cfg env (mkSt c0)).2.results) =
      ↑(cfg.collections.map CollConfig.name) := by
    rw [hn]
    show namesOfResults (mkSt c0).results + _ = _
    simp [namesOfResults, mkSt]
  refine ⟨h1, ?_⟩
  have h2 := congrArg Multiset.card h1
  simp [namesOfResults, Multiset.card_add, Multiset.coe_card, List.length_map] at h2
  omega

/-- Witness for C2: the benign run over an empty cluster satisfies both
hypotheses and the counts sum to the eight configured collections. -/
theorem claim_C2_summary_partition_witness :
    (execute CONFIG okEnv (mkSt emptyCluster)).2.results.success.length +
      (execute CONFIG okEnv (mkSt emptyCluster)).2.results.skipped.length +
      (execute CONFIG okEnv (mkSt emptyCluster)).2.results.failed.length =
      CONFIG.collections.length :=
  (claim_C2_summary_partition CONFIG okEnv emptyCluster (by rfl) (by rfl)).2

/-- C4: two error tiers.  A failure of the connection check, or of the
database-level sharding step, aborts the run and the process exits with
code 1.  When both succeed, the process exits with code 0 — whatever
per-collection failures occur — and every configured collection was
processed (the results tally has exactly one entry per collection). -/
theorem claim_C4_two_tiers :
    (∀ (cfg : Config) (env : Env) (c0 : ClusterState) (m : String),
      (validateConnection env (mkSt c0)).1 = Except.error m →
      (main cfg env (mkSt c0)).1 = Except.ok 1) ∧
    (∀ (cfg : Config) (env : Env) (c0 : ClusterState) (m : String),
      (validateConnection env (mkSt c0)).1 = Except.ok () →
      (enableDatabaseSharding cfg env (mkSt c0)).1 = Except.error m →
      (main cfg env (mkSt c0)).1 = Except.ok 1) ∧
    (∀ (cfg : Config) (env : Env) (c0 : ClusterState),
      (validateConnection env (mkSt c0)).1 = Except.ok () →
      (enableDatabaseSharding cfg env (mkSt c0)).1 = Except.ok () →
      (main cfg env (mkSt c0)).1 = Except.ok 0 ∧
      Multiset.card (namesOfResults ((main cfg env (mkSt c0)).2.results)) =
        cfg.collections.length) := by
  refine ⟨?_, ?_, ?_⟩
  · intro cfg env c0 m hvc
    apply main_err
    apply execute_err_vc
    rw [validateConnection_outcome env (mainEntryState env (mkSt c0)) (mkSt c0)]
    exact hvc
  · intro cfg env c0 m hvc heds
    apply main_err
    apply execute_err_eds
    · rw [validateConnection_outcome env (mainEntryState env (mkSt c0)) (mkSt c0)]
      exact hvc
    · rw [enableDatabaseSharding_outcome cfg env (mainEntryState env (mkSt c0)) (mkSt c0)]
      exact heds
  · intro cfg env c0 hvc heds
    obtain ⟨h0, hn⟩ := main_ok cfg env (mkSt c0) hvc heds
    refine ⟨h0, ?_⟩
    rw [hn]
    simp [namesOfResults, mkSt, Multiset.card_add, Multiset.coe_card]

/-- Witness for C4: a failing connection check exits 1, a failing
database-sharding step exits 1, and the benign run exits 0. -/
theorem claim_C4_two_tiers_witness :
    (main CONFIG badConnEnv (mkSt emptyCluster)).1 = Except.ok 1 ∧
    (main CONFIG badEnableEnv (mkSt emptyCluster)).1 = Except.ok 1 ∧
    (main CONFIG okEnv (mkSt emptyCluster)).1 = Except.ok 0 :=
  ⟨claim_C4_two_tiers.1 CONFIG badConnEnv emptyCluster
      "连接验证失败: connection refused" (by rfl),
   claim_C4_two_tiers.2.1 CONFIG badEnableEnv emptyCluster "not authorized"
      (by rfl) (by rfl),
   (claim_C4_two_tiers.2.2 CONFIG okEnv emptyCluster (by rfl) (by rfl)).1⟩

set_option maxHeartbeats 1000000 in
/-- C3 counterexample: with an environment whose (unique) business-index
creation throws `disk full`, the error is only logged as a warning — the
collection's remaining steps still run and it lands in the success list,
not in the failed list.  So an external error other than the three benign
messages does not, as the claim states, abort the collection's remaining
steps and record the collection as failed. -/
theorem claim_C3_counterexample :
    c3Env.callOutcome
        (Call.createIndex "ug_id_card" [("idCard", KeyVal.asc)] true (some "idx_idCard") true) =
      CallOutcome.throws "disk full" ∧
    (⟨LogLevel.warning, "  索引 1. \x7b\"idCard\":1\x7d 创建失败: disk full"⟩ : LogEvent) ∈
      (processCollection CONFIG ugIdCard c3Env
        (mkSt { emptyCluster with chunks := [("xsdk_v2_test.ug_id_card", 8)] })).2.logs ∧
    (processCollection CONFIG ugIdCard c3Env
        (mkSt { emptyCluster with chunks := [("xsdk_v2_test.ug_id_card", 8)] })).2.results.failed =
      [] ∧
    (processCollection CONFIG ugIdCard c3Env
        (mkSt { emptyCluster with chunks := [("xsdk_v2_test.ug_id_card", 8)] })).2.results.success =
      ["ug_id_card"] := by
  refine ⟨rfl, ?_⟩
  simp [processCollection, processCollectionBody, processCollectionTail, checkCollectionExists, checkIfSharded,
    createIndexes, createIndexesLoop, createShardKeyIndex, enableCollectionSharding,
    preSplitChunks, preSplitRemaining, splitLoop, issueVoid, sleepM,
    logInfo, logWarning, logSuccess, logError, logDivider, logSection,
    bind_apply, tryCatch_apply, logE_run, readM_run, issueCall_run, pure_run, throwM_run,
    pushSuccess_run, pushSkipped_run, pushFailed_run, getsM_run, envM_run,
    mkSt, emptyCluster, applyCall, indexList, chunkCount,
    jsonStringifyKey, jsonStringifyFields, keyValJson, setAssoc, idIndex, defaultIndexName,
    includesSub, charsContain, charsStartWith, CONFIG, ugIdCard, c3Env, okEnv,
    show toString (1 : Nat) = "1" from rfl, show toString (8 : Nat) = "8" from rfl]

/-- C3 (amended): `already enabled` thrown while enabling database sharding
and `already sharded` thrown while sharding a collection are swallowed; the
split loop and the business-index loop never propagate an exception (a
`chunk is too small` split error stops the loop, other split errors and
index-creation errors are logged as warnings); any error that does escape a
collection's processing is caught there, so the whole run continues, and the
collection is recorded in the failed list with that error message. -/
theorem claim_C3_error_classification :
    (∀ (cfg : Config) (env : Env) (s : St) (m : String),
      cfg.options.dryRun = false →
      env.callOutcome (.enableSharding cfg.database) = .throws m →
      includesSub m "already enabled" = true →
      (enableDatabaseSharding cfg env s).1 = Except.ok ()) ∧
    (∀ (cfg : Config) (cc : CollConfig) (env : Env) (s : St) (m : String),
      cfg.options.dryRun = false →
      env.callOutcome (.shardCollection (cfg.database ++ "." ++ cc.name) cc.shardKey) =
        .throws m →
      includesSub m "already sharded" = true →
      (enableCollectionSharding cfg cc env s).1 = Except.ok ()) ∧
    (∀ (fn : String) (needed : Nat) (l : List Nat) (created : Nat) (env : Env) (s : St),
      ∃ n, (splitLoop fn needed l created env s).1 = Except.ok n) ∧
    (∀ (cfg : Config) (cc : CollConfig) (existing : List ExistingIndex) (i : Nat)
        (l : List IndexConfig) (env : Env) (s : St),
      (createIndexesLoop cfg cc existing i l env s).1 = Except.ok ()) ∧
    (∀ (cfg : Config) (cc : CollConfig) (env : Env) (s : St),
      (processCollection cfg cc env s).1 = Except.ok ()) ∧
    (∀ (cfg : Config) (cc : CollConfig) (env : Env) (s : St) (m : String),
      (processCollectionBody cfg cc env (pcEntryState cc s)).1 = Except.error m →
      (processCollection cfg cc env s).2.results =
        { s.results with failed := s.results.failed ++ [(cc.name, m)] }) := by
  refine ⟨?_, ?_, ?_, ?_, ?_, ?_⟩
  · intro cfg env s m hdry hco hinc
    simp [enableDatabaseSharding, logInfo, logSuccess, bind_apply, tryCatch_apply, logE_run,
      issueCall_run, throwM_run, hdry, hco, hinc]
  · intro cfg cc env s m hdry hco hinc
    simp [enableCollectionSharding, logInfo, logSuccess, bind_apply, tryCatch_apply, logE_run,
      issueCall_run, throwM_run, hdry, hco, hinc]
  · intro fn needed l created env s
    exact nf_splitLoop fn needed l created env s
  · intro cfg cc existing i l env s
    exact nfu _ (nf_createIndexesLoop cfg cc existing i l) env s
  · intro cfg cc env s
    exact (processCollection_shape cfg cc env s).1
  · intro cfg cc env s m hm
    rw [processCollection_run, tryCatch_apply]
    rcases hb : processCollectionBody cfg cc env (pcEntryState cc s) with ⟨e, s1⟩
    rw [hb] at hm
    cases e with
    | ok a => exact absurd hm (by simp)
    | error e2 =>
        have he : e2 = m := by simpa using hm
        rw [he]
        have hsh := processCollectionBody_shape cfg cc env (pcEntryState cc s)
        rw [hb] at hsh
        rcases hsh with ⟨hok, _⟩ | ⟨e3, he3, hr⟩
        · exact absurd hok (by simp)
        · have hcomp : ((logError ("处理表 " ++ cc.name ++ " 失败: " ++ m) >>= fun _ =>
              pushFailed cc.name m) env s1).2.results =
              { s1.results with failed := s1.results.failed ++ [(cc.name, m)] } := rfl
          rw [hcomp, hr]
          rfl

set_option maxHeartbeats 1000000 in
/-- Witness for the amended C3: each part applied at a concrete input —
`already enabled` and `already sharded` are swallowed, the split and index
loops return, and a failing shard-key-index step records the collection in
the failed list with its wrapped message. -/
theorem claim_C3_error_classification_witness :
    (enableDatabaseSharding CONFIG alreadyEnabledEnv (mkSt emptyCluster)).1 = Except.ok () ∧
    (enableCollectionSharding CONFIG ugIdCard alreadyShardedEnv (mkSt emptyCluster)).1 =
      Except.ok () ∧
    (∃ n, (splitLoop "xsdk_v2_test.ug_id_card" 8 [0] 0 okEnv (mkSt emptyCluster)).1 =
      Except.ok n) ∧
    (createIndexesLoop CONFIG ugIdCard [] 0 ugIdCard.indexes c3Env (mkSt emptyCluster)).1 =
      Except.ok () ∧
    (processCollection CONFIG ugIdCard failShardIdxEnv (mkSt emptyCluster)).1 = Except.ok () ∧
    (processCollection CONFIG ugIdCard failShardIdxEnv (mkSt emptyCluster)).2.results =
      { (mkSt emptyCluster).results with failed := (mkSt emptyCluster).results.failed ++
          [("ug_id_card", "创建 _id 哈希索引失败: quota exceeded")] } :=
  ⟨claim_C3_error_classification.1 CONFIG alreadyEnabledEnv (mkSt emptyCluster) _
      rfl rfl (by decide),
   claim_C3_error_classification.2.1 CONFIG ugIdCard alreadyShardedEnv (mkSt emptyCluster) _
      rfl rfl (by decide),
   claim_C3_error_classification.2.2.1 _ _ _ _ _ _,
   claim_C3_error_classification.2.2.2.1 _ _ _ _ _ _ _,
   claim_C3_error_classification.2.2.2.2.1 _ _ _ _,
   claim_C3_error_classification.2.2.2.2.2 CONFIG ugIdCard failShardIdxEnv (mkSt emptyCluster) _
      (by
        simp [processCollectionBody, processCollectionTail, checkCollectionExists, checkIfSharded,
          createIndexes, createIndexesLoop, createShardKeyIndex, issueVoid, sleepM,
          logInfo, logWarning, logSuccess, logError, logDivider,
          bind_apply, tryCatch_apply, logE_run, readM_run, issueCall_run, pure_run, throwM_run,
          mkSt, emptyCluster, applyCall, indexList, chunkCount, pcEntryState,
          jsonStringifyKey, jsonStringifyFields, keyValJson, setAssoc, idIndex, defaultIndexName,
          includesSub, charsContain, charsStartWith, CONFIG, ugIdCard, failShardIdxEnv, okEnv,
          show toString (1 : Nat) = "1" from rfl])⟩

/-! Key-only index existence checks (C10). -/

theorem createIndexesLoop_filter (cfg : Config) (cc : CollConfig) (k : Key)
    (existing : List ExistingIndex)
    (hex : ∃ e ∈ existing, jsonStringifyKey e.key = jsonStringifyKey k) :
    ∀ (i : Nat) (l : List IndexConfig),
    Rel (fun s s' => s'.calls.filter (isCreateIndexKey cc.name k) =
      s.calls.filter (isCreateIndexKey cc.name k)) (createIndexesLoop cfg cc existing i l)
  | _, [] => fun _ _ => rfl
  | i, idx :: rest => by
      have hR : StepRO (fun s s' => s'.calls.filter (isCreateIndexKey cc.name k) =
          s.calls.filter (isCreateIndexKey cc.name k)) :=
        ⟨fun _ => rfl, fun _ _ _ h1 h2 => h2.trans h1, fun _ _ => rfl, fun _ _ => rfl⟩
      simp only [createIndexesLoop]
      refine rel_bind hR ?_
        (fun _ => createIndexesLoop_filter cfg cc k existing hex (i + 1) rest)
      refine rel_ite_cond (fun _ => rel_logE hR _ _) (fun hnotfound => ?_)
      refine rel_ite _ (rel_logE hR _ _) ?_
      refine rel_tryCatch hR ?_ (fun m => rel_logE hR _ _)
      refine rel_bind hR ?_ (fun _ => rel_bind hR (rel_logE hR _ _)
        (fun _ => rel_ite _ (rel_sleep hR _) (rel_pure hR _)))
      intro env s
      have hneq : (jsonStringifyKey idx.key == jsonStringifyKey k) = false := by
        rcases hex with ⟨e, he, hk⟩
        rcases hb : (jsonStringifyKey idx.key == jsonStringifyKey k) with _ | _
        · rfl
        · exfalso
          apply hnotfound
          rw [List.any_eq_true]
          refine ⟨e, he, ?_⟩
          have heq : jsonStringifyKey idx.key = jsonStringifyKey k := by
            exact eq_of_beq hb
          rw [hk, ← heq]
          exact beq_self_eq_true _
      have hcalls : ((issueVoid (Call.createIndex cc.name idx.key idx.options.unique
          idx.options.name cfg.options.backgroundIndex) env s).2).calls =
          s.calls ++ [Call.createIndex cc.name idx.key idx.options.unique
            idx.options.name cfg.options.backgroundIndex] := by
        rcases hco : env.callOutcome (Call.createIndex cc.name idx.key idx.options.unique
            idx.options.name cfg.options.backgroundIndex) with _ | r | m
        · rw [issueVoid_run_ok s hco]
        · rw [issueVoid_run_notOk s hco]
        · rw [issueVoid_run_throws s hco]
      show ((issueVoid _ env s).2).calls.filter _ = _
      rw [hcalls, List.filter_append]
      have hfalse : isCreateIndexKey cc.name k (Call.createIndex cc.name idx.key
          idx.options.unique idx.options.name cfg.options.backgroundIndex) = false := by
        simp [isCreateIndexKey, hneq]
      simp [hfalse]

/-! Split-loop analysis (C6 and C9). -/

theorem lookup_setAssoc_self {β : Type} (k : String) (v : β) :
    ∀ l : List (String × β), ((setAssoc k v l).lookup k) = some v
  | [] => by simp [setAssoc]
  | (k2, v2) :: rest => by
      by_cases h : k2 = k
      · simp [setAssoc, h]
      · rw [setAssoc, if_neg (by simpa using h)]
        rw [List.lookup]
        have hb : (k == k2) = false := by
          simpa using Ne.symm h
        rw [hb]
        exact lookup_setAssoc_self k v rest

theorem chunkCount_applyCall_split (ns : String) (d : SplitDoc) (c : ClusterState) :
    chunkCount (applyCall (Call.splitFind ns d) c) ns = chunkCount c ns + 1 := by
  simp [applyCall, chunkCount, lookup_setAssoc_self]

theorem splitStep_ok (fn : String) (needed created i : Nat) {env : Env} (s : St)
    (hco : env.callOutcome (Call.splitFind fn (splitPointDoc i)) = CallOutcome.ok) :
    tryCatchM
      (issueVoid (.splitFind fn (splitPointDoc i)) >>= fun _ =>
       logInfo ("    分割 " ++ toString (created + 1) ++ "/" ++ toString needed ++ " 完成") >>= fun _ =>
       sleepM 50 >>= fun _ =>
       pure (some (created + 1)))
      (fun m =>
        if includesSub m "chunk is too small" then
          logInfo "    分块太小，停止分割" >>= fun _ => pure none
        else
          logWarning ("    分割 " ++ toString (i + 1) ++ " 失败: " ++ m) >>= fun _ =>
          pure (some created))
      env s =
    (Except.ok (some (created + 1)),
     { cluster := applyCall (Call.splitFind fn (splitPointDoc i)) s.cluster
       reads := s.reads
       calls := s.calls ++ [Call.splitFind fn (splitPointDoc i)]
       logs := s.logs ++ [⟨.info, "    分割 " ++ toString (created + 1) ++ "/" ++ toString needed ++ " 完成"⟩]
       results := s.results }) := by
  refine tryCatch_run_ok ?_ _
  rw [bind_run (issueVoid_run_ok s hco)]
  rfl

theorem splitStep_tooSmall (fn : String) (needed created i : Nat) {env : Env} {m : String} (s : St)
    (hco : env.callOutcome (Call.splitFind fn (splitPointDoc i)) = CallOutcome.throws m)
    (hinc : includesSub m "chunk is too small" = true) :
    tryCatchM
      (issueVoid (.splitFind fn (splitPointDoc i)) >>= fun _ =>
       logInfo ("    分割 " ++ toString (created + 1) ++ "/" ++ toString needed ++ " 完成") >>= fun _ =>
       sleepM 50 >>= fun _ =>
       pure (some (created + 1)))
      (fun m =>
        if includesSub m "chunk is too small" then
          logInfo "    分块太小，停止分割" >>= fun _ => pure none
        else
          logWarning ("    分割 " ++ toString (i + 1) ++ " 失败: " ++ m) >>= fun _ =>
          pure (some created))
      env s =
    (Except.ok none,
     { cluster := s.cluster
       reads := s.reads
       calls := s.calls ++ [Call.splitFind fn (splitPointDoc i)]
       logs := s.logs ++ [chunkTooSmallLog]
       results := s.results }) := by
  have hb : (issueVoid (.splitFind fn (splitPointDoc i)) >>= fun _ =>
      logInfo ("    分割 " ++ toString (created + 1) ++ "/" ++ toString needed ++ " 完成") >>= fun _ =>
      sleepM 50 >>= fun _ =>
      pure (some (created + 1))) env s =
      (Except.error m, { s with calls := s.calls ++ [Call.splitFind fn (splitPointDoc i)] }) :=
    bind_run_err (issueVoid_run_throws s hco) _
  rw [tryCatch_run_err hb]
  rw [if_pos hinc]
  rfl

theorem splitStep_warn (fn : String) (needed created i : Nat) {env : Env} {m : String} (s : St)
    (hco : env.callOutcome (Call.splitFind fn (splitPointDoc i)) = CallOutcome.throws m)
    (hinc : includesSub m "chunk is too small" = false) :
    tryCatchM
      (issueVoid (.splitFind fn (splitPointDoc i)) >>= fun _ =>
       logInfo ("    分割 " ++ toString (created + 1) ++ "/" ++ toString needed ++ " 完成") >>= fun _ =>
       sleepM 50 >>= fun _ =>
       pure (some (created + 1)))
      (fun m =>
        if includesSub m "chunk is too small" then
          logInfo "    分块太小，停止分割" >>= fun _ => pure none
        else
          logWarning ("    分割 " ++ toString (i + 1) ++ " 失败: " ++ m) >>= fun _ =>
          pure (some created))
      env s =
    (Except.ok (some created),
     { cluster := s.cluster
       reads := s.reads
       calls := s.calls ++ [Call.splitFind fn (splitPointDoc i)]
       logs := s.logs ++ [⟨.warning, "    分割 " ++ toString (i + 1) ++ " 失败: " ++ m⟩]
       results := s.results }) := by
  have hb : (issueVoid (.splitFind fn (splitPointDoc i)) >>= fun _ =>
      logInfo ("    分割 " ++ toString (created + 1) ++ "/" ++ toString needed ++ " 完成") >>= fun _ =>
      sleepM 50 >>= fun _ =>
      pure (some (created + 1))) env s =
      (Except.error m, { s with calls := s.calls ++ [Call.splitFind fn (splitPointDoc i)] }) :=
    bind_run_err (issueVoid_run_throws s hco) _
  rw [tryCatch_run_err hb]
  rw [if_neg (by simp [hinc])]
  rfl

theorem splitStep_notOk (fn : String) (needed created i : Nat) {env : Env} {r : String} (s : St)
    (hco : env.callOutcome (Call.splitFind fn (splitPointDoc i)) = CallOutcome.notOk r) :
    tryCatchM
      (issueVoid (.splitFind fn (splitPointDoc i)) >>= fun _ =>
       logInfo ("    分割 " ++ toString (created + 1) ++ "/" ++ toString needed ++ " 完成") >>= fun _ =>
       sleepM 50 >>= fun _ =>
       pure (some (created + 1)))
      (fun m =>
        if includesSub m "chunk is too small" then
          logInfo "    分块太小，停止分割" >>= fun _ => pure none
        else
          logWarning ("    分割 " ++ toString (i + 1) ++ " 失败: " ++ m) >>= fun _ =>
          pure (some created))
      env s =
    (Except.ok (some (created + 1)),
     { cluster := s.cluster
       reads := s.reads
       calls := s.calls ++ [Call.splitFind fn (splitPointDoc i)]
       logs := s.logs ++ [⟨.info, "    分割 " ++ toString (created + 1) ++ "/" ++ toString needed ++ " 完成"⟩]
       results := s.results }) := by
  refine tryCatch_run_ok ?_ _
  rw [bind_run (issueVoid_run_notOk s hco)]
  rfl

/-- The split loop never throws, and every call it issues is a `splitFind`
on its namespace whose split point has the fixed `splitPointDoc` shape. -/
theorem splitLoop_calls (fn : String) (needed : Nat) :
    ∀ (l : List Nat) (created : Nat) (env : Env) (s : St),
    ∃ c2 σ t,
      splitLoop fn needed l created env s = (Except.ok c2, σ) ∧
      σ.calls = s.calls ++ t ∧
      ∀ c ∈ t, ∃ i, c = Call.splitFind fn (splitPointDoc i)
  | [], created, env, s => ⟨created, s, [], rfl, by simp, by simp⟩
  | i :: rest, created, env, s => by
      rcases hco : env.callOutcome (Call.splitFind fn (splitPointDoc i)) with _ | r | m
      · obtain ⟨c2, σ, t, hrun, hcalls, hshape⟩ :=
          splitLoop_calls fn needed rest (created + 1) env
            { cluster := applyCall (Call.splitFind fn (splitPointDoc i)) s.cluster
              reads := s.reads
              calls := s.calls ++ [Call.splitFind fn (splitPointDoc i)]
              logs := s.logs ++
                [⟨.info, "    分割 " ++ toString (created + 1) ++ "/" ++ toString needed ++ " 完成"⟩]
              results := s.results }
        refine ⟨c2, σ, Call.splitFind fn (splitPointDoc i) :: t, ?_, ?_, ?_⟩
        · show splitLoop fn needed (i :: rest) created env s = _
          simp only [splitLoop]
          rw [bind_run (splitStep_ok fn needed created i s hco)]
          exact hrun
        · rw [hcalls]
          simp
        · intro c hc
          rcases List.mem_cons.mp hc with hc | hc
          · exact ⟨i, hc⟩
          · exact hshape c hc
      · obtain ⟨c2, σ, t, hrun, hcalls, hshape⟩ :=
          splitLoop_calls fn needed rest (created + 1) env
            { cluster := s.cluster
              reads := s.reads
              calls := s.calls ++ [Call.splitFind fn (splitPointDoc i)]
              logs := s.logs ++
                [⟨.info, "    分割 " ++ toString (created + 1) ++ "/" ++ toString needed ++ " 完成"⟩]
              results := s.results }
        refine ⟨c2, σ, Call.splitFind fn (splitPointDoc i) :: t, ?_, ?_, ?_⟩
        · show splitLoop fn needed (i :: rest) created env s = _
          simp only [splitLoop]
          rw [bind_run (splitStep_notOk fn needed created i s hco)]
          exact hrun
        · rw [hcalls]
          simp
        · intro c hc
          rcases List.mem_cons.mp hc with hc | hc
          · exact ⟨i, hc⟩
          · exact hshape c hc
      · by_cases hinc : includesSub m "chunk is too small" = true
        · refine ⟨created,
            { cluster := s.cluster
              reads := s.reads
              calls := s.calls ++ [Call.splitFind fn (splitPointDoc i)]
              logs := s.logs ++ [chunkTooSmallLog]
              results := s.results },
            [Call.splitFind fn (splitPointDoc i)], ?_, by simp, ?_⟩
          · show splitLoop fn needed (i :: rest) created env s = _
            simp only [splitLoop]
            rw [bind_run (splitStep_tooSmall fn needed created i s hco hinc)]
            rfl
          · intro c hc
            rcases List.mem_cons.mp hc with hc | hc
            · exact ⟨i, hc⟩
            · exact absurd hc (by simp)
        · have hinc2 : includesSub m "chunk is too small" = false := by
            simpa using hinc
          obtain ⟨c2, σ, t, hrun, hcalls, hshape⟩ :=
            splitLoop_calls fn needed rest created env
              { cluster := s.cluster
                reads := s.reads
                calls := s.calls ++ [Call.splitFind fn (splitPointDoc i)]
                logs := s.logs ++ [⟨.warning, "    分割 " ++ toString (i + 1) ++ " 失败: " ++ m⟩]
                results := s.results }
          refine ⟨c2, σ, Call.splitFind fn (splitPointDoc i) :: t, ?_, ?_, ?_⟩
          · show splitLoop fn needed (i :: rest) created env s = _
            simp only [splitLoop]
            rw [bind_run (splitStep_warn fn needed created i s hco hinc2)]
            exact hrun
          · rw [hcalls]
            simp
          · intro c hc
            rcases List.mem_cons.mp hc with hc | hc
            · exact ⟨i, hc⟩
            · exact hshape c hc

/-- Full invariant of the split loop when `splitFind` never returns a
not-ok document without throwing (it either succeeds or throws): the loop
returns normally, issues one `splitFind` per remaining index unless it
breaks on a `chunk is too small` error, and at the end either every attempt
succeeded (so the chunk count grew by the full remaining count), or the
early stop was logged, or some split failure was logged as a warning. -/
theorem splitLoop_inv (fn : String) (needed : Nat) :
    ∀ (l : List Nat) (created : Nat) (env : Env) (s : St),
    (∀ d r, env.callOutcome (Call.splitFind fn d) ≠ CallOutcome.notOk r) →
    ∃ c2 σ t u,
      splitLoop fn needed l created env s = (Except.ok c2, σ) ∧
      σ.calls = s.calls ++ t ∧
      σ.logs = s.logs ++ u ∧
      t.length ≤ l.length ∧
      (∀ c ∈ t, ∃ i, c = Call.splitFind fn (splitPointDoc i)) ∧
      (t.length = l.length ∨ chunkTooSmallLog ∈ u) ∧
      (chunkCount σ.cluster fn ≥ chunkCount s.cluster fn + l.length ∨
        chunkTooSmallLog ∈ u ∨ ∃ le ∈ u, le.level = LogLevel.warning)
  | [], created, env, s, hno =>
      ⟨created, s, [], [], rfl, by simp, by simp, by simp, by simp,
       Or.inl (by simp), Or.inl (by simp)⟩
  | i :: rest, created, env, s, hno => by
      rcases hco : env.callOutcome (Call.splitFind fn (splitPointDoc i)) with _ | r | m
      · obtain ⟨c2, σ, t, u, hrun, hcalls, hlogs, hlen, hshape, hstop, hchunk⟩ :=
          splitLoop_inv fn needed rest (created + 1) env
            { cluster := applyCall (Call.splitFind fn (splitPointDoc i)) s.cluster
              reads := s.reads
              calls := s.calls ++ [Call.splitFind fn (splitPointDoc i)]
              logs := s.logs ++
                [⟨.info, "    分割 " ++ toString (created + 1) ++ "/" ++ toString needed ++ " 完成"⟩]
              results := s.results } hno
        refine ⟨c2, σ, Call.splitFind fn (splitPointDoc i) :: t,
          ⟨.info, "    分割 " ++ toString (created + 1) ++ "/" ++ toString needed ++ " 完成"⟩ :: u,
          ?_, ?_, ?_, ?_, ?_, ?_, ?_⟩
        · show splitLoop fn needed (i :: rest) created env s = _
          simp only [splitLoop]
          rw [bind_run (splitStep_ok fn needed created i s hco)]
          exact hrun
        · rw [hcalls]
          simp
        · rw [hlogs]
          simp
        · simpa using Nat.succ_le_succ hlen
        · intro c hc
          rcases List.mem_cons.mp hc with hc | hc
          · exact ⟨i, hc⟩
          · exact hshape c hc
        · rcases hstop with h | h
          · exact Or.inl (by simp [h])
          · exact Or.inr (List.mem_cons_of_mem _ h)
        · rcases hchunk with h | h | ⟨le, hle, hlev⟩
          · left
            have hc2 : chunkCount (applyCall (Call.splitFind fn (splitPointDoc i)) s.cluster) fn =
                chunkCount s.cluster fn + 1 :=
              chunkCount_applyCall_split fn (splitPointDoc i) s.cluster
            simp only [List.length_cons]
            have h2 : chunkCount σ.cluster fn ≥
                chunkCount (applyCall (Call.splitFind fn (splitPointDoc i)) s.cluster) fn +
                  rest.length := h
            omega
          · exact Or.inr (Or.inl (List.mem_cons_of_mem _ h))
          · exact Or.inr (Or.inr ⟨le, List.mem_cons_of_mem _ hle, hlev⟩)
      · exact absurd hco (hno _ r)
      · by_cases hinc : includesSub m "chunk is too small" = true
        · refine ⟨created,
            { cluster := s.cluster
              reads := s.reads
              calls := s.calls ++ [Call.splitFind fn (splitPointDoc i)]
              logs := s.logs ++ [chunkTooSmallLog]
              results := s.results },
            [Call.splitFind fn (splitPointDoc i)], [chunkTooSmallLog],
            ?_, by simp, by simp, by simp, ?_, Or.inr (by simp), Or.inr (Or.inl (by simp))⟩
          · show splitLoop fn needed (i :: rest) created env s = _
            simp only [splitLoop]
            rw [bind_run (splitStep_tooSmall fn needed created i s hco hinc)]
            rfl
          · intro c hc
            rcases List.mem_cons.mp hc with hc | hc
            · exact ⟨i, hc⟩
            · exact absurd hc (by simp)
        · have hinc2 : includesSub m "chunk is too small" = false := by
            simpa using hinc
          obtain ⟨c2, σ, t, u, hrun, hcalls, hlogs, hlen, hshape, hstop, hchunk⟩ :=
            splitLoop_inv fn needed rest created env
              { cluster := s.cluster
                reads := s.reads
                calls := s.calls ++ [Call.splitFind fn (splitPointDoc i)]
                logs := s.logs ++ [⟨.warning, "    分割 " ++ toString (i + 1) ++ " 失败: " ++ m⟩]
                results := s.results } hno
          refine ⟨c2, σ, Call.splitFind fn (splitPointDoc i) :: t,
            ⟨.warning, "    分割 " ++ toString (i + 1) ++ " 失败: " ++ m⟩ :: u,
            ?_, ?_, ?_, ?_, ?_, ?_, ?_⟩
          · show splitLoop fn needed (i :: rest) created env s = _
            simp only [splitLoop]
            rw [bind_run (splitStep_warn fn needed created i s hco hinc2)]
            exact hrun
          · rw [hcalls]
            simp
          · rw [hlogs]
            simp
          · simpa using Nat.succ_le_succ hlen
          · intro c hc
            rcases List.mem_cons.mp hc with hc | hc
            · exact ⟨i, hc⟩
            · exact hshape c hc
          · rcases hstop with h | h
            · exact Or.inl (by simp [h])
            · exact Or.inr (List.mem_cons_of_mem _ h)
          · exact Or.inr (Or.inr ⟨_, List.mem_cons_self _ _, rfl⟩)

/-- Forward decomposition of `preSplitChunks` outside dry-run when the
chunk-count read succeeds: after the heading log and the read, the step
continues as `preSplitRemaining` on the observed count. -/
theorem preSplitChunks_run (cfg : Config) (cc : CollConfig) (env : Env) (s : St)
    (hdry : cfg.options.dryRun = false)
    (hread : env.readError (.countChunks (cfg.database ++ "." ++ cc.name)) = none) :
    preSplitChunks cfg cc env s =
      preSplitRemaining cfg cc (chunkCount s.cluster (cfg.database ++ "." ++ cc.name)) env
        { s with
          reads := s.reads ++ [ReadCall.countChunks (cfg.database ++ "." ++ cc.name)],
          logs := s.logs ++
            [⟨.info, "预先分割分块 (目标: " ++ toString cfg.sharding.initialChunks ++ " 个)"⟩] } := by
  have hnd : ¬ (cfg.options.dryRun = true) := by simp [hdry]
  simp only [preSplitChunks, logInfo]
  rw [bind_run (logE_run _ _ _ _)]
  rw [if_neg hnd]
  rw [bind_run (readM_run_none _ _ hread)]

/-- The tail of `preSplitRemaining` after the split loop only ever appends a
log entry. -/
theorem presplit_tail_run (c2 : Nat) (env : Env) (σ : St) :
    ∃ w, (if c2 > 0 then logSuccess ("  成功分割 " ++ toString c2 ++ " 个分块")
          else pure ()) env σ =
      (Except.ok (), { σ with logs := σ.logs ++ w }) := by
  by_cases hc : c2 > 0
  · refine ⟨[⟨.success, "  成功分割 " ++ toString c2 ++ " 个分块"⟩], ?_⟩
    rw [if_pos hc]
    rfl
  · refine ⟨[], ?_⟩
    rw [if_neg hc]
    simp [pure_run]

/-- C6 (amended): outside dry-run, with a readable chunk count and an
environment whose splits either succeed or throw, the pre-split is guarded
by the observed count: at or above the `initialChunks` target no split call
is issued; below it at most (target − current) `splitFind` attempts are
made — exactly that many unless the early `chunk is too small` stop was
logged — and afterwards the chunk count reaches the target, or the early
stop is logged, or some failed split attempt is logged as a warning. -/
theorem claim_C6_presplit_guard (cfg : Config) (cc : CollConfig) (env : Env) (s : St)
    (hdry : cfg.options.dryRun = false)
    (hread : env.readError (.countChunks (cfg.database ++ "." ++ cc.name)) = none)
    (hno : ∀ d r, env.callOutcome (Call.splitFind (cfg.database ++ "." ++ cc.name) d) ≠
      CallOutcome.notOk r) :
    (chunkCount s.cluster (cfg.database ++ "." ++ cc.name) ≥ cfg.sharding.initialChunks →
      (preSplitChunks cfg cc env s).2.calls = s.calls) ∧
    (chunkCount s.cluster (cfg.database ++ "." ++ cc.name) < cfg.sharding.initialChunks →
      ∃ t u,
        (preSplitChunks cfg cc env s).2.calls = s.calls ++ t ∧
        (preSplitChunks cfg cc env s).2.logs = s.logs ++ u ∧
        t.length ≤
          cfg.sharding.initialChunks - chunkCount s.cluster (cfg.database ++ "." ++ cc.name) ∧
        (∀ c ∈ t, ∃ i, c = Call.splitFind (cfg.database ++ "." ++ cc.name) (splitPointDoc i)) ∧
        (t.length =
            cfg.sharding.initialChunks - chunkCount s.cluster (cfg.database ++ "." ++ cc.name) ∨
          chunkTooSmallLog ∈ u) ∧
        (chunkCount (preSplitChunks cfg cc env s).2.cluster (cfg.database ++ "." ++ cc.name) ≥
            cfg.sharding.initialChunks ∨
          chunkTooSmallLog ∈ u ∨ ∃ le ∈ u, le.level = LogLevel.warning)) := by
  rw [preSplitChunks_run cfg cc env s hdry hread]
  constructor
  · intro hge
    simp only [preSplitRemaining, logInfo]
    rw [if_pos hge]
    rfl
  · intro hlt
    have hng : ¬ (chunkCount s.cluster (cfg.database ++ "." ++ cc.name) ≥
        cfg.sharding.initialChunks) := by omega
    simp only [preSplitRemaining, logInfo]
    rw [if_neg hng]
    rw [bind_run (logE_run _ _ _ _)]
    obtain ⟨c2, σ, t, u, hrun, hcalls, hlogs, hlen, hshape, hstop, hchunk⟩ :=
      splitLoop_inv (cfg.database ++ "." ++ cc.name)
        (cfg.sharding.initialChunks - chunkCount s.cluster (cfg.database ++ "." ++ cc.name))
        (List.range
          (cfg.sharding.initialChunks - chunkCount s.cluster (cfg.database ++ "." ++ cc.name)))
        0 env
        { s with
          reads := s.reads ++ [ReadCall.countChunks (cfg.database ++ "." ++ cc.name)],
          logs := (s.logs ++
            [⟨.info, "预先分割分块 (目标: " ++ toString cfg.sharding.initialChunks ++ " 个)"⟩]) ++
            [⟨.info, "  需要创建 " ++
              toString (cfg.sharding.initialChunks -
                chunkCount s.cluster (cfg.database ++ "." ++ cc.name)) ++ " 个新分块"⟩] } hno
    rw [bind_run hrun]
    obtain ⟨w, hfin⟩ := presplit_tail_run c2 env σ
    rw [hfin]
    refine ⟨t,
      [⟨.info, "预先分割分块 (目标: " ++ toString cfg.sharding.initialChunks ++ " 个)"⟩,
        ⟨.info, "  需要创建 " ++
          toString (cfg.sharding.initialChunks -
            chunkCount s.cluster (cfg.database ++ "." ++ cc.name)) ++ " 个新分块"⟩] ++ u ++ w,
      ?_, ?_, ?_, hshape, ?_, ?_⟩
    · rw [hcalls]
    · rw [hlogs]
      simp
    · simpa using hlen
    · rcases hstop with h | h
      · exact Or.inl (by simpa using h)
      · exact Or.inr (by simp [h])
    · rcases hchunk with h | h | ⟨le, hle, hlev⟩
      · refine Or.inl ?_
        have h2 : chunkCount σ.cluster (cfg.database ++ "." ++ cc.name) ≥
            chunkCount s.cluster (cfg.database ++ "." ++ cc.name) +
              (cfg.sharding.initialChunks -
                chunkCount s.cluster (cfg.database ++ "." ++ cc.name)) := by
          simpa using h
        show chunkCount σ.cluster (cfg.database ++ "." ++ cc.name) ≥ cfg.sharding.initialChunks
        omega
      · exact Or.inr (Or.inl (by simp [h]))
      · exact Or.inr (Or.inr ⟨le, by simp [hle], hlev⟩)

/-- C6 counterexample: starting one chunk under the target with an
environment where every split throws `network timeout`, a single split
attempt is made and logged as a warning, after which the chunk count is
still below the target and there is no `chunk is too small` stop log — so
the run neither reaches the target nor logs the early stop the claim
offers as the only alternative. -/
theorem claim_C6_counterexample :
    CONFIG.sharding.initialChunks = 8 ∧
    (preSplitChunks CONFIG ugIdCard c6Env
        (mkSt { emptyCluster with chunks := [("xsdk_v2_test.ug_id_card", 7)] })).2.calls =
      [Call.splitFind "xsdk_v2_test.ug_id_card" (splitPointDoc 0)] ∧
    chunkCount (preSplitChunks CONFIG ugIdCard c6Env
        (mkSt { emptyCluster with chunks := [("xsdk_v2_test.ug_id_card", 7)] })).2.cluster
      "xsdk_v2_test.ug_id_card" = 7 ∧
    chunkTooSmallLog ∉ (preSplitChunks CONFIG ugIdCard c6Env
        (mkSt { emptyCluster with chunks := [("xsdk_v2_test.ug_id_card", 7)] })).2.logs := by
  refine ⟨rfl, ?_⟩
  simp [preSplitChunks, preSplitRemaining, splitLoop, issueVoid, sleepM,
    logInfo, logWarning, logSuccess,
    bind_apply, tryCatch_apply, logE_run, readM_run, issueCall_run, pure_run, throwM_run,
    mkSt, emptyCluster, applyCall, chunkCount, setAssoc, splitPointDoc,
    includesSub, charsContain, charsStartWith, CONFIG, ugIdCard, c6Env, okEnv, chunkTooSmallLog,
    show toString (0 : Nat) = "0" from rfl, show toString (1 : Nat) = "1" from rfl,
    show toString (7 : Nat) = "7" from rfl, show toString (8 : Nat) = "8" from rfl]

/-- Witness for C6: at a count already above the target, the benign
environment issues no split call. -/
theorem claim_C6_presplit_guard_witness :
    (preSplitChunks CONFIG ugIdCard okEnv
        (mkSt { emptyCluster with chunks := [("xsdk_v2_test.ug_id_card", 9)] })).2.calls = [] :=
  (claim_C6_presplit_guard CONFIG ugIdCard okEnv
      (mkSt { emptyCluster with chunks := [("xsdk_v2_test.ug_id_card", 9)] })
      rfl rfl (fun d r h => by simp [okEnv] at h)).1 (by decide)

/-- C9: every split call the pre-split step issues carries the fixed
`\x7bappID: i, deviceID: "split_point_" + i\x7d` document — its fields are
always `appID`/`deviceID` whatever the collection's shard key — and among
the configured collections only `ug_device` has that shard key, so for the
other seven the split points are not expressed in shard-key fields. -/
theorem claim_C9_split_point_shape (cfg : Config) (cc : CollConfig) (env : Env) (s : St) :
    (∃ t, (preSplitChunks cfg cc env s).2.calls = s.calls ++ t ∧
      ∀ c ∈ t, ∃ i, c = Call.splitFind (cfg.database ++ "." ++ cc.name) (splitPointDoc i) ∧
        (splitPointDoc i).map Prod.fst = ["appID", "deviceID"]) ∧
    (∀ cc2 ∈ CONFIG.collections,
      cc2.shardKey.map Prod.fst = ["appID", "deviceID"] ↔ cc2.name = "ug_device") := by
  refine ⟨?_, by decide⟩
  by_cases hdry : cfg.options.dryRun = true
  · refine ⟨[], ?_, by simp⟩
    simp only [preSplitChunks, logInfo]
    rw [bind_run (logE_run _ _ _ _)]
    rw [if_pos hdry]
    simp [logE_run]
  · rcases hre : env.readError (.countChunks (cfg.database ++ "." ++ cc.name)) with _ | m
    · have hdf : cfg.options.dryRun = false := by simpa using hdry
      rw [preSplitChunks_run cfg cc env s hdf hre]
      by_cases hge : chunkCount s.cluster (cfg.database ++ "." ++ cc.name) ≥
          cfg.sharding.initialChunks
      · refine ⟨[], ?_, by simp⟩
        simp only [preSplitRemaining, logInfo]
        rw [if_pos hge]
        simp [logE_run]
      · simp only [preSplitRemaining, logInfo]
        rw [if_neg hge]
        rw [bind_run (logE_run _ _ _ _)]
        obtain ⟨c2, σ, t, hrun, hcalls, hshape⟩ :=
          splitLoop_calls (cfg.database ++ "." ++ cc.name)
            (cfg.sharding.initialChunks - chunkCount s.cluster (cfg.database ++ "." ++ cc.name))
            (List.range
              (cfg.sharding.initialChunks -
                chunkCount s.cluster (cfg.database ++ "." ++ cc.name)))
            0 env
            { s with
              reads := s.reads ++ [ReadCall.countChunks (cfg.database ++ "." ++ cc.name)],
              logs := (s.logs ++
                [⟨.info, "预先分割分块 (目标: " ++ toString cfg.sharding.initialChunks ++ " 个)"⟩]) ++
                [⟨.info, "  需要创建 " ++
                  toString (cfg.sharding.initialChunks -
                    chunkCount s.cluster (cfg.database ++ "." ++ cc.name)) ++ " 个新分块"⟩] }
        rw [bind_run hrun]
        obtain ⟨w, hfin⟩ := presplit_tail_run c2 env σ
        rw [hfin]
        refine ⟨t, ?_, ?_⟩
        · rw [hcalls]
        · intro c hc
          obtain ⟨i, hci⟩ := hshape c hc
          exact ⟨i, hci, rfl⟩
    · refine ⟨[], ?_, by simp⟩
      simp only [preSplitChunks, logInfo]
      rw [bind_run (logE_run _ _ _ _)]
      rw [if_neg hdry]
      rw [bind_run_err (readM_run_some _ _ hre)]
      simp

/-- From any mid-run state, the post-creation part of a collection's
processing only ever appends to the call trace. -/
theorem pcTail_callsGrow (cfg : Config) (cc : CollConfig) (env : Env) (s5 : St) :
    ∃ e σ t, processCollectionTail cfg cc env s5 = (e, σ) ∧ σ.calls = s5.calls ++ t := by
  rcases h : processCollectionTail cfg cc env s5 with ⟨e, σ⟩
  have hg := rel_processCollectionTail stepRO_callsGrow issOK_callsGrow pushOK_callsGrow
    cfg cc env s5
  rw [h] at hg
  have hg2 : ∃ t, σ.calls = s5.calls ++ t := hg
  obtain ⟨t, ht⟩ := hg2
  exact ⟨e, σ, t, rfl, ht⟩

/-- C8: for a configured collection missing at the start of a non-dry-run
run, the very first call its processing issues is the `createCollection`
for it, so any `createIndex` call for that collection comes after the
collection was created. -/
theorem claim_C8_create_before_index (cfg : Config) (cc : CollConfig) (env : Env) (s : St)
    (hdry : cfg.options.dryRun = false)
    (hmiss : s.cluster.collections.contains cc.name = false) :
    ∃ t, (processCollection cfg cc env s).2.calls = s.calls ++ t ∧
      ((∃ c ∈ t, isCreateIndexFor cc.name c = true) →
        t.head? = some (Call.createCollection cc.name)) := by
  rcases hre : env.readError ReadCall.getCollectionNames with _ | m
  · have h1 : checkCollectionExists cc.name env (pcEntryState cc s) =
        (Except.ok false,
         { pcEntryState cc s with
             reads := (pcEntryState cc s).reads ++ [ReadCall.getCollectionNames] }) := by
      simp only [checkCollectionExists]
      rw [bind_run (readM_run_none _ _ hre)]
      have hm2 : cc.name ∉ s.cluster.collections := by simpa using hmiss
      simp [pure_run, pcEntryState, hm2]
    have hnd : (!cfg.options.dryRun) = true := by simp [hdry]
    have hball : ∃ e σ, processCollectionBody cfg cc env (pcEntryState cc s) = (e, σ) ∧
        ∃ t2, σ.calls = s.calls ++ Call.createCollection cc.name :: t2 := by
      simp only [processCollectionBody, logWarning, logSuccess]
      rw [bind_run h1]
      rw [if_pos (show (!false) = true from rfl)]
      rw [if_pos hnd]
      rcases hco : env.callOutcome (Call.createCollection cc.name) with _ | r | m2
      · have hpre : (logE .warning ("表 " ++ cc.name ++ " 不存在，将创建") >>= fun _ =>
            issueVoid (Call.createCollection cc.name) >>= fun _ =>
            logE .success "表创建成功") env
            { pcEntryState cc s with
                reads := (pcEntryState cc s).reads ++ [ReadCall.getCollectionNames] } =
            (Except.ok (),
             { cluster := applyCall (Call.createCollection cc.name) (pcEntryState cc s).cluster
               reads := (pcEntryState cc s).reads ++ [ReadCall.getCollectionNames]
               calls := (pcEntryState cc s).calls ++ [Call.createCollection cc.name]
               logs := ((pcEntryState cc s).logs ++
                 [⟨.warning, "表 " ++ cc.name ++ " 不存在，将创建"⟩]) ++ [⟨.success, "表创建成功"⟩]
               results := (pcEntryState cc s).results }) := by
          rw [bind_run (logE_run _ _ _ _)]
          rw [bind_run (issueVoid_run_ok _ hco)]
          rfl
        rw [bind_run hpre]
        obtain ⟨e3, σ3, t3, htail, ht3⟩ := pcTail_callsGrow cfg cc env
          { cluster := applyCall (Call.createCollection cc.name) (pcEntryState cc s).cluster
            reads := (pcEntryState cc s).reads ++ [ReadCall.getCollectionNames]
            calls := (pcEntryState cc s).calls ++ [Call.createCollection cc.name]
            logs := ((pcEntryState cc s).logs ++
              [⟨.warning, "表 " ++ cc.name ++ " 不存在，将创建"⟩]) ++ [⟨.success, "表创建成功"⟩]
            results := (pcEntryState cc s).results }
        refine ⟨e3, σ3, htail, t3, ?_⟩
        rw [ht3]
        simp [pcEntryState]
      · have hpre : (logE .warning ("表 " ++ cc.name ++ " 不存在，将创建") >>= fun _ =>
            issueVoid (Call.createCollection cc.name) >>= fun _ =>
            logE .success "表创建成功") env
            { pcEntryState cc s with
                reads := (pcEntryState cc s).reads ++ [ReadCall.getCollectionNames] } =
            (Except.ok (),
             { cluster := (pcEntryState cc s).cluster
               reads := (pcEntryState cc s).reads ++ [ReadCall.getCollectionNames]
               calls := (pcEntryState cc s).calls ++ [Call.createCollection cc.name]
               logs := ((pcEntryState cc s).logs ++
                 [⟨.warning, "表 " ++ cc.name ++ " 不存在，将创建"⟩]) ++ [⟨.success, "表创建成功"⟩]
               results := (pcEntryState cc s).results }) := by
          rw [bind_run (logE_run _ _ _ _)]
          rw [bind_run (issueVoid_run_notOk _ hco)]
          rfl
        rw [bind_run hpre]
        obtain ⟨e3, σ3, t3, htail, ht3⟩ := pcTail_callsGrow cfg cc env
          { cluster := (pcEntryState cc s).cluster
            reads := (pcEntryState cc s).reads ++ [ReadCall.getCollectionNames]
            calls := (pcEntryState cc s).calls ++ [Call.createCollection cc.name]
            logs := ((pcEntryState cc s).logs ++
              [⟨.warning, "表 " ++ cc.name ++ " 不存在，将创建"⟩]) ++ [⟨.success, "表创建成功"⟩]
            results := (pcEntryState cc s).results }
        refine ⟨e3, σ3, htail, t3, ?_⟩
        rw [ht3]
        simp [pcEntryState]
      · have hpre : (logE .warning ("表 " ++ cc.name ++ " 不存在，将创建") >>= fun _ =>
            issueVoid (Call.createCollection cc.name) >>= fun _ =>
            logE .success "表创建成功") env
            { pcEntryState cc s with
                reads := (pcEntryState cc s).reads ++ [ReadCall.getCollectionNames] } =
            (Except.error m2,
             { cluster := (pcEntryState cc s).cluster
               reads := (pcEntryState cc s).reads ++ [ReadCall.getCollectionNames]
               calls := (pcEntryState cc s).calls ++ [Call.createCollection cc.name]
               logs := (pcEntryState cc s).logs ++
                 [⟨.warning, "表 " ++ cc.name ++ " 不存在，将创建"⟩]
               results := (pcEntryState cc s).results }) := by
          rw [bind_run (logE_run _ _ _ _)]
          exact bind_run_err (issueVoid_run_throws _ hco) _
        rw [bind_run_err hpre]
        exact ⟨Except.error m2, _, rfl, [], by simp [pcEntryState]⟩
    obtain ⟨e, σ, hb, t2, hσ⟩ := hball
    rw [processCollection_run, tryCatch_apply, hb]
    cases e with
    | ok a =>
        refine ⟨Call.createCollection cc.name :: t2, ?_, fun _ => rfl⟩
        show σ.calls = s.calls ++ Call.createCollection cc.name :: t2
        exact hσ
    | error m =>
        refine ⟨Call.createCollection cc.name :: t2, ?_, fun _ => rfl⟩
        show σ.calls = s.calls ++ Call.createCollection cc.name :: t2
        exact hσ
  · have h1e : checkCollectionExists cc.name env (pcEntryState cc s) =
        (Except.error m,
         { pcEntryState cc s with
             reads := (pcEntryState cc s).reads ++ [ReadCall.getCollectionNames] }) := by
      simp only [checkCollectionExists]
      exact bind_run_err (readM_run_some _ _ hre) _
    have hb : processCollectionBody cfg cc env (pcEntryState cc s) =
        (Except.error m,
         { pcEntryState cc s with
             reads := (pcEntryState cc s).reads ++ [ReadCall.getCollectionNames] }) := by
      simp only [processCollectionBody]
      exact bind_run_err h1e _
    refine ⟨[], ?_, ?_⟩
    · rw [processCollection_run, tryCatch_apply, hb]
      show (pcEntryState cc s).calls = s.calls ++ []
      simp [pcEntryState]
    · rintro ⟨c, hc, _⟩
      exact absurd hc (by simp)

/-- Witness for C8: over an empty cluster under the benign environment,
processing `ug_id_card` first issues its `createCollection`. -/
theorem claim_C8_create_before_index_witness :
    ∃ t, (processCollection CONFIG ugIdCard okEnv (mkSt emptyCluster)).2.calls =
        (mkSt emptyCluster).calls ++ t ∧
      ((∃ c ∈ t, isCreateIndexFor ugIdCard.name c = true) →
        t.head? = some (Call.createCollection ugIdCard.name)) :=
  claim_C8_create_before_index CONFIG ugIdCard okEnv (mkSt emptyCluster) rfl rfl

/-! Dry-run forward computations (C7): every step still performs its reads
and logs the gated mutating call instead of issuing it. -/

theorem createIndexesLoop_dry_nil {cfg : Config} (cc : CollConfig)
    (hdry : cfg.options.dryRun = true) :
    ∀ (i : Nat) (l : List IndexConfig) (env : Env) (s : St),
    createIndexesLoop cfg cc [] i l env s =
      (Except.ok (),
       { s with
         logs := s.logs ++
           l.map (fun idx => ⟨.info, "  [试运行] 创建索引: " ++ jsonStringifyKey idx.key⟩) })
  | i, [], env, s => by simp [createIndexesLoop, pure_run]
  | i, idx :: rest, env, s => by
      simp only [createIndexesLoop, logInfo]
      have hcond : ¬ (([] : List ExistingIndex).any
          (fun e => jsonStringifyKey e.key == jsonStringifyKey idx.key) = true) := by simp
      rw [if_neg hcond, if_pos hdry]
      rw [bind_run (logE_run _ _ _ _)]
      rw [createIndexesLoop_dry_nil cc hdry (i + 1) rest env _]
      simp

theorem createIndexes_dry_run {cfg : Config} (cc : CollConfig) (env : Env) (s : St)
    (hdry : cfg.options.dryRun = true)
    (hr3 : env.readError (ReadCall.getIndexes cc.name) = none)
    (hidx : indexList s.cluster cc.name = []) :
    createIndexes cfg cc env s =
      (Except.ok (), { s with
        reads := s.reads ++ (if cc.indexes.isEmpty then [] else [ReadCall.getIndexes cc.name]),
        logs := s.logs ++ (if cc.indexes.isEmpty then [] else
          ⟨.info, "创建业务索引 (" ++ toString cc.indexes.length ++ " 个)"⟩ ::
            cc.indexes.map (fun idx =>
              ⟨.info, "  [试运行] 创建索引: " ++ jsonStringifyKey idx.key⟩)) }) := by
  by_cases hie : cc.indexes.isEmpty = true
  · simp only [createIndexes]
    rw [if_pos hie]
    simp [pure_run, hie]
  · simp only [createIndexes, logInfo]
    rw [if_neg hie]
    rw [bind_run (logE_run _ _ _ _)]
    rw [bind_run (readM_run_none _ _ hr3)]
    rw [show indexList ({ s with logs := s.logs ++
          [⟨.info, "创建业务索引 (" ++ toString cc.indexes.length ++ " 个)"⟩] } : St).cluster
        cc.name = ([] : List ExistingIndex) from hidx]
    rw [createIndexesLoop_dry_nil cc hdry 0 cc.indexes env _]
    simp [hie]

theorem createShardKeyIndex_dry_run {cfg : Config} (cc : CollConfig) (env : Env) (s : St)
    (hdry : cfg.options.dryRun = true)
    (hr3 : env.readError (ReadCall.getIndexes cc.name) = none)
    (hidx : indexList s.cluster cc.name = []) :
    createShardKeyIndex cfg cc env s =
      (Except.ok (), { s with
        reads := s.reads ++ [ReadCall.getIndexes cc.name],
        logs := s.logs ++
          [⟨.info, "创建分片键索引（_id 哈希）: " ++ jsonStringifyKey cc.shardKey⟩,
           ⟨.info, "  [试运行] 创建 _id 哈希索引"⟩] }) := by
  simp only [createShardKeyIndex, logInfo]
  rw [bind_run (logE_run _ _ _ _)]
  rw [bind_run (readM_run_none _ _ hr3)]
  rw [show indexList ({ s with logs := s.logs ++
        [⟨.info, "创建分片键索引（_id 哈希）: " ++ jsonStringifyKey cc.shardKey⟩] } : St).cluster
      cc.name = ([] : List ExistingIndex) from hidx]
  have hcond : ¬ (([] : List ExistingIndex).any
      (fun idx => jsonStringifyKey idx.key == jsonStringifyKey cc.shardKey) = true) := by simp
  rw [if_neg hcond, if_pos hdry]
  rw [logE_run]
  simp

theorem enableCollectionSharding_dry_run {cfg : Config} (cc : CollConfig) (env : Env) (s : St)
    (hdry : cfg.options.dryRun = true) :
    enableCollectionSharding cfg cc env s =
      (Except.ok (), { s with logs := s.logs ++
        [⟨.info, "启用表分片"⟩,
         ⟨.info, "  分片键: " ++ jsonStringifyKey cc.shardKey⟩,
         ⟨.info, "  [试运行] 启用分片: " ++ (cfg.database ++ "." ++ cc.name)⟩] }) := by
  simp only [enableCollectionSharding, logInfo]
  rw [bind_run (logE_run _ _ _ _)]
  rw [bind_run (logE_run _ _ _ _)]
  rw [if_pos hdry]
  rw [logE_run]
  simp

theorem preSplitChunks_dry_run {cfg : Config} (cc : CollConfig) (env : Env) (s : St)
    (hdry : cfg.options.dryRun = true) :
    preSplitChunks cfg cc env s =
      (Except.ok (), { s with logs := s.logs ++
        [⟨.info, "预先分割分块 (目标: " ++ toString cfg.sharding.initialChunks ++ " 个)"⟩,
         ⟨.info, "  [试运行] 分割分块"⟩] }) := by
  simp only [preSplitChunks, logInfo]
  rw [bind_run (logE_run _ _ _ _)]
  rw [if_pos hdry]
  rw [logE_run]
  simp

theorem processCollectionTail_dry_run {cfg : Config} (cc : CollConfig) (env : Env) (s : St)
    (hdry : cfg.options.dryRun = true)
    (hr2 : env.readError (ReadCall.findShardedConfig (cfg.database ++ "." ++ cc.name)) = none)
    (hr3 : env.readError (ReadCall.getIndexes cc.name) = none)
    (hns : (s.cluster.shardedNs.lookup (cfg.database ++ "." ++ cc.name)).isSome = false)
    (hidx : indexList s.cluster cc.name = []) :
    ∃ σ, processCollectionTail cfg cc env s = (Except.ok (), σ) ∧
      σ.cluster = s.cluster ∧
      σ.calls = s.calls ∧
      σ.reads = s.reads ++ ([ReadCall.findShardedConfig (cfg.database ++ "." ++ cc.name)] ++
        ((if cc.indexes.isEmpty then [] else [ReadCall.getIndexes cc.name]) ++
          [ReadCall.getIndexes cc.name])) ∧
      ∃ u, σ.logs = s.logs ++ u ∧
        (⟨.info, "  [试运行] 创建 _id 哈希索引"⟩ : LogEvent) ∈ u ∧
        (⟨.info, "  [试运行] 启用分片: " ++ (cfg.database ++ "." ++ cc.name)⟩ : LogEvent) ∈ u ∧
        (⟨.info, "  [试运行] 分割分块"⟩ : LogEvent) ∈ u ∧
        ∀ idx ∈ cc.indexes,
          (⟨.info, "  [试运行] 创建索引: " ++ jsonStringifyKey idx.key⟩ : LogEvent) ∈ u := by
  simp only [processCollectionTail, logSuccess]
  have hcs : checkIfSharded (cfg.database ++ "." ++ cc.name) env s =
      (Except.ok false,
       { s with reads := s.reads ++
          [ReadCall.findShardedConfig (cfg.database ++ "." ++ cc.name)] }) := by
    simp only [checkIfSharded]
    rw [readM_run_none _ _ hr2]
    rw [hns]
  rw [bind_run hcs]
  generalize hg1 : ({ s with reads := s.reads ++
      [ReadCall.findShardedConfig (cfg.database ++ "." ++ cc.name)] } : St) = s1
  have h1c : s1.cluster = s.cluster := by rw [← hg1]
  have h1ca : s1.calls = s.calls := by rw [← hg1]
  have h1r : s1.reads = s.reads ++
      [ReadCall.findShardedConfig (cfg.database ++ "." ++ cc.name)] := by rw [← hg1]
  have h1l : s1.logs = s.logs := by rw [← hg1]
  rw [Bool.false_and]
  rw [if_neg (show ¬ (false = true) from by simp)]
  have hidx1 : indexList s1.cluster cc.name = [] := by rw [h1c]; exact hidx
  rw [bind_run (createIndexes_dry_run cc env s1 hdry hr3 hidx1)]
  generalize hg2 : ({ s1 with
      reads := s1.reads ++ (if cc.indexes.isEmpty then [] else [ReadCall.getIndexes cc.name]),
      logs := s1.logs ++ (if cc.indexes.isEmpty then [] else
        ⟨.info, "创建业务索引 (" ++ toString cc.indexes.length ++ " 个)"⟩ ::
          cc.indexes.map (fun idx =>
            ⟨.info, "  [试运行] 创建索引: " ++ jsonStringifyKey idx.key⟩)) } : St) = s2
  have h2c : s2.cluster = s.cluster := by rw [← hg2]; exact h1c
  have h2ca : s2.calls = s.calls := by rw [← hg2]; exact h1ca
  have h2r : s2.reads = s1.reads ++
      (if cc.indexes.isEmpty then [] else [ReadCall.getIndexes cc.name]) := by rw [← hg2]
  have h2l : s2.logs = s1.logs ++ (if cc.indexes.isEmpty then [] else
      ⟨.info, "创建业务索引 (" ++ toString cc.indexes.length ++ " 个)"⟩ ::
        cc.indexes.map (fun idx =>
          ⟨.info, "  [试运行] 创建索引: " ++ jsonStringifyKey idx.key⟩)) := by rw [← hg2]
  have hidx2 : indexList s2.cluster cc.name = [] := by rw [h2c]; exact hidx
  rw [bind_run (createShardKeyIndex_dry_run cc env s2 hdry hr3 hidx2)]
  generalize hg3 : ({ s2 with
      reads := s2.reads ++ [ReadCall.getIndexes cc.name],
      logs := s2.logs ++
        [⟨.info, "创建分片键索引（_id 哈希）: " ++ jsonStringifyKey cc.shardKey⟩,
         ⟨.info, "  [试运行] 创建 _id 哈希索引"⟩] } : St) = s3
  have h3c : s3.cluster = s.cluster := by rw [← hg3]; exact h2c
  have h3ca : s3.calls = s.calls := by rw [← hg3]; exact h2ca
  have h3r : s3.reads = s2.reads ++ [ReadCall.getIndexes cc.name] := by rw [← hg3]
  have h3l : s3.logs = s2.logs ++
      [⟨.info, "创建分片键索引（_id 哈希）: " ++ jsonStringifyKey cc.shardKey⟩,
       ⟨.info, "  [试运行] 创建 _id 哈希索引"⟩] := by rw [← hg3]
  rw [bind_run (enableCollectionSharding_dry_run cc env s3 hdry)]
  generalize hg4 : ({ s3 with logs := s3.logs ++
      [⟨.info, "启用表分片"⟩,
       ⟨.info, "  分片键: " ++ jsonStringifyKey cc.shardKey⟩,
       ⟨.info, "  [试运行] 启用分片: " ++ (cfg.database ++ "." ++ cc.name)⟩] } : St) = s4
  have h4c : s4.cluster = s.cluster := by rw [← hg4]; exact h3c
  have h4ca : s4.calls = s.calls := by rw [← hg4]; exact h3ca
  have h4r : s4.reads = s3.reads := by rw [← hg4]
  have h4l : s4.logs = s3.logs ++
      [⟨.info, "启用表分片"⟩,
       ⟨.info, "  分片键: " ++ jsonStringifyKey cc.shardKey⟩,
       ⟨.info, "  [试运行] 启用分片: " ++ (cfg.database ++ "." ++ cc.name)⟩] := by rw [← hg4]
  rw [bind_run (preSplitChunks_dry_run cc env s4 hdry)]
  generalize hg5 : ({ s4 with logs := s4.logs ++
      [⟨.info, "预先分割分块 (目标: " ++ toString cfg.sharding.initialChunks ++ " 个)"⟩,
       ⟨.info, "  [试运行] 分割分块"⟩] } : St) = s5
  have h5c : s5.cluster = s.cluster := by rw [← hg5]; exact h4c
  have h5ca : s5.calls = s.calls := by rw [← hg5]; exact h4ca
  have h5r : s5.reads = s4.reads := by rw [← hg5]
  have h5l : s5.logs = s4.logs ++
      [⟨.info, "预先分割分块 (目标: " ++ toString cfg.sharding.initialChunks ++ " 个)"⟩,
       ⟨.info, "  [试运行] 分割分块"⟩] := by rw [← hg5]
  rw [bind_run (pushSuccess_run cc.name env s5)]
  generalize hg6 : ({ s5 with results :=
      { s5.results with success := s5.results.success ++ [cc.name] } } : St) = s6
  have h6c : s6.cluster = s.cluster := by rw [← hg6]; exact h5c
  have h6ca : s6.calls = s.calls := by rw [← hg6]; exact h5ca
  have h6r : s6.reads = s5.reads := by rw [← hg6]
  have h6l : s6.logs = s5.logs := by rw [← hg6]
  rw [logE_run]
  refine ⟨{ s6 with logs := s6.logs ++ [⟨.success, "表 " ++ cc.name ++ " 处理完成"⟩] },
    rfl, h6c, h6ca, ?_, ?_⟩
  · show s6.reads = _
    rw [h6r, h5r, h4r, h3r, h2r, h1r]
    simp
  · refine ⟨(if cc.indexes.isEmpty then [] else
        (⟨.info, "创建业务索引 (" ++ toString cc.indexes.length ++ " 个)"⟩ : LogEvent) ::
          cc.indexes.map (fun idx =>
            ⟨.info, "  [试运行] 创建索引: " ++ jsonStringifyKey idx.key⟩)) ++
      ([⟨.info, "创建分片键索引（_id 哈希）: " ++ jsonStringifyKey cc.shardKey⟩,
        ⟨.info, "  [试运行] 创建 _id 哈希索引"⟩] ++
       ([⟨.info, "启用表分片"⟩,
         ⟨.info, "  分片键: " ++ jsonStringifyKey cc.shardKey⟩,
         ⟨.info, "  [试运行] 启用分片: " ++ (cfg.database ++ "." ++ cc.name)⟩] ++
        ([⟨.info, "预先分割分块 (目标: " ++ toString cfg.sharding.initialChunks ++ " 个)"⟩,
          ⟨.info, "  [试运行] 分割分块"⟩] ++
         [⟨.success, "表 " ++ cc.name ++ " 处理完成"⟩]))), ?_, ?_, ?_, ?_, ?_⟩
    · show s6.logs ++ _ = _
      rw [h6l, h5l, h4l, h3l, h2l, h1l]
      simp
    · simp
    · simp
    · simp
    · intro idx hmem
      have hne : cc.indexes.isEmpty = false := by
        cases hcc : cc.indexes with
        | nil => rw [hcc] at hmem; exact absurd hmem (by simp)
        | cons a l => rfl
      have hmap : (⟨.info, "  [试运行] 创建索引: " ++ jsonStringifyKey idx.key⟩ : LogEvent) ∈
          cc.indexes.map (fun i2 =>
            (⟨.info, "  [试运行] 创建索引: " ++ jsonStringifyKey i2.key⟩ : LogEvent)) :=
        List.mem_map_of_mem _ hmem
      simp only [hne, Bool.false_eq_true, if_false]
      exact List.mem_append_left _ (List.mem_cons_of_mem _ hmap)

theorem processCollection_dry_run {cfg : Config} (cc : CollConfig) (env : Env) (s : St)
    (hdry : cfg.options.dryRun = true)
    (hr1 : env.readError ReadCall.getCollectionNames = none)
    (hr2 : env.readError (ReadCall.findShardedConfig (cfg.database ++ "." ++ cc.name)) = none)
    (hr3 : env.readError (ReadCall.getIndexes cc.name) = none)
    (hns : (s.cluster.shardedNs.lookup (cfg.database ++ "." ++ cc.name)).isSome = false)
    (hidx : indexList s.cluster cc.name = []) :
    ∃ σ, processCollection cfg cc env s = (Except.ok (), σ) ∧
      σ.calls = s.calls ∧
      ReadCall.getCollectionNames ∈ σ.reads ∧
      ReadCall.findShardedConfig (cfg.database ++ "." ++ cc.name) ∈ σ.reads ∧
      ReadCall.getIndexes cc.name ∈ σ.reads ∧
      (⟨.info, "  [试运行] 创建 _id 哈希索引"⟩ : LogEvent) ∈ σ.logs ∧
      (⟨.info, "  [试运行] 启用分片: " ++ (cfg.database ++ "." ++ cc.name)⟩ : LogEvent) ∈ σ.logs ∧
      (⟨.info, "  [试运行] 分割分块"⟩ : LogEvent) ∈ σ.logs ∧
      (∀ idx ∈ cc.indexes,
        (⟨.info, "  [试运行] 创建索引: " ++ jsonStringifyKey idx.key⟩ : LogEvent) ∈ σ.logs) ∧
      (s.cluster.collections.contains cc.name = false →
        (⟨.warning, "表 " ++ cc.name ++ " 不存在，将创建"⟩ : LogEvent) ∈ σ.logs) := by
  have h1 : checkCollectionExists cc.name env (pcEntryState cc s) =
      (Except.ok (s.cluster.collections.contains cc.name),
       { pcEntryState cc s with
           reads := (pcEntryState cc s).reads ++ [ReadCall.getCollectionNames] }) := by
    simp only [checkCollectionExists]
    rw [bind_run (readM_run_none _ _ hr1), pure_run]
    rfl
  rcases hc : s.cluster.collections.contains cc.name with _ | _
  · -- collection missing: the creation is logged as a warning and gated out
    obtain ⟨σ, hσ, hσc, hσca, hσr, u, hσl, hm1, hm2, hm3, hm4⟩ :=
      processCollectionTail_dry_run cc env
        ({ { pcEntryState cc s with
              reads := (pcEntryState cc s).reads ++ [ReadCall.getCollectionNames] } with
           logs := ({ pcEntryState cc s with
              reads := (pcEntryState cc s).reads ++
                [ReadCall.getCollectionNames] } : St).logs ++
              [⟨.warning, "表 " ++ cc.name ++ " 不存在，将创建"⟩] } : St)
        hdry hr2 hr3 hns hidx
    have hbody : processCollectionBody cfg cc env (pcEntryState cc s) = (Except.ok (), σ) := by
      simp only [processCollectionBody, logWarning]
      rw [bind_run h1]
      rw [hc]
      rw [if_pos (show (!false) = true from rfl)]
      rw [hdry]
      rw [if_neg (show ¬ ((!true) = true) from by simp)]
      have hw : (logE .warning ("表 " ++ cc.name ++ " 不存在，将创建") >>= fun _ =>
          (pure () : M Unit)) env
          { pcEntryState cc s with
              reads := (pcEntryState cc s).reads ++ [ReadCall.getCollectionNames] } =
          (Except.ok (),
           { { pcEntryState cc s with
                reads := (pcEntryState cc s).reads ++ [ReadCall.getCollectionNames] } with
             logs := ({ pcEntryState cc s with
                reads := (pcEntryState cc s).reads ++
                  [ReadCall.getCollectionNames] } : St).logs ++
                [⟨.warning, "表 " ++ cc.name ++ " 不存在，将创建"⟩] }) := by
        rw [bind_run (logE_run _ _ _ _)]
        rfl
      rw [bind_run hw]
      exact hσ
    refine ⟨σ, ?_, ?_, ?_, ?_, ?_, ?_, ?_, ?_, ?_, ?_⟩
    · rw [processCollection_run]
      exact tryCatch_run_ok hbody _
    · rw [hσca]
      rfl
    · rw [hσr]
      simp [pcEntryState]
    · rw [hσr]
      simp
    · rw [hσr]
      simp
    · rw [hσl]
      simp [hm1]
    · rw [hσl]
      simp [hm2]
    · rw [hσl]
      simp [hm3]
    · intro idx hmem
      rw [hσl]
      simp [hm4 idx hmem]
    · intro _
      rw [hσl]
      simp [pcEntryState]
  · -- collection present: no creation branch at all
    obtain ⟨σ, hσ, hσc, hσca, hσr, u, hσl, hm1, hm2, hm3, hm4⟩ :=
      processCollectionTail_dry_run cc env
        ({ pcEntryState cc s with
            reads := (pcEntryState cc s).reads ++ [ReadCall.getCollectionNames] } : St)
        hdry hr2 hr3 hns hidx
    have hbody : processCollectionBody cfg cc env (pcEntryState cc s) = (Except.ok (), σ) := by
      simp only [processCollectionBody, logWarning]
      rw [bind_run h1]
      rw [hc]
      rw [if_neg (show ¬ ((!true) = true) from by simp)]
      rw [bind_run (pure_run () env _)]
      exact hσ
    refine ⟨σ, ?_, ?_, ?_, ?_, ?_, ?_, ?_, ?_, ?_, ?_⟩
    · rw [processCollection_run]
      exact tryCatch_run_ok hbody _
    · rw [hσca]
      rfl
    · rw [hσr]
      simp [pcEntryState]
    · rw [hσr]
      simp
    · rw [hσr]
      simp
    · rw [hσl]
      simp [hm1]
    · rw [hσl]
      simp [hm2]
    · rw [hσl]
      simp [hm3]
    · intro idx hmem
      rw [hσl]
      simp [hm4 idx hmem]
    · intro hfalse
      exact absurd hfalse (by simp)

theorem validateConnection_reads (env : Env) (s : St)
    (h1 : env.readError ReadCall.hello = none)
    (h2 : env.readError ReadCall.connectionStatus = none) :
    ReadCall.hello ∈ (validateConnection env s).2.reads ∧
    ReadCall.connectionStatus ∈ (validateConnection env s).2.reads := by
  unfold validateConnection
  simp only [logInfo, logSuccess, logWarning]
  rcases h3 : env.authUser with _ | ⟨u, udb⟩
  · simp only [bind_apply, tryCatch_apply, logE_run, readM_run, h1, h2, h3]
    split_ifs <;>
      simp [bind_apply, tryCatch_apply, logE_run, readM_run, throwM_run, h1, h2, h3]
  · rcases h4 : env.readError (ReadCall.usersInfo u udb) with _ | m4
    · simp only [bind_apply, tryCatch_apply, logE_run, readM_run, h1, h2, h3, h4]
      split_ifs <;>
        simp [bind_apply, tryCatch_apply, logE_run, readM_run, throwM_run, h1, h2, h3, h4]
    · simp only [bind_apply, tryCatch_apply, logE_run, readM_run, h1, h2, h3, h4]
      split_ifs <;>
        simp [bind_apply, tryCatch_apply, logE_run, readM_run, throwM_run, h1, h2, h3, h4]

theorem validateSharding_reads (fn : String) (env : Env) (s : St)
    (h2 : env.readError (ReadCall.findShardedConfig fn) = none) :
    ReadCall.countChunks fn ∈ (validateSharding fn env s).2.reads := by
  unfold validateSharding
  simp only [logInfo, logSuccess, logError]
  rcases h7 : s.cluster.shardedNs.lookup fn with _ | k
  · rcases h5 : env.readError (ReadCall.countChunks fn) with _ | m5
    · rcases h6 : env.readError (ReadCall.findChunksByShard fn) with _ | m6
      · simp only [bind_apply, logE_run, readM_run, h2, h5, h6, h7]
        simp
      · simp only [bind_apply, logE_run, readM_run, h2, h5, h6, h7]
        simp
    · simp only [bind_apply, logE_run, readM_run, h2, h5, h7]
      simp
  · rcases h5 : env.readError (ReadCall.countChunks fn) with _ | m5
    · rcases h6 : env.readError (ReadCall.findChunksByShard fn) with _ | m6
      · simp only [bind_apply, logE_run, readM_run, h2, h5, h6, h7]
        simp
      · simp only [bind_apply, logE_run, readM_run, h2, h5, h6, h7]
        simp
    · simp only [bind_apply, logE_run, readM_run, h2, h5, h7]
      simp

/-- C7: with dry-run active the script still performs its read-only checks
and logs the mutating calls it would have made instead of issuing them:
a full run issues no administrative call and leaves the cluster untouched;
the connection validation still reads the server type and connection
status; the gated database-sharding call is replaced by its `[试运行]` log;
per collection the existence, sharded-state and index-existence reads still
happen, each gated mutating call (create collection, business indexes,
shard-key index, shard-enable, chunk split) leaves its log line, and the
chunk-count read happens in the validation step. -/
theorem claim_C7_dry_run_checks :
    (∀ (cfg : Config) (env : Env) (c0 : ClusterState), cfg.options.dryRun = true →
      (execute cfg env (mkSt c0)).2.calls = [] ∧
      (execute cfg env (mkSt c0)).2.cluster = c0) ∧
    (∀ (env : Env) (s : St),
      env.readError ReadCall.hello = none →
      env.readError ReadCall.connectionStatus = none →
      ReadCall.hello ∈ (validateConnection env s).2.reads ∧
      ReadCall.connectionStatus ∈ (validateConnection env s).2.reads) ∧
    (∀ (cfg : Config) (env : Env) (s : St), cfg.options.dryRun = true →
      (⟨LogLevel.info, "[试运行] 跳过实际执行"⟩ : LogEvent) ∈
        (enableDatabaseSharding cfg env s).2.logs) ∧
    (∀ (cfg : Config) (cc : CollConfig) (env : Env) (s : St),
      cfg.options.dryRun = true →
      env.readError ReadCall.getCollectionNames = none →
      env.readError (ReadCall.findShardedConfig (cfg.database ++ "." ++ cc.name)) = none →
      env.readError (ReadCall.getIndexes cc.name) = none →
      (s.cluster.shardedNs.lookup (cfg.database ++ "." ++ cc.name)).isSome = false →
      indexList s.cluster cc.name = [] →
      (processCollection cfg cc env s).2.calls = s.calls ∧
      ReadCall.getCollectionNames ∈ (processCollection cfg cc env s).2.reads ∧
      ReadCall.findShardedConfig (cfg.database ++ "." ++ cc.name) ∈
        (processCollection cfg cc env s).2.reads ∧
      ReadCall.getIndexes cc.name ∈ (processCollection cfg cc env s).2.reads ∧
      (⟨.info, "  [试运行] 创建 _id 哈希索引"⟩ : LogEvent) ∈
        (processCollection cfg cc env s).2.logs ∧
      (⟨.info, "  [试运行] 启用分片: " ++ (cfg.database ++ "." ++ cc.name)⟩ : LogEvent) ∈
        (processCollection cfg cc env s).2.logs ∧
      (⟨.info, "  [试运行] 分割分块"⟩ : LogEvent) ∈ (processCollection cfg cc env s).2.logs ∧
      (∀ idx ∈ cc.indexes,
        (⟨.info, "  [试运行] 创建索引: " ++ jsonStringifyKey idx.key⟩ : LogEvent) ∈
          (processCollection cfg cc env s).2.logs) ∧
      (s.cluster.collections.contains cc.name = false →
        (⟨.warning, "表 " ++ cc.name ++ " 不存在，将创建"⟩ : LogEvent) ∈
          (processCollection cfg cc env s).2.logs)) ∧
    (∀ (fn : String) (env : Env) (s : St),
      env.readError (ReadCall.findShardedConfig fn) = none →
      ReadCall.countChunks fn ∈ (validateSharding fn env s).2.reads) := by
  refine ⟨?_, validateConnection_reads, ?_, ?_, validateSharding_reads⟩
  · intro cfg env c0 hdry
    obtain ⟨hca, hcl⟩ :=
      rel_execute_dry stepRO_callsCluster pushOK_callsCluster hdry env (mkSt c0)
    constructor
    · rw [hca]
      rfl
    · rw [hcl]
      rfl
  · intro cfg env s hdry
    simp only [enableDatabaseSharding, logInfo]
    rw [bind_run (logE_run _ _ _ _)]
    rw [if_pos hdry]
    rw [logE_run]
    simp
  · intro cfg cc env s hdry hr1 hr2 hr3 hns hidx
    obtain ⟨σ, hrun, hca, hm1, hm2, hm3, hl1, hl2, hl3, hl4, hl5⟩ :=
      processCollection_dry_run cc env s hdry hr1 hr2 hr3 hns hidx
    rw [hrun]
    exact ⟨hca, hm1, hm2, hm3, hl1, hl2, hl3, hl4, hl5⟩

/-- Witness for C7: under the benign environment with dry-run switched on,
the run over an empty cluster issues no call, the connection and
per-collection reads happen, and the gated calls leave their dry-run logs. -/
theorem claim_C7_dry_run_checks_witness :
    (execute dryConfig okEnv (mkSt emptyCluster)).2.calls = [] ∧
    ReadCall.hello ∈ (validateConnection okEnv (mkSt emptyCluster)).2.reads ∧
    (⟨LogLevel.info, "[试运行] 跳过实际执行"⟩ : LogEvent) ∈
      (enableDatabaseSharding dryConfig okEnv (mkSt emptyCluster)).2.logs ∧
    ReadCall.getCollectionNames ∈
      (processCollection dryConfig ugIdCard okEnv (mkSt emptyCluster)).2.reads ∧
    ReadCall.countChunks "xsdk_v2_test.ug_id_card" ∈
      (validateSharding "xsdk_v2_test.ug_id_card" okEnv (mkSt emptyCluster)).2.reads :=
  ⟨(claim_C7_dry_run_checks.1 dryConfig okEnv emptyCluster rfl).1,
   (claim_C7_dry_run_checks.2.1 okEnv (mkSt emptyCluster) rfl rfl).1,
   claim_C7_dry_run_checks.2.2.1 dryConfig okEnv (mkSt emptyCluster) rfl,
   (claim_C7_dry_run_checks.2.2.2.1 dryConfig ugIdCard okEnv (mkSt emptyCluster)
      rfl rfl rfl rfl (by decide) (by decide)).2.1,
   claim_C7_dry_run_checks.2.2.2.2 "xsdk_v2_test.ug_id_card" okEnv (mkSt emptyCluster) rfl⟩

/-! Idempotence of a second run (C5). -/

theorem createIndexesLoop_all_existing (cfg : Config) (cc : CollConfig)
    (existing : List ExistingIndex) :
    ∀ (i : Nat) (l : List IndexConfig) (env : Env) (s : St),
    (∀ idx ∈ l, existing.any
      (fun e => jsonStringifyKey e.key == jsonStringifyKey idx.key) = true) →
    (createIndexesLoop cfg cc existing i l env s).2.calls = s.calls
  | i, [], env, s, _ => rfl
  | i, idx :: rest, env, s, hall => by
      simp only [createIndexesLoop, logInfo]
      rw [if_pos (hall idx (List.mem_cons_self _ _))]
      rw [bind_run (logE_run _ _ _ _)]
      rw [createIndexesLoop_all_existing cfg cc existing (i + 1) rest env _
        (fun idx2 h2 => hall idx2 (List.mem_cons_of_mem _ h2))]

/-- C5: a second run over an unchanged cluster is idempotent.  First part:
with `skipExistingSharded` set, a collection that exists and is already
sharded is short-circuited — its processing performs only the two checks,
issues no call, leaves the cluster untouched and records the collection as
skipped.  Second part: when every configured index key pattern already
exists on the collection, the business-index step issues no `createIndex`
call.  Third part: when the shard-key pattern already exists, the
shard-key-index step issues no call. -/
theorem claim_C5_second_run_skips :
    (∀ (cfg : Config) (cc : CollConfig) (env : Env) (s : St),
      cfg.options.skipExistingSharded = true →
      env.readError ReadCall.getCollectionNames = none →
      env.readError (ReadCall.findShardedConfig (cfg.database ++ "." ++ cc.name)) = none →
      s.cluster.collections.contains cc.name = true →
      (s.cluster.shardedNs.lookup (cfg.database ++ "." ++ cc.name)).isSome = true →
      processCollection cfg cc env s =
        (Except.ok (),
         { s with
           reads := s.reads ++ [ReadCall.getCollectionNames,
             ReadCall.findShardedConfig (cfg.database ++ "." ++ cc.name)],
           logs := s.logs ++ [⟨.divider, ""⟩,
             ⟨.info, "处理表: " ++ cc.name ++ " (" ++ cc.description ++ ")"⟩,
             ⟨.info, "表已分片，跳过"⟩],
           results := { s.results with skipped := s.results.skipped ++ [cc.name] } })) ∧
    (∀ (cfg : Config) (cc : CollConfig) (env : Env) (s : St),
      (∀ idx ∈ cc.indexes, ∃ e ∈ indexList s.cluster cc.name,
        jsonStringifyKey e.key = jsonStringifyKey idx.key) →
      (createIndexes cfg cc env s).2.calls = s.calls) ∧
    (∀ (cfg : Config) (cc : CollConfig) (env : Env) (s : St),
      (∃ e ∈ indexList s.cluster cc.name,
        jsonStringifyKey e.key = jsonStringifyKey cc.shardKey) →
      (createShardKeyIndex cfg cc env s).2.calls = s.calls) := by
  refine ⟨?_, ?_, ?_⟩
  · intro cfg cc env s hskip hr1 hr2 hex hsh
    rw [processCollection_run]
    have h1 : checkCollectionExists cc.name env (pcEntryState cc s) =
        (Except.ok (s.cluster.collections.contains cc.name),
         { pcEntryState cc s with
             reads := (pcEntryState cc s).reads ++ [ReadCall.getCollectionNames] }) := by
      simp only [checkCollectionExists]
      rw [bind_run (readM_run_none _ _ hr1), pure_run]
      rfl
    have hbody : processCollectionBody cfg cc env (pcEntryState cc s) =
        (Except.ok (),
         { s with
           reads := s.reads ++ [ReadCall.getCollectionNames,
             ReadCall.findShardedConfig (cfg.database ++ "." ++ cc.name)],
           logs := s.logs ++ [⟨.divider, ""⟩,
             ⟨.info, "处理表: " ++ cc.name ++ " (" ++ cc.description ++ ")"⟩,
             ⟨.info, "表已分片，跳过"⟩],
           results := { s.results with skipped := s.results.skipped ++ [cc.name] } }) := by
      simp only [processCollectionBody, processCollectionTail, logInfo]
      rw [bind_run h1]
      rw [hex]
      rw [if_neg (show ¬ ((!true) = true) from by simp)]
      rw [bind_run (pure_run () env _)]
      simp only [checkIfSharded]
      rw [bind_run (readM_run_none _ _ hr2)]
      have hsh2 : (List.lookup (cfg.database ++ "." ++ cc.name)
          (pcEntryState cc s).cluster.shardedNs).isSome = true := hsh
      rw [hsh2]
      rw [hskip]
      rw [if_pos (show (true && true) = true from rfl)]
      rw [bind_run (logE_run _ _ _ _)]
      rw [pushSkipped_run]
      simp [pcEntryState]
    exact tryCatch_run_ok hbody _
  · intro cfg cc env s hall
    by_cases hempty : cc.indexes.isEmpty = true
    · simp [createIndexes, hempty, pure_run]
    · have hall2 : ∀ idx ∈ cc.indexes, (indexList s.cluster cc.name).any
          (fun e => jsonStringifyKey e.key == jsonStringifyKey idx.key) = true := by
        intro idx hm
        obtain ⟨e, he, hk⟩ := hall idx hm
        rw [List.any_eq_true]
        exact ⟨e, he, by rw [hk]; exact beq_self_eq_true _⟩
      rcases hre : env.readError (ReadCall.getIndexes cc.name) with _ | m
      · simp only [createIndexes, hempty, logInfo, if_false, Bool.false_eq_true]
        rw [bind_run (logE_run _ _ _ _), bind_run (readM_run_none _ _ hre)]
        exact createIndexesLoop_all_existing cfg cc (indexList s.cluster cc.name) 0
          cc.indexes env _ hall2
      · simp only [createIndexes, hempty, logInfo, if_false, Bool.false_eq_true]
        rw [bind_run (logE_run _ _ _ _), bind_run_err (readM_run_some _ _ hre)]
  · intro cfg cc env s hex
    have hfound : (indexList s.cluster cc.name).any
        (fun idx => jsonStringifyKey idx.key == jsonStringifyKey cc.shardKey) = true := by
      rw [List.any_eq_true]
      rcases hex with ⟨e, he, hk⟩
      exact ⟨e, he, by rw [hk]; exact beq_self_eq_true _⟩
    rcases hre : env.readError (ReadCall.getIndexes cc.name) with _ | m
    · simp only [createShardKeyIndex, logInfo]
      rw [bind_run (logE_run _ _ _ _), bind_run (readM_run_none _ _ hre)]
      rw [if_pos hfound]
      rfl
    · simp only [createShardKeyIndex, logInfo]
      rw [bind_run (logE_run _ _ _ _), bind_run_err (readM_run_some _ _ hre)]

/-- Witness for C5: over a cluster where `ug_id_card` exists, is sharded and
carries an index with the configured key pattern, its processing records it
as skipped with no calls, and neither index step issues a call. -/
theorem claim_C5_second_run_skips_witness :
    (processCollection CONFIG ugIdCard okEnv
        (mkSt { emptyCluster with
          collections := ["ug_id_card"],
          shardedNs := [("xsdk_v2_test.ug_id_card", [("idCard", KeyVal.asc)])] })).2.results.skipped =
      ["ug_id_card"] ∧
    (processCollection CONFIG ugIdCard okEnv
        (mkSt { emptyCluster with
          collections := ["ug_id_card"],
          shardedNs := [("xsdk_v2_test.ug_id_card", [("idCard", KeyVal.asc)])] })).2.calls = [] ∧
    (createIndexes CONFIG ugIdCard okEnv (mkSt c10Cluster)).2.calls = [] ∧
    (createShardKeyIndex CONFIG ugIdCard okEnv (mkSt c10Cluster)).2.calls = [] := by
  refine ⟨?_, ?_, ?_, ?_⟩
  · rw [claim_C5_second_run_skips.1 CONFIG ugIdCard okEnv
      (mkSt { emptyCluster with
        collections := ["ug_id_card"],
        shardedNs := [("xsdk_v2_test.ug_id_card", [("idCard", KeyVal.asc)])] })
      rfl rfl rfl (by decide) (by decide)]
    rfl
  · rw [claim_C5_second_run_skips.1 CONFIG ugIdCard okEnv
      (mkSt { emptyCluster with
        collections := ["ug_id_card"],
        shardedNs := [("xsdk_v2_test.ug_id_card", [("idCard", KeyVal.asc)])] })
      rfl rfl rfl (by decide) (by decide)]
    rfl
  · exact claim_C5_second_run_skips.2.1 CONFIG ugIdCard okEnv (mkSt c10Cluster) (by decide)
  · exact claim_C5_second_run_skips.2.2 CONFIG ugIdCard okEnv (mkSt c10Cluster) (by decide)

/-- C10: index existence is decided by comparing only the serialised key
pattern, ignoring index options and names.  First part: whenever any index
whose serialised key pattern equals that of `k` already exists on the
collection, `createIndexes` issues no `createIndex` call for `k` (whatever
the configured options are).  Second part: under the same condition for the
shard key, `createShardKeyIndex` issues no call at all. -/
theorem claim_C10_key_only_comparison :
    (∀ (cfg : Config) (cc : CollConfig) (env : Env) (s : St) (k : Key),
      (∃ e ∈ indexList s.cluster cc.name, jsonStringifyKey e.key = jsonStringifyKey k) →
      (createIndexes cfg cc env s).2.calls.filter (isCreateIndexKey cc.name k) =
        s.calls.filter (isCreateIndexKey cc.name k)) ∧
    (∀ (cfg : Config) (cc : CollConfig) (env : Env) (s : St),
      (∃ e ∈ indexList s.cluster cc.name,
        jsonStringifyKey e.key = jsonStringifyKey cc.shardKey) →
      (createShardKeyIndex cfg cc env s).2.calls = s.calls) := by
  constructor
  · intro cfg cc env s k hex
    by_cases hempty : cc.indexes.isEmpty = true
    · simp [createIndexes, hempty, pure_run]
    · rcases hre : env.readError (ReadCall.getIndexes cc.name) with _ | m
      · have hrun : createIndexes cfg cc env s =
            createIndexesLoop cfg cc (indexList s.cluster cc.name) 0 cc.indexes env
              { s with
                  logs := s.logs ++
                    [⟨.info, "创建业务索引 (" ++ toString cc.indexes.length ++ " 个)"⟩],
                  reads := s.reads ++ [ReadCall.getIndexes cc.name] } := by
          simp only [createIndexes, hempty, logInfo, if_false, Bool.false_eq_true]
          rw [bind_run (logE_run _ _ _ _), bind_run (readM_run_none _ _ hre)]
        rw [hrun]
        exact createIndexesLoop_filter cfg cc k (indexList s.cluster cc.name) hex 0
          cc.indexes env _
      · simp only [createIndexes, hempty, logInfo, if_false, Bool.false_eq_true]
        rw [bind_run (logE_run _ _ _ _), bind_run_err (readM_run_some _ _ hre)]
  · intro cfg cc env s hex
    have hfound : (indexList s.cluster cc.name).any
        (fun idx => jsonStringifyKey idx.key == jsonStringifyKey cc.shardKey) = true := by
      rw [List.any_eq_true]
      rcases hex with ⟨e, he, hk⟩
      exact ⟨e, he, by rw [hk]; exact beq_self_eq_true _⟩
    rcases hre : env.readError (ReadCall.getIndexes cc.name) with _ | m
    · simp only [createShardKeyIndex, logInfo]
      rw [bind_run (logE_run _ _ _ _), bind_run (readM_run_none _ _ hre)]
      rw [if_pos hfound]
      rfl
    · simp only [createShardKeyIndex, logInfo]
      rw [bind_run (logE_run _ _ _ _), bind_run_err (readM_run_some _ _ hre)]

/-- Witness for C10: on a collection carrying an index with the same key
pattern as the configured unique `idx_idCard` index but a different name and
no uniqueness, neither the business-index step nor the shard-key-index step
issues a call for that pattern. -/
theorem claim_C10_key_only_comparison_witness :
    ((createIndexes CONFIG ugIdCard okEnv (mkSt c10Cluster)).2.calls.filter
        (isCreateIndexKey "ug_id_card" [("idCard", .asc)]) =
      (mkSt c10Cluster).calls.filter (isCreateIndexKey "ug_id_card" [("idCard", .asc)])) ∧
    (createShardKeyIndex CONFIG ugIdCard okEnv (mkSt c10Cluster)).2.calls =
      (mkSt c10Cluster).calls :=
  ⟨claim_C10_key_only_comparison.1 CONFIG ugIdCard okEnv _ [("idCard", .asc)] (by decide),
   claim_C10_key_only_comparison.2 CONFIG ugIdCard okEnv _ (by decide)⟩

end SetupTableShard
